import Mathlib

/-!
# hueblob: stereo blob tracking, 3D reconstruction and registry

A shallow embedding of `src/libhueblob/hueblob.cpp` (the functions of its
anonymous namespace `projectTo3d`, `hasDisparityValue`, `getPoint`,
`get3dCloud`, and the member functions `HueBlob::trackBlob`, `imageCallback`,
`AddObjectCallback`, `RmObjectCallback`, `checkInputsSynchronized` and the
preload loop of `setupInfrastructure`) and of `HueBlob::AddObjectCallback` of
`src/hueblob.cpp` (namespace `Node`) and of the copy of `hasDisparityValue` in
`src/nodes/roi2CloudProjector.cpp` (namespace `Roi2CloudProjector`), together
with the data they read and write.

Modelling conventions.

* `float` and `double` values are elements of `Fp`: an exact rational, or one
  of the IEEE specials `+inf`, `-inf`, `NaN`; a zero carries no sign and the
  specials follow IEEE 754.
* Rounding to binary32 (`Fp.toFloat`, round to nearest, ties to even) is
  modelled in the head of `get3dCloud`, where it decides the consistency gate:
  the two centres are stored in `cv::Point2f`, the coordinates of the centres
  are subtracted as `float`, and the right width is converted by `float(...)`.
  The quotient of the width test is formed in `double` from two integers of at
  most 32 bits; it is either equal to 1.5 (to 0.5) or differs from it by at
  least `2^-32`, far more than the rounding of the division, so the model
  compares the exact quotient.  Elsewhere (`projectTo3d`, the density, the
  centroid, the histogram scale) arithmetic on finite values is exact: the
  model agrees with the machine on every quantity that is exactly
  representable and says which formula is computed, not how it rounds.
* `int` fields of `cv::Rect` are `Int` (signed overflow is undefined in C++ and
  is not modelled there); `unsigned int` products wrap modulo `2 ^ 32` as in
  the source.  The `int` counters of the watchdog and the product
  `3 * all_received_` wrap to the two's complement value (`toInt32`), which is
  what the hardware gives where C++ leaves the overflow undefined.
* A call that throws (`std::vector::at`), trips a `ROS_ASSERT`, dereferences an
  empty `boost::optional` or a null shared pointer, or indexes a vector past
  its end with `operator[]` ends in `Except.error`.
* `ROS_ASSERT` is modelled as checked, as in a build without `NDEBUG`.
* Logging (`ROS_WARN`, `ROS_DEBUG`) and the publication of the filtered cloud
  on `cloud_pub_` have no effect on the blob or the registries and are omitted,
  except for the two warnings the claims are about: the result of a
  registration and of the watchdog says whether the warning was emitted.
* `Object::track`, `cv_bridge::toCvShare`, `cv_bridge::toCvCopy`,
  `cv::RotatedRect::boundingRect`, the outlier filter of PCL, the drawing
  calls of OpenCV and the number of subscribers of the tracked-image topic are
  parameters (`Env`); the bodies of `Object` and the message and class
  declarations are not part of the sources.
-/

namespace Hueblob

/-! ## Floating point values -/

/-- Value of a C++ `float`/`double`: a rational or an IEEE special. -/
inductive Fp where
  | fin (q : ℚ)
  | pinf
  | ninf
  | nan
  deriving DecidableEq

namespace Fp

/-- Unary minus. -/
def neg : Fp → Fp
  | fin q => fin (-q)
  | pinf => ninf
  | ninf => pinf
  | nan => nan

/-- IEEE addition (exact on finite values). -/
def add : Fp → Fp → Fp
  | nan, _ => nan
  | _, nan => nan
  | pinf, ninf => nan
  | ninf, pinf => nan
  | pinf, _ => pinf
  | _, pinf => pinf
  | ninf, _ => ninf
  | _, ninf => ninf
  | fin a, fin b => fin (a + b)

/-- IEEE subtraction. -/
def sub (a b : Fp) : Fp := add a (neg b)

/-- Infinity of the sign of `s * t` for non-zero signs, `NaN` when a sign is zero. -/
def signedInf (s t : ℚ) : Fp :=
  if s = 0 ∨ t = 0 then nan else if (0 < s) = (0 < t) then pinf else ninf

/-- Sign of an `Fp` that is not `NaN`, as a rational in `{-1, 0, 1}`. -/
def sgn : Fp → ℚ
  | fin q => if 0 < q then 1 else if q < 0 then -1 else 0
  | pinf => 1
  | ninf => -1
  | nan => 0

/-- IEEE multiplication (exact on finite values; `inf * 0 = NaN`). -/
def mul : Fp → Fp → Fp
  | nan, _ => nan
  | _, nan => nan
  | fin a, fin b => fin (a * b)
  | a, b => signedInf (sgn a) (sgn b)

/-- IEEE division (exact on finite values): `x / 0` is an infinity of the sign
of `x` for `x ≠ 0`, `0 / 0` and `inf / inf` are `NaN`, `x / inf = 0`. -/
def div : Fp → Fp → Fp
  | nan, _ => nan
  | _, nan => nan
  | fin a, fin b =>
    if b = 0 then (if a = 0 then nan else if 0 < a then pinf else ninf) else fin (a / b)
  | fin _, _ => fin 0
  | pinf, fin b => if b < 0 then ninf else pinf
  | ninf, fin b => if b < 0 then pinf else ninf
  | _, _ => nan

/-- The C++ comparison `a < b` (false when an operand is `NaN`). -/
def lt : Fp → Fp → Bool
  | nan, _ => false
  | _, nan => false
  | fin a, fin b => decide (a < b)
  | ninf, ninf => false
  | ninf, _ => true
  | _, ninf => false
  | pinf, _ => false
  | _, pinf => true

/-- The C++ comparison `a > b`. -/
def gt (a b : Fp) : Bool := lt b a

/-- The C++ comparison `a == b` (false when an operand is `NaN`). -/
def eq : Fp → Fp → Bool
  | fin a, fin b => decide (a = b)
  | pinf, pinf => true
  | ninf, ninf => true
  | _, _ => false

/-- The C++ comparison `a != b` (true when an operand is `NaN`). -/
def ne (a b : Fp) : Bool := !(eq a b)

/-- Model of `std::isnan`. -/
def isnan : Fp → Bool
  | nan => true
  | _ => false

/-- Model of `std::isinf`. -/
def isinf : Fp → Bool
  | pinf => true
  | ninf => true
  | _ => false

/-- Conversion of a C++ integer. -/
def ofInt (n : Int) : Fp := fin n

/-- The C++ conversion to `bool` (`x != 0`). -/
def toBool (a : Fp) : Bool := ne a (fin 0)

instance : Add Fp := ⟨add⟩
instance : Sub Fp := ⟨sub⟩
instance : Mul Fp := ⟨mul⟩
instance : Div Fp := ⟨div⟩
instance : Neg Fp := ⟨neg⟩
instance : Inhabited Fp := ⟨fin 0⟩

/-- Decoding of an IEEE 754 binary32 bit pattern (`memcpy` into a `float`). -/
def ofBits (bits : Nat) : Fp :=
  let s : Nat := bits / 2 ^ 31 % 2
  let e : Nat := bits / 2 ^ 23 % 256
  let m : Nat := bits % 2 ^ 23
  if e = 255 then
    if m = 0 then (if s = 0 then pinf else ninf) else nan
  else
    let mag : ℚ :=
      if e = 0 then (m : ℚ) / ((2 ^ 149 : ℕ) : ℚ)
      else (((2 ^ 23 + m) * 2 ^ (e - 150) : ℕ) : ℚ) / ((2 ^ (150 - e) : ℕ) : ℚ)
    fin (if s = 0 then mag else -mag)

/-- The C++ conversion of a `float` to `int`: truncation toward zero; for a
value outside the range of `int`, an infinity or `NaN` the conversion is
undefined and the model gives `-2^31`, the result of the x86 conversion. -/
def toInt : Fp → Int
  | fin q =>
    let t : Int := if 0 ≤ q then ⌊q⌋ else ⌈q⌉
    if -2 ^ 31 ≤ t ∧ t < 2 ^ 31 then t else -2 ^ 31
  | _ => -2 ^ 31

/-- Rounding of a rational to the nearest integer, a tie to the even one. -/
def roundHalfEven (q : ℚ) : ℤ :=
  if q - ⌊q⌋ < 1 / 2 then ⌊q⌋
  else if 1 / 2 < q - ⌊q⌋ then ⌊q⌋ + 1
  else if ⌊q⌋ % 2 = 0 then ⌊q⌋ else ⌊q⌋ + 1

/-- Conversion to IEEE 754 binary32 (a C++ `float`), round to nearest, ties to
even: a finite non-zero value is rounded to a multiple of the unit in the last
place of its binade (24 significant bits, exponents from -126, subnormals
below), and becomes an infinity when the rounded magnitude reaches `2^128`. -/
def toFloat : Fp → Fp
  | fin q =>
    if q = 0 then fin 0
    else
      let e : ℤ := max (Int.log 2 |q|) (-126)
      let ulp : ℚ := 2 ^ (e - 23)
      let r : ℚ := (roundHalfEven (q / ulp) : ℚ) * ulp
      if 2 ^ 128 ≤ |r| then (if 0 < q then pinf else ninf) else fin r
  | x => x

end Fp

/-! ## Messages and OpenCV/PCL value types -/

/-- Message `std_msgs/Header`. -/
structure Header where
  seq : Nat
  stamp : Nat
  frame_id : String
  deriving DecidableEq, Inhabited

/-- Message `sensor_msgs/Image`: `height`, `width` and `step` are `uint32`,
`data` is the byte vector. -/
structure Image where
  header : Header
  height : Nat
  width : Nat
  encoding : String
  step : Nat
  data : List Nat
  deriving DecidableEq, Inhabited

/-- Message `stereo_msgs/DisparityImage`. -/
structure DisparityImage where
  header : Header
  image : Image
  f : Fp
  T : Fp
  min_disparity : Fp
  max_disparity : Fp
  deriving DecidableEq, Inhabited

/-- Message `sensor_msgs/CameraInfo`: `P` is the row-major 3x4 projection matrix. -/
structure CameraInfo where
  header : Header
  P : Fin 12 → Fp

/-- Type `cv::Rect` (`int` fields). -/
structure Rect where
  x : Int
  y : Int
  width : Int
  height : Int
  deriving DecidableEq, Inhabited

/-- Type `cv::Point2f`. -/
structure Point2f where
  x : Fp
  y : Fp
  deriving DecidableEq, Inhabited

/-- Types `cv::Point3f`, `cv::Point3d` and `pcl::PointXYZ`. -/
structure Point3f where
  x : Fp
  y : Fp
  z : Fp
  deriving DecidableEq, Inhabited

/-- How a call ends when it does not return. -/
inductive Fault where
  | outOfRange
  | assertFailed
  | emptyOptional
  | nullPointer
  | conversionFailed
  deriving DecidableEq

/-! ## The anonymous namespace of `libhueblob/hueblob.cpp` -/

/-- Function `projectTo3d`: the three outputs `x`, `y`, `z` are returned as a
point.  `shift_correction` is a parameter of the source whose only use is
commented out. -/
def projectTo3d (u v disparity : Fp) (disparity_image : DisparityImage)
    (camera_info : CameraInfo) (_shift_correction : Bool) : Point3f :=
  let fx := camera_info.P ⟨0 * 4 + 0, by decide⟩
  let fy := camera_info.P ⟨1 * 4 + 1, by decide⟩
  let cx := camera_info.P ⟨0 * 4 + 2, by decide⟩
  let cy := camera_info.P ⟨1 * 4 + 2, by decide⟩
  let z := disparity_image.f * disparity_image.T / disparity
  let x := (u - cx) / fx
  let x := x * z
  let y := (v - cy) / fy
  let y := y * z
  ⟨x, y, z⟩

/-- Conversion of an `int` argument to an `unsigned int` parameter. -/
def toUnsigned (i : Int) : Nat := (i % 2 ^ 32).toNat

/-- The expression `memcpy(&val, &(data.at(idx)), sizeof(float))`: `at` throws
past the end of the vector, and a copy that would run over the end of the
vector is a fault as well; the four bytes are read little-endian. -/
def readFloat (data : List Nat) (idx : Nat) : Except Fault Fp :=
  if idx + 4 ≤ data.length then
    .ok (Fp.ofBits (data.getD idx 0 + 2 ^ 8 * data.getD (idx + 1) 0
      + 2 ^ 16 * data.getD (idx + 2) 0 + 2 ^ 24 * data.getD (idx + 3) 0))
  else .error .outOfRange

/-- The byte index `h*image.step + sizeof(float)*w`: the product of the two
`unsigned int` wraps, the sum is a `size_t`. -/
def byteIndex (image : Image) (h w : Nat) : Nat := h * image.step % 2 ^ 32 + 4 * w

/-- Function `hasDisparityValue`. -/
def hasDisparityValue (disparity_image : DisparityImage) (h w : Nat) : Except Fault Bool :=
  if h ≥ disparity_image.image.height && w ≥ disparity_image.image.width then .ok false
  else
    match readFloat disparity_image.image.data (byteIndex disparity_image.image h w) with
    | .error e => .error e
    | .ok val =>
      if Fp.isnan val || Fp.isinf val then .ok false
      else if Fp.lt val disparity_image.min_disparity
          || Fp.gt val disparity_image.max_disparity then .ok false
      else .ok true

/-- Function `getPoint`. -/
def getPoint (image : Image) (h w : Nat) : Except Fault Fp :=
  if h < image.height && w < image.width then readFloat image.data (byteIndex image h w)
  else .error .assertFailed

/-- Centre of a rectangle as constructed at the head of `get3dCloud`:
`cv::Point2f(x + width*0.5, y + height*0.5)`; the sums are exact in `double`
and the constructor stores them as `float`. -/
def rectCenter (r : Rect) : Point2f :=
  ⟨Fp.toFloat (Fp.ofInt r.x + Fp.ofInt r.width * Fp.fin (1 / 2)),
   Fp.toFloat (Fp.ofInt r.y + Fp.ofInt r.height * Fp.fin (1 / 2))⟩

/-- The condition of the `if` of `get3dCloud`: the boxes are not aligned or
too different in size.  `diffy` is the `float` difference of the stored
centres, the width ratio is `1.0*rect.width/float(right_rect.width)`. -/
def boxesMismatch (rect right_rect : Rect) : Bool :=
  let diffy := Fp.toFloat ((rectCenter right_rect).y - (rectCenter rect).y)
  Fp.gt diffy (Fp.fin 10) || Fp.lt diffy (Fp.fin (-10))
    || Fp.gt (Fp.fin 1 * Fp.ofInt rect.width / Fp.toFloat (Fp.ofInt right_rect.width))
      (Fp.fin (3 / 2))
    || Fp.lt (Fp.fin 1 * Fp.ofInt rect.width / Fp.toFloat (Fp.ofInt right_rect.width))
      (Fp.fin (1 / 2))

/-- First statement of `get3dCloud`: the value assigned to `center_est`. -/
def centerEstimate (disparity_image : DisparityImage) (camera_info : CameraInfo)
    (rect right_rect : Rect) : Point3f :=
  if boxesMismatch rect right_rect then ⟨Fp.fin 0, Fp.fin 0, Fp.fin 0⟩
  else
    let disparity := Fp.toFloat ((rectCenter rect).x - (rectCenter right_rect).x)
    projectTo3d (Fp.ofInt rect.x) (Fp.ofInt rect.y) disparity disparity_image camera_info true

/-- Body of the inner loop of `get3dCloud` at row `i`, column `j`. -/
def cloudPixel (disparity_image : DisparityImage) (camera_info : CameraInfo)
    (i j : Int) (cloud : List Point3f) : Except Fault (List Point3f) :=
  match hasDisparityValue disparity_image (toUnsigned i) (toUnsigned j) with
  | .error e => .error e
  | .ok false => .ok cloud
  | .ok true =>
    match getPoint disparity_image.image (toUnsigned i) (toUnsigned j) with
    | .error e => .error e
    | .ok disparity =>
      if Fp.ne disparity_image.max_disparity (Fp.fin 0) then
        if Fp.eq disparity (Fp.fin 0) then .ok cloud
        else .ok (cloud ++ [projectTo3d (Fp.ofInt j) (Fp.ofInt i) disparity
          disparity_image camera_info true])
      else .error .assertFailed

/-- Inner loop of `get3dCloud` over the columns `js` of row `i`. -/
def cloudRow (disparity_image : DisparityImage) (camera_info : CameraInfo) (i : Int) :
    List Int → List Point3f → Except Fault (List Point3f)
  | [], cloud => .ok cloud
  | j :: js, cloud =>
    match cloudPixel disparity_image camera_info i j cloud with
    | .error e => .error e
    | .ok cloud1 => cloudRow disparity_image camera_info i js cloud1

/-- Outer loop of `get3dCloud` over the rows `is`, each over the columns `js`. -/
def cloudRows (disparity_image : DisparityImage) (camera_info : CameraInfo) (js : List Int) :
    List Int → List Point3f → Except Fault (List Point3f)
  | [], cloud => .ok cloud
  | i :: is, cloud =>
    match cloudRow disparity_image camera_info i js cloud with
    | .error e => .error e
    | .ok cloud1 => cloudRows disparity_image camera_info js is cloud1

/-- The values `start, start+1, ..., start+len-1` of a loop variable
(`for (int i = start; i < start + len; ++i)`); empty when `len ≤ 0`. -/
def loopRange (start len : Int) : List Int :=
  (List.range len.toNat).map (fun (k : Nat) => start + (k : Int))

/-- Function `get3dCloud`: returns the point cloud after the appends and the
value of `center_est`. -/
def get3dCloud (disparity_image : DisparityImage) (camera_info : CameraInfo)
    (rect right_rect : Rect) (pcl_cloud : List Point3f) :
    Except Fault (List Point3f × Point3f) :=
  let center_est := centerEstimate disparity_image camera_info rect right_rect
  match cloudRows disparity_image camera_info (loopRange rect.x rect.width)
      (loopRange rect.y rect.height) pcl_cloud with
  | .error e => .error e
  | .ok cloud => .ok (cloud, center_est)

/-! ## Objects, registries and the node state -/

/-- Type `cv::Mat` (an image converted by `cv_bridge`). -/
structure Mat where
  rows : Nat
  cols : Nat
  data : List Nat
  deriving DecidableEq, Inhabited

/-- Type `cv::RotatedRect`: centre, size (width, height) and angle. -/
structure RotatedRect where
  center : Point2f
  size : Point2f
  angle : Fp
  deriving DecidableEq, Inhabited

/-- Struct `Object` of `libhueblob/object.hh`; the anchor fields carry the
names used by `libhueblob/hueblob.cpp`. -/
structure Object where
  anchor_x_ : Fp
  anchor_y_ : Fp
  anchor_z_ : Fp
  modelHistogram : List (List Fp)
  hueHistogram : List (List Fp)
  searchWindow_ : Rect
  deriving DecidableEq

/-- Modelled from the spec: the constructor `Object::Object()`, whose body is
not part of the sources; an object is "created on first registration (empty
histograms, zero anchor)". -/
def Object.new : Object :=
  { anchor_x_ := Fp.fin 0, anchor_y_ := Fp.fin 0, anchor_z_ := Fp.fin 0,
    modelHistogram := [], hueHistogram := [], searchWindow_ := ⟨0, 0, 0, 0⟩ }

/-- A `std::map<std::string, Object>`: the entries in increasing key order. -/
abbrev Registry := List (String × Object)

namespace Registry

/-- Lookup of a key (`std::map::find`). -/
def find (m : Registry) (k : String) : Option Object := List.lookup k m

/-- The key set, in iteration order. -/
def keys (m : Registry) : List String := m.map Prod.fst

/-- Insertion of a new entry at its place in key order. -/
def insertNew (k : String) (o : Object) : Registry → Registry
  | [] => [(k, o)]
  | (k1, o1) :: rest =>
    if k < k1 then (k, o) :: (k1, o1) :: rest
    else if k = k1 then (k1, o1) :: rest
    else (k1, o1) :: insertNew k o rest

/-- The expression `m[k]` (`std::map::operator[]`): the object stored under
`k`, a default-constructed one being inserted first when `k` is absent. -/
def subscript (m : Registry) (k : String) : Object × Registry :=
  match m.find k with
  | some o => (o, m)
  | none => (Object.new, insertNew k Object.new m)

/-- Write through the reference returned by `m[k]`. -/
def assign (m : Registry) (k : String) (o : Object) : Registry :=
  m.map (fun p => if p.1 = k then (p.1, o) else p)

/-- The call `m.erase(k)`. -/
def erase (m : Registry) (k : String) : Registry :=
  m.filter (fun p => p.1 ≠ k)

end Registry

/-- The members of class `HueBlob` read or written by the tracking pipeline,
as `hueblob.cpp` initialises and uses them (the class declaration is not part
of the sources): the two registries, the names under which `blob_pubs_` holds
an advertised publisher (an entry default-constructed by `operator[]` is not
advertised), the four counters of the watchdog and the shared pointers to the
latest frame tuple, which may be null. -/
structure HueBlob where
  frame_ : String
  left_objects_ : Registry
  right_objects_ : Registry
  blob_pubs_ : List String
  left_received_ : Int
  right_received_ : Int
  disp_received_ : Int
  all_received_ : Int
  leftImage_ : Option Image
  rightImage_ : Option Image
  leftCamera_ : Option CameraInfo
  disparity_ : Option DisparityImage

/-- Message `geometry_msgs/Vector3`. -/
structure Vector3 where
  x : Fp
  y : Fp
  z : Fp
  deriving DecidableEq

/-- Message `geometry_msgs/Quaternion`. -/
structure Quaternion where
  x : Fp
  y : Fp
  z : Fp
  w : Fp
  deriving DecidableEq

/-- Message `geometry_msgs/Transform`. -/
structure Transform where
  translation : Vector3
  rotation : Quaternion
  deriving DecidableEq

/-- Message `geometry_msgs/TransformStamped`. -/
structure TransformStamped where
  header : Header
  child_frame_id : String
  transform : Transform
  deriving DecidableEq

/-- Message `hueblob/Blob` (its definition is not part of the sources), with
the fields `trackBlob` writes and the types it uses them at: `boundingbox_2d`
is a vector (it is resized), `boundingbox_3d` an array of six (it is indexed
up to 5 without a resize). -/
structure Blob where
  header : Header
  name : String
  position : TransformStamped
  cloud_centroid : TransformStamped
  boundingbox_2d : List Fp
  boundingbox_3d : List Fp
  depth_density : Fp
  deriving DecidableEq

/-- Modelled from the spec: a default-constructed
`geometry_msgs/TransformStamped`, all numbers zero and strings empty. -/
def TransformStamped.new : TransformStamped :=
  { header := ⟨0, 0, ""⟩, child_frame_id := "",
    transform := ⟨⟨Fp.fin 0, Fp.fin 0, Fp.fin 0⟩, ⟨Fp.fin 0, Fp.fin 0, Fp.fin 0, Fp.fin 0⟩⟩ }

/-- Modelled from the spec: the default-constructed message of
`hueblob::Blob blob;`, whose generated constructor is not part of the
sources; a blob that was not filled has "zero" 2D and 3D fields and a "zeroed
depth density": every number is zero, every string and vector empty. -/
def Blob.new : Blob :=
  { header := ⟨0, 0, ""⟩, name := "", position := TransformStamped.new,
    cloud_centroid := TransformStamped.new, boundingbox_2d := [],
    boundingbox_3d := List.replicate 6 (Fp.fin 0), depth_density := Fp.fin 0 }

/-- The capabilities the pipeline consumes from outside `hueblob.cpp`:
`cv_bridge::toCvShare` (which throws on an image it cannot convert),
`Object::track` (which returns a rectangle or nothing and may move the
object's search window), `cv::RotatedRect::boundingRect`, the statistical
outlier removal of PCL with `MeanK = 50`, `StddevMulThresh = 1.0`, and for
`publish_tracked_images` the value of `tracked_left_pub_.getNumSubscribers()`,
`cv_bridge::toCvCopy`, and the pair of calls `cv::rectangle`, `cv::putText`
that draws a box and a name into an image. -/
structure Env where
  toCvShare : Image → String → Option Mat
  track : Object → Mat → Option RotatedRect × Object
  boundingRect : RotatedRect → Rect
  sorFilter : List Point3f → List Point3f
  numSubscribers : Nat
  toCvCopy : Image → String → Option Mat
  draw : Mat → Rect → String → Mat

/-- Sum of a list of values, from zero. -/
def Fp.sum (l : List Fp) : Fp := l.foldl (fun a b => a + b) (Fp.fin 0)

/-- Modelled from the spec: `pcl::compute3DCentroid`, "the centroid (arithmetic
mean)" of the points; the centroid passed in is kept for an empty cloud. -/
def compute3DCentroid (cloud : List Point3f) (centroid : Point3f) : Point3f :=
  if cloud = [] then centroid
  else
    ⟨Fp.sum (cloud.map Point3f.x) / Fp.ofInt cloud.length,
     Fp.sum (cloud.map Point3f.y) / Fp.ofInt cloud.length,
     Fp.sum (cloud.map Point3f.z) / Fp.ofInt cloud.length⟩

/-- The smaller of two values (`b < a ? b : a`). -/
def Fp.min (a b : Fp) : Fp := if Fp.lt b a then b else a

/-- The larger of two values (`a < b ? b : a`). -/
def Fp.max (a b : Fp) : Fp := if Fp.lt a b then b else a

/-- The constant `FLT_MAX`. -/
def FLT_MAX : Fp := Fp.fin (((2 ^ 24 - 1) * 2 ^ 104 : ℕ) : ℚ)

/-- Modelled from the spec: `pcl::getMinMax3D`, "the axis-aligned min/max
extents" of the points, folded from `FLT_MAX` and `-FLT_MAX`. -/
def getMinMax3D (cloud : List Point3f) : Point3f × Point3f :=
  cloud.foldl
    (fun acc p =>
      (⟨Fp.min acc.1.x p.x, Fp.min acc.1.y p.y, Fp.min acc.1.z p.z⟩,
       ⟨Fp.max acc.2.x p.x, Fp.max acc.2.y p.y, Fp.max acc.2.z p.z⟩))
    (⟨FLT_MAX, FLT_MAX, FLT_MAX⟩, ⟨-FLT_MAX, -FLT_MAX, -FLT_MAX⟩)

/-- The tail of `HueBlob::trackBlob`, from the computation of `depth_density`
to the final `return blob`: `pcl_cloud` and `center_est` are the outputs of
`get3dCloud`, `object` is `left_objects_[name]`. -/
def fillBlob (env : Env) (leftImage : Image) (object : Object) (rect : Rect) (blob : Blob)
    (pcl_cloud : List Point3f) (center_est : Point3f) : Blob :=
  let depth_density :=
    Fp.fin 1 * Fp.ofInt pcl_cloud.length / Fp.ofInt (rect.width * rect.height)
  let centroid : Point3f := ⟨Fp.fin 0, Fp.fin 0, Fp.fin 0⟩
  let cloud_filtered := env.sorFilter pcl_cloud
  let centroid :=
    if pcl_cloud.length > 0 then compute3DCentroid cloud_filtered centroid else centroid
  let boundingbox_3d :=
    if pcl_cloud.length > 0 then
      (((((blob.boundingbox_3d.set 0 (getMinMax3D cloud_filtered).1.x).set 1
        (getMinMax3D cloud_filtered).1.y).set 2 (getMinMax3D cloud_filtered).1.z).set 3
        (getMinMax3D cloud_filtered).2.x).set 4 (getMinMax3D cloud_filtered).2.y).set 5
        (getMinMax3D cloud_filtered).2.z
    else blob.boundingbox_3d
  let center : Point3f :=
    ⟨centroid.x + object.anchor_x_, centroid.y + object.anchor_y_,
     centroid.z + object.anchor_z_⟩
  { blob with
    boundingbox_3d := boundingbox_3d,
    cloud_centroid :=
      { blob.cloud_centroid with
        header := { blob.cloud_centroid.header with stamp := leftImage.header.stamp },
        transform :=
          ⟨⟨center.x, center.y, center.z⟩, ⟨Fp.fin 0, Fp.fin 0, Fp.fin 0, Fp.fin 1⟩⟩ },
    position :=
      { blob.position with
        header := { blob.position.header with stamp := leftImage.header.stamp },
        transform :=
          ⟨⟨center_est.x, center_est.y, center_est.z⟩,
           ⟨Fp.fin 0, Fp.fin 0, Fp.fin 0, Fp.fin 1⟩⟩ },
    depth_density := depth_density }

/-- The test `rect.x < 0 || rect.y < 0 || rect.width <= 0 || rect.height <= 0`. -/
def invalidWindow (rect : Rect) : Bool :=
  decide (rect.x < 0) || decide (rect.y < 0) || decide (rect.width ≤ 0)
    || decide (rect.height ≤ 0)

/-- The blob of `trackBlob` after the block "Fill blob header": name, headers,
child frame and a 2D box resized to four zeros. -/
def headerBlob (leftImage : Image) (name : String) : Blob :=
  { Blob.new with
    name := name, header := leftImage.header,
    position :=
      { Blob.new.position with
        header := leftImage.header, child_frame_id := "/hueblob_" ++ name },
    boundingbox_2d := List.replicate 4 (Fp.fin 0) }

/-- The blob of `trackBlob` after the four assignments
`blob.boundingbox_2d[k] = rect.x, rect.y, rect.width, rect.height`. -/
def boxBlob (leftImage : Image) (name : String) (rect : Rect) : Blob :=
  { headerBlob leftImage name with
    boundingbox_2d :=
      [Fp.ofInt rect.x, Fp.ofInt rect.y, Fp.ofInt rect.width, Fp.ofInt rect.height] }

/-- The state of the node after the two calls of `Object::track` in
`trackBlob`: `right_objects_[name]` and `left_objects_[name]` were taken by
reference (and created when absent) and tracked in the converted images. -/
def trackedState (env : Env) (s : HueBlob) (name : String) (right_image image : Mat) :
    HueBlob :=
  { s with
    right_objects_ :=
      (s.right_objects_.subscript name).2.assign name
        (env.track (s.right_objects_.subscript name).1 right_image).2,
    left_objects_ :=
      (s.left_objects_.subscript name).2.assign name
        (env.track (s.left_objects_.subscript name).1 image).2 }

/-- Member function `HueBlob::trackBlob`: the blob returned and the state left
behind (the registries, which `operator[]` and `Object::track` may change). -/
def trackBlob (env : Env) (s : HueBlob) (name : String) : Except Fault (Blob × HueBlob) :=
  match s.leftImage_, s.disparity_, s.rightImage_ with
  | some leftImage, some disparity, some rightImage =>
    match env.toCvShare rightImage "bgr8" with
    | none => .error .conversionFailed
    | some right_image =>
      let right_rrect := (env.track (s.right_objects_.subscript name).1 right_image).1
      match env.toCvShare leftImage "bgr8" with
      | none => .error .conversionFailed
      | some image =>
        let rrect := (env.track (s.left_objects_.subscript name).1 image).1
        let object := (env.track (s.left_objects_.subscript name).1 image).2
        let s1 := trackedState env s name right_image image
        match rrect with
        | none => .ok (headerBlob leftImage name, s1)
        | some rrect =>
          let rect := env.boundingRect rrect
          match right_rrect with
          | none => .error .emptyOptional
          | some right_rrect =>
            let right_rect := env.boundingRect right_rrect
            if invalidWindow rect then .ok (boxBlob leftImage name rect, s1)
            else
              match s.leftCamera_ with
              | none => .error .nullPointer
              | some leftCamera =>
                match get3dCloud disparity leftCamera rect right_rect [] with
                | .error e => .error e
                | .ok (pcl_cloud, center_est) =>
                  .ok (fillBlob env leftImage object rect (boxBlob leftImage name rect)
                    pcl_cloud center_est, s1)
  | _, _, _ => .ok (Blob.new, s)

/-! ## Histograms of a view -/

/-- Constant `Object::h_bins`. -/
def h_bins : Nat := 25

/-- Constant `Object::s_bins`. -/
def s_bins : Nat := 25

/-- The bins of a hue/saturation histogram as `cvCalcHist` fills them: the
number of pixels of the mask counted in each of the `h_bins × s_bins` bins. -/
abbrev RawHist := Fin h_bins → Fin s_bins → Nat

/-- The bins of a `CvHistogram` (`cv::MatND`) of `h_bins × s_bins` floats. -/
abbrev CvHistogram := Fin h_bins → Fin s_bins → Fp

/-- The maximum written by `cvGetMinMaxHistValue(hist, 0, &max, 0, 0)`. -/
def histMax (raw : RawHist) : Nat :=
  Finset.univ.sup (fun p : Fin h_bins × Fin s_bins => raw p.1 p.2)

/-- The factor `max ? 255./max : 0.` of `src/hueblob.cpp`. -/
def histScale (raw : RawHist) : Fp :=
  if Fp.toBool (Fp.ofInt (histMax raw)) then Fp.fin 255 / Fp.ofInt (histMax raw)
  else Fp.fin 0

/-- The call `cvConvertScale(bins, bins, scale, 0)`: every bin times `scale`
plus the shift 0. -/
def cvConvertScale (raw : RawHist) (scale : Fp) : CvHistogram :=
  fun i j => Fp.ofInt (raw i j) * scale + Fp.fin 0

/-- The capabilities the registration of a view consumes from OpenCV: the
histogram of the masked hue and saturation planes of a model image
(`cvCvtColor`, `cvThreshold`, `cvCalcHist`) and `cv::imread`. -/
structure Vision where
  calcHist : Mat → RawHist
  imread : String → Mat

/-- The bins of a histogram in row-major order. -/
def CvHistogram.toList (h : CvHistogram) : List Fp :=
  (List.finRange h_bins).flatMap (fun i => (List.finRange s_bins).map (fun j => h i j))

/-- The histogram of a view, scaled to the peak 255, as a list of bins. -/
def viewHistogram (vision : Vision) (view : Mat) : List Fp :=
  (cvConvertScale (vision.calcHist view) (histScale (vision.calcHist view))).toList

/-- Modelled from the spec: `Object::addView`, declared in `object.hh` ("Build
the view histogram and append it to modelHistogram") with its body not part of
the sources; it "computes a 2-D histogram over a fixed bin grid (25×25),
normalizes it to a fixed peak intensity (scale so the maximum bin equals 255),
and appends it to `histogramModels`". -/
def addView (vision : Vision) (o : Object) (view : Mat) : Object :=
  { o with modelHistogram := o.modelHistogram ++ [viewHistogram vision view] }

/-! ## The services and callbacks of `libhueblob/hueblob.cpp` -/

/-- Request of service `hueblob/AddObject`: name, anchor point and sample image. -/
structure AddObjectRequest where
  name : String
  anchor : Vector3
  image : Image

/-- Outcome of a service callback: the value returned, whether `ROS_WARN`
("Overwriting the object") was emitted, and the state left behind. -/
structure CallbackResult where
  ok : Bool
  warned : Bool
  state : HueBlob

/-- Member function `HueBlob::AddObjectCallback` of `libhueblob/hueblob.cpp`. -/
def AddObjectCallback (env : Env) (vision : Vision) (s : HueBlob)
    (request : AddObjectRequest) : CallbackResult :=
  match env.toCvShare request.image "bgr8" with
  | none => ⟨false, false, s⟩
  | some model =>
    let left_object := (s.left_objects_.subscript request.name).1
    let right_object := (s.right_objects_.subscript request.name).1
    let warned :=
      Fp.toBool left_object.anchor_x_ || Fp.toBool left_object.anchor_y_
        || Fp.toBool left_object.anchor_z_
    let left_object :=
      addView vision
        { left_object with
          anchor_x_ := request.anchor.x, anchor_y_ := request.anchor.y,
          anchor_z_ := request.anchor.z } model
    let right_object :=
      addView vision
        { right_object with
          anchor_x_ := request.anchor.x, anchor_y_ := request.anchor.y,
          anchor_z_ := request.anchor.z } model
    ⟨true, warned,
      { s with
        left_objects_ := (s.left_objects_.subscript request.name).2.assign request.name
          left_object,
        right_objects_ := (s.right_objects_.subscript request.name).2.assign request.name
          right_object }⟩

/-- Member function `HueBlob::ListObjectCallback`: the names pushed to the
response. -/
def ListObjectCallback (s : HueBlob) : List String := s.left_objects_.keys

/-- Member function `HueBlob::RmObjectCallback`. -/
def RmObjectCallback (s : HueBlob) (name : String) : CallbackResult :=
  ⟨true, false,
    { s with
      left_objects_ := s.left_objects_.erase name,
      right_objects_ := s.right_objects_.erase name }⟩

/-- An entry of the preload list (`struct YamlModel`). -/
structure YamlModel where
  name : String
  path : String

/-- Body of the preload loop of `HueBlob::setupInfrastructure` for one parsed
entry: both objects are taken by `operator[]`, a publisher is advertised
under the name, the warning is emitted for a non-zero anchor, and the image
read from `path` is added as a view to both. -/
def preloadModel (vision : Vision) (s : HueBlob) (yaml_model : YamlModel) : CallbackResult :=
  let left_object := (s.left_objects_.subscript yaml_model.name).1
  let right_object := (s.right_objects_.subscript yaml_model.name).1
  let warned :=
    Fp.toBool left_object.anchor_x_ || Fp.toBool left_object.anchor_y_
      || Fp.toBool left_object.anchor_z_
  let model := vision.imread yaml_model.path
  ⟨true, warned,
    { s with
      left_objects_ := (s.left_objects_.subscript yaml_model.name).2.assign yaml_model.name
        (addView vision left_object model),
      right_objects_ := (s.right_objects_.subscript yaml_model.name).2.assign yaml_model.name
        (addView vision right_object model),
      blob_pubs_ :=
        if yaml_model.name ∈ s.blob_pubs_ then s.blob_pubs_
        else yaml_model.name :: s.blob_pubs_ }⟩

/-- The value of an `int` expression whose mathematical value is `i`: the
two's complement value of 32 bits (the expression is undefined in C++ when
the two differ). -/
def toInt32 (i : Int) : Int := (i + 2 ^ 31) % 2 ^ 32 - 2 ^ 31

/-- Function `increment` of the anonymous namespace (`++(*value)`). -/
def increment (value : Int) : Int := toInt32 (value + 1)

/-- The five substreams of a frame tuple. -/
inductive Substream where
  | left
  | leftCamera
  | right
  | rightCamera
  | disparity
  deriving DecidableEq

/-- The callbacks `setupInfrastructure` registers on the subscribers of the
substreams in exact-sync mode: the left image, right image and disparity
subscribers count their messages; no callback is registered on the two camera
info subscribers. -/
def onMessage (s : HueBlob) : Substream → HueBlob
  | .left => { s with left_received_ := increment s.left_received_ }
  | .right => { s with right_received_ := increment s.right_received_ }
  | .disparity => { s with disp_received_ := increment s.disp_received_ }
  | .leftCamera => s
  | .rightCamera => s

/-- The callback `increment(&all_received_)` registered on `exact_sync_`,
called for every tuple the synchronizer emits. -/
def onSynced (s : HueBlob) : HueBlob := { s with all_received_ := increment s.all_received_ }

/-- Member function `HueBlob::checkInputsSynchronized`: whether `ROS_WARN` was
emitted, and the state left behind. -/
def checkInputsSynchronized (s : HueBlob) : Bool × HueBlob :=
  let threshold := toInt32 (3 * s.all_received_)
  (decide (s.left_received_ > threshold) || decide (s.right_received_ > threshold)
    || decide (s.disp_received_ > threshold), s)

/-- Conversion of an `unsigned` to the `int8` field of `std_msgs::Int8`. -/
def toInt8 (n : Nat) : Int := ((n : Int) + 128) % 256 - 128

/-- What `imageCallback` has sent when it reaches `publish_tracked_images`:
the vector `blobs.blobs`, the calls of `publish` on `blob_pubs_[blob.name]`
with the key and the blob of each (the publisher under a key is an advertised
one only for the keys of `HueBlob.blob_pubs_`; what a call on a
default-constructed publisher does is decided by roscpp), and the `data` of
the count published. -/
structure FrameOutput where
  blobs : List Blob
  published : List (String × Blob)
  count : Int

/-- The loop `BOOST_FOREACH(iterator_t it, left_objects_)` of `imageCallback`
over the names `names`, with the local `count` (an `unsigned`). -/
def trackAll (env : Env) :
    List String → HueBlob → List Blob → List (String × Blob) → Nat →
      Except Fault (List Blob × List (String × Blob) × Nat × HueBlob)
  | [], s, blobs, published, count => .ok (blobs, published, count, s)
  | name :: names, s, blobs, published, count =>
    match trackBlob env s name with
    | .error e => .error e
    | .ok (blob, s1) =>
      trackAll env names s1 (blobs ++ [blob]) (published ++ [(blob.name, blob)])
        ((count + 1) % 2 ^ 32)

/-- The `cv_bridge::CvImage` handed to `tracked_left_pub_.publish`. -/
structure CvImage where
  header : Header
  encoding : String
  image : Mat
  deriving DecidableEq

/-- Body of the loop of `publish_tracked_images` for one blob, after the test
of the two image pointers: a fresh copy of the left image is converted, the
four entries of `boundingbox_2d` are read with `operator[]` and converted to
`int`, and the box and the name are drawn into the copy. -/
def drawTracked (env : Env) (leftImage : Image) (blob : Blob) : Except Fault Mat :=
  match env.toCvCopy leftImage "bgr8" with
  | none => .error .conversionFailed
  | some img =>
    match blob.boundingbox_2d[0]?, blob.boundingbox_2d[1]?, blob.boundingbox_2d[2]?,
        blob.boundingbox_2d[3]? with
    | some x, some y, some width, some height =>
      .ok (env.draw img ⟨Fp.toInt x, Fp.toInt y, Fp.toInt width, Fp.toInt height⟩ blob.name)
    | _, _, _, _ => .error .outOfRange

/-- The loop of `publish_tracked_images` over the blobs when both image
pointers are set: `img` is assigned anew for every blob. -/
def drawAll (env : Env) (leftImage : Image) : List Blob → Option Mat → Except Fault (Option Mat)
  | [], img => .ok img
  | blob :: blobs, _ =>
    match drawTracked env leftImage blob with
    | .error e => .error e
    | .ok img => drawAll env leftImage blobs (some img)

/-- Member function `HueBlob::publish_tracked_images`: the image published on
`tracked_left_pub_`, if any.  Without a subscriber it returns at once; the
loop breaks at its first blob when the left or the right image pointer is
null, and nothing is published unless a blob was drawn. -/
def publish_tracked_images (env : Env) (s : HueBlob) (blobs : List Blob) :
    Except Fault (Option CvImage) :=
  if env.numSubscribers = 0 then .ok none
  else
    match s.leftImage_, s.rightImage_ with
    | some leftImage, some _ =>
      match drawAll env leftImage blobs none with
      | .error e => .error e
      | .ok none => .ok none
      | .ok (some img) => .ok (some ⟨leftImage.header, "8UC3", img⟩)
    | _, _ => .ok none

/-- Member function `HueBlob::imageCallback`: what it has sent on the blob
topics and the count topic when it returns, and the state left behind; the
image sent on the tracked-image topic is the value of
`publish_tracked_images`, its last call.  The right camera info is not used
by the source. -/
def imageCallback (env : Env) (s : HueBlob) (left : Option Image)
    (left_camera : Option CameraInfo) (right : Option Image)
    (_right_camera : Option CameraInfo) (disparity : Option DisparityImage) :
    Except Fault (FrameOutput × HueBlob) :=
  let s0 : HueBlob :=
    { s with
      leftImage_ := left, rightImage_ := right, leftCamera_ := left_camera,
      disparity_ := disparity }
  match trackAll env s0.left_objects_.keys s0 [] [] 0 with
  | .error e => .error e
  | .ok (blobs, published, count, s1) =>
    match publish_tracked_images env s1 blobs with
    | .error e => .error e
    | .ok _ => .ok (⟨blobs, published, toInt8 count⟩, s1)

/-- The state of a node after the member initialisers of the constructor:
empty registries, zero counters and null pointers. -/
def HueBlob.init (frame : String) : HueBlob :=
  { frame_ := frame, left_objects_ := [], right_objects_ := [], blob_pubs_ := [],
    left_received_ := 0,
    right_received_ := 0, disp_received_ := 0, all_received_ := 0, leftImage_ := none,
    rightImage_ := none, leftCamera_ := none, disparity_ := none }

/-- An event of the node: a service request, a preload entry, a frame tuple
handed to `imageCallback`, a direct call of `trackBlob`, a tick of the
watchdog timer, a message on one of the five substreams, or a tuple counted
by the callback registered on `exact_sync_`. -/
inductive Event where
  | message (sub : Substream)
  | synced
  | addObject (request : AddObjectRequest)
  | rmObject (name : String)
  | preload (yaml_model : YamlModel)
  | frame (left : Option Image) (left_camera : Option CameraInfo) (right : Option Image)
      (right_camera : Option CameraInfo) (disparity : Option DisparityImage)
  | track (name : String)
  | checkSynced

/-- The state after an event, when the callback returns. -/
def handle (env : Env) (vision : Vision) (s : HueBlob) : Event → Except Fault HueBlob
  | .addObject request => .ok (AddObjectCallback env vision s request).state
  | .rmObject name => .ok (RmObjectCallback s name).state
  | .preload yaml_model => .ok (preloadModel vision s yaml_model).state
  | .frame left left_camera right right_camera disparity =>
    match imageCallback env s left left_camera right right_camera disparity with
    | .error e => .error e
    | .ok (_, s1) => .ok s1
  | .track name =>
    match trackBlob env s name with
    | .error e => .error e
    | .ok (_, s1) => .ok s1
  | .checkSynced => .ok (checkInputsSynchronized s).2
  | .message sub => .ok (onMessage s sub)
  | .synced => .ok (onSynced s)

/-- The state after a sequence of events, when every callback returns. -/
def handleAll (env : Env) (vision : Vision) : HueBlob → List Event → Except Fault HueBlob
  | s, [] => .ok s
  | s, e :: es =>
    match handle env vision s e with
    | .error f => .error f
    | .ok s1 => handleAll env vision s1 es

/-! ## The node of `src/hueblob.cpp` -/

namespace Node

/-- Struct `Object` as `src/hueblob.cpp` uses it (its declaration is not part
of the sources): the anchor, the number of learned views and the array of
histograms, one per view. -/
structure Object where
  anchor_x : Fp
  anchor_y : Fp
  anchor_z : Fp
  nViews : Int
  modelHistogram : List CvHistogram

/-- Modelled from the spec: the default-constructed object of `objects_[name]`,
whose constructor is not part of the sources: "empty histograms, zero anchor". -/
def Object.new : Object :=
  { anchor_x := Fp.fin 0, anchor_y := Fp.fin 0, anchor_z := Fp.fin 0, nViews := 0,
    modelHistogram := [] }

/-- The member `objects_` of the node, a map from names to objects with its
entries in increasing key order. -/
structure HueBlob where
  objects_ : List (String × Object)

/-- Lookup of a key in `objects_`. -/
def find (m : List (String × Object)) (k : String) : Option Object := List.lookup k m

/-- Insertion of a new entry at its place in key order. -/
def insertNew (k : String) (o : Object) : List (String × Object) → List (String × Object)
  | [] => [(k, o)]
  | (k1, o1) :: rest =>
    if k < k1 then (k, o) :: (k1, o1) :: rest
    else if k = k1 then (k1, o1) :: rest
    else (k1, o1) :: insertNew k o rest

/-- The expression `objects_[k]`. -/
def subscript (m : List (String × Object)) (k : String) :
    Object × List (String × Object) :=
  match find m k with
  | some o => (o, m)
  | none => (Object.new, insertNew k Object.new m)

/-- Write through the reference returned by `objects_[k]`. -/
def assign (m : List (String × Object)) (k : String) (o : Object) : List (String × Object) :=
  m.map (fun p => if p.1 = k then (p.1, o) else p)

/-- Outcome of the service callback: the value returned, whether the
overwrite warning was emitted, and the state left behind. -/
structure Result where
  ok : Bool
  warned : Bool
  state : HueBlob

/-- The object after the body of `AddObjectCallback` from "Initialize the
object" on: the anchor is replaced, `nViews` incremented, the array grown by
one histogram, which is computed from the model image and scaled by
`max ? 255./max : 0.`. -/
def learnView (vision : Vision) (object : Object) (anchor : Vector3) (model : Mat) : Object :=
  { object with
    anchor_x := anchor.x, anchor_y := anchor.y, anchor_z := anchor.z,
    nViews := object.nViews + 1,
    modelHistogram :=
      object.modelHistogram
        ++ [cvConvertScale (vision.calcHist model) (histScale (vision.calcHist model))] }

/-- Member function `HueBlob::AddObjectCallback` of `src/hueblob.cpp`;
`imgMsgToCv` is the conversion of `sensor_msgs::CvBridge`, which throws on an
image it cannot convert. -/
def AddObjectCallback (imgMsgToCv : Image → String → Option Mat) (vision : Vision)
    (s : HueBlob) (request : AddObjectRequest) : Result :=
  match imgMsgToCv request.image "rgb8" with
  | none => ⟨false, false, s⟩
  | some model =>
    let object := (subscript s.objects_ request.name).1
    let warned :=
      Fp.toBool object.anchor_x || Fp.toBool object.anchor_y || Fp.toBool object.anchor_z
    ⟨true, warned,
      { s with
        objects_ := assign (subscript s.objects_ request.name).2 request.name
          (learnView vision object request.anchor model) }⟩

end Node

/-! ## The anonymous namespace of `nodes/roi2CloudProjector.cpp` -/

namespace Roi2CloudProjector

/-- Function `hasDisparityValue` of `nodes/roi2CloudProjector.cpp`: the copy
of the projector node, whose bound test joins the two comparisons with `||`. -/
def hasDisparityValue (disparity_image : DisparityImage) (h w : Nat) : Except Fault Bool :=
  if h ≥ disparity_image.image.height || w ≥ disparity_image.image.width then .ok false
  else
    match readFloat disparity_image.image.data (byteIndex disparity_image.image h w) with
    | .error e => .error e
    | .ok val =>
      if Fp.isnan val || Fp.isinf val then .ok false
      else if Fp.lt val disparity_image.min_disparity
          || Fp.gt val disparity_image.max_disparity then .ok false
      else .ok true

end Roi2CloudProjector

/-! ## The statements of the specification -/

/-- The ratio `r` of the specification: left width / right width. -/
def widthRatio (rect right_rect : Rect) : Fp :=
  Fp.fin 1 * Fp.ofInt rect.width / Fp.ofInt right_rect.width

/-- The number of messages received on a substream in a run of the node. -/
def messagesOn (sub : Substream) : List Event → Nat
  | [] => 0
  | .message sub1 :: events => (if sub1 = sub then 1 else 0) + messagesOn sub events
  | _ :: events => messagesOn sub events

/-- The number of synchronized tuples emitted in a run of the node. -/
def tuplesEmitted : List Event → Nat
  | [] => 0
  | .synced :: events => 1 + tuplesEmitted events
  | _ :: events => tuplesEmitted events

/-- The pinhole model of the specification: `z = f·T/d`, `x = (u − cx)/fx · z`,
`y = (v − cy)/fy · z`. -/
def pinhole (u v d f T fx fy cx cy : Fp) : Point3f :=
  ⟨(u - cx) / fx * (f * T / d), (v - cy) / fy * (f * T / d), f * T / d⟩

/-- An image whose byte vector holds `height` rows of `step` bytes, each row
wide enough for `width` floats, whose size fits the `uint32` length of a
serialised byte vector, and whose bytes are bytes. -/
def Image.wellFormed (image : Image) : Prop :=
  4 * image.width ≤ image.step ∧ image.data.length = image.height * image.step
    ∧ image.height * image.step < 2 ^ 32 ∧ ∀ b ∈ image.data, b < 256

instance (image : Image) : Decidable image.wellFormed := by
  unfold Image.wellFormed
  infer_instance

/-- The disparity stored at row `row`, column `col` of the pixel grid. -/
def pixelValue (image : Image) (row col : Nat) : Fp :=
  match readFloat image.data (row * image.step + 4 * col) with
  | .ok v => v
  | .error _ => Fp.nan

/-- A disparity that yields a point: neither NaN nor infinite, neither below
`min_disparity` nor above `max_disparity`, and not exactly zero. -/
def validDisparity (disparity_image : DisparityImage) (v : Fp) : Bool :=
  !Fp.isnan v && !Fp.isinf v && !Fp.lt v disparity_image.min_disparity
    && !Fp.gt v disparity_image.max_disparity && !Fp.eq v (Fp.fin 0)

/-- The point contributed by the pixel at row `i`, column `j`, if any: the
triangulation of `(j, i)` with the pixel's own disparity. -/
def pixelPoint (disparity_image : DisparityImage) (camera_info : CameraInfo) (i j : Int) :
    Option Point3f :=
  if validDisparity disparity_image (pixelValue disparity_image.image i.toNat j.toNat) then
    some (projectTo3d (Fp.ofInt j) (Fp.ofInt i)
      (pixelValue disparity_image.image i.toNat j.toNat) disparity_image camera_info true)
  else none

/-- The points of the pixels of a box, in row-major order. -/
def densePoints (disparity_image : DisparityImage) (camera_info : CameraInfo) (rect : Rect) :
    List Point3f :=
  (loopRange rect.y rect.height).flatMap (fun i =>
    (loopRange rect.x rect.width).filterMap (fun j =>
      pixelPoint disparity_image camera_info i j))

/-- A calibration with `fx = fy = 1` and `cx = cy = 0`. -/
def sampleCamera : CameraInfo :=
  { header := ⟨0, 0, "cam"⟩,
    P := fun i => if i = 0 ∨ i = 5 ∨ i = 10 then Fp.fin 1 else Fp.fin 0 }

/-- A 2x2 disparity image with the pixels `1.0`, `0.0` (first row) and `NaN`,
`2.0` (second row), focal length and baseline `1`, disparity range `[0, 4]`. -/
def sampleDisparity : DisparityImage :=
  { header := ⟨0, 0, "cam"⟩,
    image :=
      { header := ⟨0, 0, "cam"⟩, height := 2, width := 2, encoding := "32FC1", step := 8,
        data := [0, 0, 128, 63, 0, 0, 0, 0, 0, 0, 192, 127, 0, 0, 0, 64] },
    f := Fp.fin 1, T := Fp.fin 1, min_disparity := Fp.fin 0, max_disparity := Fp.fin 4 }

/-- A 1x1 disparity image with the pixel `0.0` and disparity range `[0, 0]`. -/
def zeroRangeDisparity : DisparityImage :=
  { header := ⟨0, 0, "cam"⟩,
    image :=
      { header := ⟨0, 0, "cam"⟩, height := 1, width := 1, encoding := "32FC1", step := 4,
        data := [0, 0, 0, 0] },
    f := Fp.fin 1, T := Fp.fin 1, min_disparity := Fp.fin 0, max_disparity := Fp.fin 0 }

/-- A colour image of the left camera; only its header and first byte matter
to the sample tracker. -/
def sampleLeftImage : Image :=
  { header := ⟨3, 7, "cam"⟩, height := 2, width := 2, encoding := "bgr8", step := 6,
    data := [1, 0, 0, 0, 0, 0, 0, 0, 0, 0, 0, 0] }

/-- A colour image of the right camera. -/
def sampleRightImage : Image :=
  { header := ⟨3, 7, "cam"⟩, height := 2, width := 2, encoding := "bgr8", step := 6,
    data := [0, 0, 0, 0, 0, 0, 0, 0, 0, 0, 0, 0] }

/-- A colour image without pixels, in which the sample tracker finds nothing. -/
def sampleBlankImage : Image :=
  { header := ⟨3, 7, "cam"⟩, height := 0, width := 0, encoding := "bgr8", step := 0,
    data := [] }

/-- A sample environment: every image converts; the tracker finds nothing in
an image without pixels and otherwise a 2x2 upright rectangle centred at
`(b, 1)`, `b` the first byte of the image; the bounding rectangle of an
upright rectangle; an outlier filter that keeps every point; one subscriber
of the tracked-image topic and a drawing that leaves the image as it is. -/
def sampleEnv : Env :=
  { toCvShare := fun image _ => some ⟨image.height, image.width, image.data⟩,
    track := fun o m =>
      if m.data = [] then (none, o)
      else
        (some ⟨⟨Fp.fin (m.data.headD 0), Fp.fin 1⟩, ⟨Fp.fin 2, Fp.fin 2⟩, Fp.fin 0⟩,
          { o with searchWindow_ := ⟨0, 0, 2, 2⟩ }),
    boundingRect := fun r =>
      match r.center.x, r.center.y with
      | Fp.fin cx, Fp.fin cy => ⟨⌊cx⌋ - 1, ⌊cy⌋ - 1, 2, 2⟩
      | _, _ => ⟨0, 0, 0, 0⟩,
    sorFilter := fun cloud => cloud,
    numSubscribers := 1,
    toCvCopy := fun image _ => some ⟨image.height, image.width, image.data⟩,
    draw := fun img _ _ => img }

/-- An object with anchor `(1, 2, 3)` and no learned view. -/
def sampleObject : Object := { Object.new with
  anchor_x_ := Fp.fin 1, anchor_y_ := Fp.fin 2, anchor_z_ := Fp.fin 3 }

/-- A node state with one object `"a"` and a complete frame tuple. -/
def sampleState : HueBlob :=
  { frame_ := "cam", left_objects_ := [("a", sampleObject)],
    right_objects_ := [("a", sampleObject)], blob_pubs_ := [], left_received_ := 0,
    right_received_ := 0,
    disp_received_ := 0, all_received_ := 0, leftImage_ := some sampleLeftImage,
    rightImage_ := some sampleRightImage, leftCamera_ := some sampleCamera,
    disparity_ := some sampleDisparity }

/-- The object `"a"` after a successful call of the sample tracker. -/
def sampleTrackedObject : Object := { sampleObject with searchWindow_ := ⟨0, 0, 2, 2⟩ }

/-- The registries of `sampleState` after both objects were tracked. -/
def sampleTrackedState : HueBlob :=
  { sampleState with
    left_objects_ := [("a", sampleTrackedObject)],
    right_objects_ := [("a", sampleTrackedObject)] }

/-- The blob of object `"a"` in `sampleState`: left box `(0, 0, 2, 2)`, two
points `(0, 0, 1)` and `(1/2, 1/2, 1/2)` out of four pixels. -/
def sampleBlob : Blob :=
  { header := ⟨3, 7, "cam"⟩, name := "a",
    position :=
      { header := ⟨3, 7, "cam"⟩, child_frame_id := "/hueblob_a",
        transform := ⟨⟨Fp.fin 0, Fp.fin 0, Fp.fin 1⟩, ⟨Fp.fin 0, Fp.fin 0, Fp.fin 0, Fp.fin 1⟩⟩ },
    cloud_centroid :=
      { header := ⟨0, 7, ""⟩, child_frame_id := "",
        transform :=
          ⟨⟨Fp.fin (5 / 4), Fp.fin (9 / 4), Fp.fin (15 / 4)⟩,
           ⟨Fp.fin 0, Fp.fin 0, Fp.fin 0, Fp.fin 1⟩⟩ },
    boundingbox_2d := [Fp.fin 0, Fp.fin 0, Fp.fin 2, Fp.fin 2],
    boundingbox_3d :=
      [Fp.fin 0, Fp.fin 0, Fp.fin (1 / 2), Fp.fin (1 / 2), Fp.fin (1 / 2), Fp.fin 1],
    depth_density := Fp.fin (1 / 2) }

/-- A sample of the OpenCV capabilities: the histogram of an image without
pixels is uniformly zero, that of any other image has 4 in bin `(0, 0)`, 2 in
bin `(1, 2)` and 0 elsewhere; every path reads as the same 2x2 image. -/
def sampleVision : Vision :=
  { calcHist := fun m i j =>
      if m.data = [] then 0
      else if i.val = 0 ∧ j.val = 0 then 4
      else if i.val = 1 ∧ j.val = 2 then 2
      else 0,
    imread := fun _ => ⟨2, 2, [1, 0, 0, 0, 0, 0, 0, 0, 0, 0, 0, 0]⟩ }

/-- A request to register `"b"` with anchor `(4, 5, 6)` and the left sample
image. -/
def sampleRequest : AddObjectRequest :=
  { name := "b", anchor := ⟨Fp.fin 4, Fp.fin 5, Fp.fin 6⟩, image := sampleLeftImage }

/-- A request to register `"a"` again, with anchor `(4, 5, 6)`. -/
def sampleOverwrite : AddObjectRequest := { sampleRequest with name := "a" }

/-- A request to register `"b"` with an image without pixels. -/
def sampleBlankRequest : AddObjectRequest := { sampleRequest with image := sampleBlankImage }

/-- A registry of 128 objects named `"a"`, `"aa"`, `"aaa"`, ... -/
def manyObjects : Registry :=
  (List.range 128).map (fun i => (String.mk (List.replicate (i + 1) 'a'), Object.new))

/-- A node state with 128 registered objects and no frame tuple yet. -/
def manyState : HueBlob :=
  { HueBlob.init "cam" with left_objects_ := manyObjects, right_objects_ := manyObjects }

/-- The state `sampleState` without the left camera info. -/
def noCameraState : HueBlob := { sampleState with leftCamera_ := none }

/-- A run of the node: `"b"` is registered, `"c"` preloaded, a frame tuple
without any input arrives, `"b"` is removed and the watchdog ticks. -/
def sampleEvents : List Event :=
  [.addObject sampleRequest, .preload ⟨"c", "c.png"⟩, .frame none none none none none,
    .rmObject "b", .checkSynced]

/-- The state `sampleState` with a left image whose first byte is 0: the
sample tracker returns a rectangle centred at `(0, 1)`, whose bounding
rectangle `(-1, 0, 2, 2)` starts left of the image. -/
def invalidState : HueBlob := { sampleState with leftImage_ := some sampleRightImage }

/-- The state `sampleState` with a left image whose first byte is 4: the
sample tracker returns a rectangle centred at `(4, 1)`, whose bounding
rectangle `(3, 0, 2, 2)` lies right of the 2x2 disparity image. -/
def outsideState : HueBlob :=
  { sampleState with
    leftImage_ := some { sampleLeftImage with data := [4, 0, 0, 0, 0, 0, 0, 0, 0, 0, 0, 0] } }

/-- The state `invalidState` with a right image in which the sample tracker
finds nothing. -/
def invalidRightLostState : HueBlob :=
  { invalidState with rightImage_ := some sampleBlankImage }

/-- A run in exact-sync mode: one message on each of the substreams that make
a tuple, three more on the left camera info substream, and the tuple. -/
def cameraEvents : List Event :=
  [.message .left, .message .leftCamera, .message .right, .message .rightCamera,
    .message .disparity, .synced, .message .leftCamera, .message .leftCamera,
    .message .leftCamera]

/-- The state `sampleState` with a right image in which the sample tracker
finds nothing. -/
def rightLostState : HueBlob := { sampleState with rightImage_ := some sampleBlankImage }

/-- The state `sampleState` with a left image in which the sample tracker
finds nothing. -/
def leftLostState : HueBlob := { sampleState with leftImage_ := some sampleBlankImage }

end Hueblob

namespace Hueblob

/-! ## Arithmetic of finite values -/

namespace Fp

@[simp] theorem fin_add_fin (a b : ℚ) : fin a + fin b = fin (a + b) := rfl

@[simp] theorem fin_sub_fin (a b : ℚ) : fin a - fin b = fin (a - b) := by
  show add (fin a) (neg (fin b)) = fin (a - b)
  simp [add, neg, sub_eq_add_neg]

@[simp] theorem fin_mul_fin (a b : ℚ) : fin a * fin b = fin (a * b) := rfl

theorem fin_div_fin (a b : ℚ) :
    fin a / fin b
      = if b = 0 then (if a = 0 then nan else if 0 < a then pinf else ninf) else fin (a / b) :=
  rfl

theorem fin_div_fin_of_ne (a : ℚ) {b : ℚ} (hb : b ≠ 0) : fin a / fin b = fin (a / b) := by
  rw [fin_div_fin, if_neg hb]

@[simp] theorem neg_fin (a : ℚ) : -fin a = fin (-a) := rfl

@[simp] theorem lt_fin_fin (a b : ℚ) : lt (fin a) (fin b) = decide (a < b) := rfl

@[simp] theorem gt_fin_fin (a b : ℚ) : gt (fin a) (fin b) = decide (b < a) := rfl

@[simp] theorem eq_fin_fin (a b : ℚ) : eq (fin a) (fin b) = decide (a = b) := rfl

@[simp] theorem ne_fin_fin (a b : ℚ) : ne (fin a) (fin b) = !decide (a = b) := rfl

@[simp] theorem ofInt_eq (n : Int) : ofInt n = fin n := rfl

end Fp

/-! ## Conversion to binary32 -/

namespace Fp

/-- An integer is its own rounding. -/
theorem roundHalfEven_intCast (n : ℤ) : roundHalfEven (n : ℚ) = n := by
  unfold roundHalfEven
  simp

/-- A value strictly below the midpoint of two integers rounds down. -/
theorem roundHalfEven_of_lt (q : ℚ) (f : ℤ) (h1 : (f : ℚ) ≤ q) (h2 : q - f < 1 / 2) :
    roundHalfEven q = f := by
  have hf : ⌊q⌋ = f := Int.floor_eq_iff.2 ⟨h1, by linarith⟩
  unfold roundHalfEven
  rw [hf, if_pos h2]

/-- The midpoint above an even integer rounds down to it. -/
theorem roundHalfEven_of_tie (q : ℚ) (f : ℤ) (h1 : q = f + 1 / 2) (h2 : f % 2 = 0) :
    roundHalfEven q = f := by
  have hf : ⌊q⌋ = f := Int.floor_eq_iff.2 ⟨by linarith, by linarith⟩
  unfold roundHalfEven
  rw [hf, if_neg (by linarith), if_neg (by linarith), if_pos h2]

/-- Zero is a `float`. -/
@[simp] theorem toFloat_zero : toFloat (fin 0) = fin 0 := by
  simp [toFloat]

/-- The conversion of a value of the binade `[2^e, 2^(e+1))`, `e ≥ -126`:
its quotient by the unit in the last place `2^(e-23)` is rounded. -/
theorem toFloat_of_binade (q : ℚ) (e n : ℤ) (he1 : (2 : ℚ) ^ e ≤ |q|)
    (he2 : |q| < (2 : ℚ) ^ (e + 1)) (hemin : -126 ≤ e)
    (hn : roundHalfEven (q / 2 ^ (e - 23)) = n)
    (hmax : |(n : ℚ) * 2 ^ (e - 23)| < 2 ^ 128) :
    toFloat (fin q) = fin ((n : ℚ) * 2 ^ (e - 23)) := by
  have hpos : 0 < |q| := lt_of_lt_of_le (zpow_pos (by norm_num) e) he1
  have hq0 : q ≠ 0 := abs_pos.1 hpos
  have hlog : Int.log 2 |q| = e := by
    apply le_antisymm
    · have h := (Int.lt_zpow_iff_log_lt (by norm_num : 1 < 2) hpos).1
        (by exact_mod_cast he2 : |q| < ((2 : ℕ) : ℚ) ^ (e + 1))
      omega
    · exact (Int.zpow_le_iff_le_log (by norm_num : 1 < 2) hpos).1 (by exact_mod_cast he1)
  unfold toFloat
  simp only []
  rw [if_neg hq0, hlog, max_eq_left hemin, hn, if_neg (not_le.2 hmax)]

/-- A value `m · 2^t` with `|m| < 2^24` and `2^t` at least the smallest
subnormal is a `float`: the conversion does not change it. -/
theorem toFloat_dyadic (m t : ℤ) (hm : |m| < 2 ^ 24) (ht : -149 ≤ t) (ht2 : t ≤ 104) :
    toFloat (fin ((m : ℚ) * 2 ^ t)) = fin ((m : ℚ) * 2 ^ t) := by
  unfold toFloat
  by_cases hm0 : m = 0
  · simp [hm0]
  have h2 : (0 : ℚ) < 2 ^ t := zpow_pos (by norm_num) t
  have hq0 : (m : ℚ) * 2 ^ t ≠ 0 := mul_ne_zero (Int.cast_ne_zero.2 hm0) h2.ne'
  simp only []
  rw [if_neg hq0]
  have habs : |(m : ℚ) * 2 ^ t| = |(m : ℚ)| * 2 ^ t := by
    rw [abs_mul, abs_of_pos h2]
  have hmq : |(m : ℚ)| < 2 ^ 24 := by
    have h : ((|m| : ℤ) : ℚ) < ((2 ^ 24 : ℤ) : ℚ) := Int.cast_lt.2 hm
    simpa using h
  have hpos : 0 < |(m : ℚ) * 2 ^ t| := abs_pos.2 hq0
  have hlt : |(m : ℚ) * 2 ^ t| < 2 ^ (t + 24) := by
    rw [habs, zpow_add₀ (by norm_num : (2 : ℚ) ≠ 0), mul_comm]
    exact mul_lt_mul_of_pos_left
      (by rw [show (24 : ℤ) = ((24 : ℕ) : ℤ) by rfl, zpow_natCast]; exact hmq) h2
  have hlog : Int.log 2 |(m : ℚ) * 2 ^ t| < t + 24 := by
    have h1 := Int.zpow_log_le_self (by norm_num : 1 < 2) hpos
    have h3 := lt_of_le_of_lt h1 hlt
    exact (zpow_lt_zpow_iff_right₀ (by norm_num : (1 : ℚ) < ((2 : ℕ) : ℚ))).1 h3
  have hele : Max.max (Int.log 2 |(m : ℚ) * 2 ^ t|) (-126) ≤ t + 23 :=
    max_le (by omega) (by omega)
  generalize Max.max (Int.log 2 |(m : ℚ) * 2 ^ t|) (-126) = e at hele
  obtain ⟨d, hd⟩ : ∃ d : ℕ, t = e - 23 + d := ⟨(t - (e - 23)).toNat, by omega⟩
  have h4 : (2 : ℚ) ^ (e - 23) ≠ 0 := (zpow_pos (by norm_num) _).ne'
  have hdiv : (m : ℚ) * 2 ^ t / 2 ^ (e - 23) = ((m * 2 ^ d : ℤ) : ℚ) := by
    rw [hd, zpow_add₀ (by norm_num : (2 : ℚ) ≠ 0)]
    field_simp
    ring
  have hr : ((m * 2 ^ d : ℤ) : ℚ) * 2 ^ (e - 23) = (m : ℚ) * 2 ^ t := by
    rw [← hdiv]
    field_simp
  rw [hdiv, roundHalfEven_intCast, hr, if_neg]
  rw [not_le]
  refine lt_of_lt_of_le hlt ?_
  have h5 : (2 : ℚ) ^ (t + 24) ≤ 2 ^ (128 : ℤ) := zpow_le_zpow_right₀ (by norm_num) (by omega)
  rw [show (128 : ℤ) = ((128 : ℕ) : ℤ) by rfl, zpow_natCast] at h5
  exact h5

/-- An integer below `2^24` in magnitude is a `float`. -/
theorem toFloat_intCast (n : ℤ) (h : |n| < 2 ^ 24) : toFloat (fin (n : ℚ)) = fin (n : ℚ) := by
  have h1 := toFloat_dyadic n 0 h (by norm_num) (by norm_num)
  simpa using h1

/-- A half-integer `k/2` with `|k| < 2^24` is a `float`. -/
theorem toFloat_half (k : ℤ) (h : |k| < 2 ^ 24) (q : ℚ) (hq : q = (k : ℚ) / 2) :
    toFloat (fin q) = fin q := by
  have h1 := toFloat_dyadic k (-1) h (by norm_num) (by norm_num)
  have h2 : (k : ℚ) * 2 ^ (-1 : ℤ) = q := by
    rw [hq, zpow_neg_one]
    ring
  rwa [h2] at h1

end Fp

/-- The stored centre x of a box with `|2x + width| < 2^24` is the exact one. -/
theorem rectCenter_x (r : Rect) (h : |2 * r.x + r.width| < 2 ^ 24) :
    (rectCenter r).x = Fp.fin ((r.x : ℚ) + r.width / 2) := by
  show Fp.toFloat (Fp.ofInt r.x + Fp.ofInt r.width * Fp.fin (1 / 2)) = _
  rw [Fp.ofInt_eq, Fp.ofInt_eq, Fp.fin_mul_fin, Fp.fin_add_fin,
    Fp.toFloat_half (2 * r.x + r.width) h _ (by push_cast; ring)]
  congr 1
  ring

/-- The stored centre y of a box with `|2y + height| < 2^24` is the exact one. -/
theorem rectCenter_y (r : Rect) (h : |2 * r.y + r.height| < 2 ^ 24) :
    (rectCenter r).y = Fp.fin ((r.y : ℚ) + r.height / 2) := by
  show Fp.toFloat (Fp.ofInt r.y + Fp.ofInt r.height * Fp.fin (1 / 2)) = _
  rw [Fp.ofInt_eq, Fp.ofInt_eq, Fp.fin_mul_fin, Fp.fin_add_fin,
    Fp.toFloat_half (2 * r.y + r.height) h _ (by push_cast; ring)]
  congr 1
  ring

/-- The `float` difference of two stored centre coordinates `a + b/2` and
`c + d/2` with `|2a + b|, |2c + d| < 2^23` is the exact difference. -/
theorem toFloat_center_sub (a b c d : ℤ) (h1 : |2 * a + b| < 2 ^ 23)
    (h2 : |2 * c + d| < 2 ^ 23) :
    Fp.toFloat (Fp.fin ((a : ℚ) + b / 2) - Fp.fin ((c : ℚ) + d / 2))
      = Fp.fin (((a : ℚ) + b / 2) - ((c : ℚ) + d / 2)) := by
  rw [Fp.fin_sub_fin]
  refine Fp.toFloat_half ((2 * a + b) - (2 * c + d)) ?_ _ (by push_cast; ring)
  have h3 := abs_sub (2 * a + b) (2 * c + d)
  omega

/-- The gate on boxes whose centres and right width are exactly representable
(`|2y + height| < 2^23` for both boxes, `|right width| < 2^24`): the exact
vertical offset against 10 and the exact ratio against 1.5 and 0.5. -/
theorem boxesMismatch_of_small (rect right_rect : Rect)
    (hy : |2 * rect.y + rect.height| < 2 ^ 23)
    (hry : |2 * right_rect.y + right_rect.height| < 2 ^ 23)
    (hw : |right_rect.width| < 2 ^ 24) :
    boxesMismatch rect right_rect
      = (decide ((10 : ℚ) < ((right_rect.y : ℚ) + right_rect.height / 2)
            - ((rect.y : ℚ) + rect.height / 2))
          || decide (((right_rect.y : ℚ) + right_rect.height / 2)
            - ((rect.y : ℚ) + rect.height / 2) < -10)
          || Fp.gt (widthRatio rect right_rect) (Fp.fin (3 / 2))
          || Fp.lt (widthRatio rect right_rect) (Fp.fin (1 / 2))) := by
  unfold boxesMismatch widthRatio
  simp only []
  rw [rectCenter_y rect (by omega), rectCenter_y right_rect (by omega),
    toFloat_center_sub _ _ _ _ hry hy, Fp.ofInt_eq right_rect.width,
    Fp.toFloat_intCast _ hw, Fp.gt_fin_fin, Fp.lt_fin_fin]

/-! ## The consistency gate and the single-point estimate -/

/-- The `float` difference `diffy` of the stored centres of boxes with
`|2y + height| < 2^23` is the exact vertical offset. -/
theorem diffy_of_small (rect right_rect : Rect)
    (hy : |2 * rect.y + rect.height| < 2 ^ 23)
    (hry : |2 * right_rect.y + right_rect.height| < 2 ^ 23) :
    Fp.toFloat ((rectCenter right_rect).y - (rectCenter rect).y)
      = Fp.fin (((right_rect.y : ℚ) + right_rect.height / 2)
          - ((rect.y : ℚ) + rect.height / 2)) := by
  rw [rectCenter_y rect (by omega), rectCenter_y right_rect (by omega),
    toFloat_center_sub _ _ _ _ hry hy]

/-- A vertical offset of exactly representable centres above 10 px makes the
gate fail. -/
theorem boxesMismatch_of_offset (rect right_rect : Rect)
    (hy : |2 * rect.y + rect.height| < 2 ^ 23)
    (hry : |2 * right_rect.y + right_rect.height| < 2 ^ 23)
    (h : 10 < |((right_rect.y : ℚ) + right_rect.height / 2)
      - ((rect.y : ℚ) + rect.height / 2)|) :
    boxesMismatch rect right_rect = true := by
  unfold boxesMismatch
  simp only []
  rw [diffy_of_small rect right_rect hy hry]
  simp only [Fp.gt_fin_fin, Fp.lt_fin_fin, Bool.or_eq_true, decide_eq_true_eq]
  rcases lt_abs.mp h with h2 | h2
  · exact Or.inl (Or.inl (Or.inl h2))
  · exact Or.inl (Or.inl (Or.inr (by linarith)))

/-- What `get3dCloud` returns as `center_est` is `centerEstimate`. -/
theorem get3dCloud_center (disparity_image : DisparityImage) (camera_info : CameraInfo)
    (rect right_rect : Rect) (pcl_cloud out : List Point3f) (c : Point3f)
    (h : get3dCloud disparity_image camera_info rect right_rect pcl_cloud = .ok (out, c)) :
    c = centerEstimate disparity_image camera_info rect right_rect := by
  unfold get3dCloud at h
  split at h
  · cases h
  · simp only [Except.ok.injEq, Prod.mk.injEq] at h
    exact h.2.symm

/-- C1 as the code has it: in `get3dCloud`, for boxes whose centre y
(`y + height/2`) is stored exactly in the `float` of `cv::Point2f`
(`|2y + height| < 2^23` for both boxes, which covers every box of an image),
whenever the vertical offset between the right and the left box centres
exceeds 10 px in absolute value, `center_est` is exactly `(0, 0, 0)`, for
every disparity image, calibration, horizontal position and width of the
boxes. -/
theorem get3dCloud_offset_gives_origin (disparity_image : DisparityImage)
    (camera_info : CameraInfo) (rect right_rect : Rect) (pcl_cloud : List Point3f)
    (hy : |2 * rect.y + rect.height| < 2 ^ 23)
    (hry : |2 * right_rect.y + right_rect.height| < 2 ^ 23)
    (h : 10 < |((right_rect.y : ℚ) + right_rect.height / 2)
      - ((rect.y : ℚ) + rect.height / 2)|) :
    centerEstimate disparity_image camera_info rect right_rect
        = ⟨Fp.fin 0, Fp.fin 0, Fp.fin 0⟩
      ∧ ∀ out c, get3dCloud disparity_image camera_info rect right_rect pcl_cloud
          = .ok (out, c) → c = ⟨Fp.fin 0, Fp.fin 0, Fp.fin 0⟩ := by
  have hc : centerEstimate disparity_image camera_info rect right_rect
      = ⟨Fp.fin 0, Fp.fin 0, Fp.fin 0⟩ := by
    unfold centerEstimate
    rw [if_pos (boxesMismatch_of_offset rect right_rect hy hry h)]
  refine ⟨hc, ?_⟩
  intro out c hout
  rw [get3dCloud_center _ _ _ _ _ _ _ hout, hc]

/-- C1 at a left box with centre y = 1 and a right box with centre y = 12 (a
difference of 11, as in the spec's example). -/
theorem get3dCloud_offset_gives_origin_witness :
    10 < |(((11 : Int) : ℚ) + ((2 : Int) : ℚ) / 2) - (((0 : Int) : ℚ) + ((2 : Int) : ℚ) / 2)|
      ∧ (centerEstimate sampleDisparity sampleCamera ⟨0, 0, 2, 2⟩ ⟨0, 11, 2, 2⟩
          = ⟨Fp.fin 0, Fp.fin 0, Fp.fin 0⟩
        ∧ ∀ out c, get3dCloud sampleDisparity sampleCamera ⟨0, 0, 2, 2⟩ ⟨0, 11, 2, 2⟩ []
            = .ok (out, c) → c = ⟨Fp.fin 0, Fp.fin 0, Fp.fin 0⟩) :=
  ⟨by norm_num,
    get3dCloud_offset_gives_origin sampleDisparity sampleCamera ⟨0, 0, 2, 2⟩
      ⟨0, 11, 2, 2⟩ [] (by norm_num) (by norm_num) (by norm_num)⟩

/-- The value `2^28 + 11` stored in a `float` is `2^28`: the unit in the last
place is 32 there. -/
theorem toFloat_large : Fp.toFloat (Fp.fin 268435467) = Fp.fin 268435456 := by
  have h := Fp.toFloat_of_binade 268435467 28 8388608 (by norm_num) (by norm_num) (by norm_num)
    (Fp.roundHalfEven_of_lt _ 8388608 (by norm_num) (by norm_num)) (by norm_num)
  rw [h]
  norm_num

/-- C1 fails as stated: the left box `(0, 2^28, 2, 0)` has centre y `2^28`, the
right box `(-1, 2^28 + 11, 2, 0)` centre y `2^28 + 11`, a vertical offset of
11 px; stored in `float` both centres are `2^28`, the gate passes, and the
estimate is the triangulation `(0, 2^28, 1)`, not the origin. -/
theorem get3dCloud_offset_counterexample :
    10 < |(((268435467 : Int) : ℚ) + ((0 : Int) : ℚ) / 2)
        - (((268435456 : Int) : ℚ) + ((0 : Int) : ℚ) / 2)|
      ∧ (rectCenter ⟨-1, 268435467, 2, 0⟩).y = Fp.fin 268435456
      ∧ (rectCenter ⟨0, 268435456, 2, 0⟩).y = Fp.fin 268435456
      ∧ boxesMismatch ⟨0, 268435456, 2, 0⟩ ⟨-1, 268435467, 2, 0⟩ = false
      ∧ get3dCloud sampleDisparity sampleCamera ⟨0, 268435456, 2, 0⟩ ⟨-1, 268435467, 2, 0⟩ []
        = .ok ([], ⟨Fp.fin 0, Fp.fin 268435456, Fp.fin 1⟩)
      ∧ centerEstimate sampleDisparity sampleCamera ⟨0, 268435456, 2, 0⟩
          ⟨-1, 268435467, 2, 0⟩ ≠ ⟨Fp.fin 0, Fp.fin 0, Fp.fin 0⟩ := by
  have hry : (rectCenter ⟨-1, 268435467, 2, 0⟩).y = Fp.fin 268435456 := by
    show Fp.toFloat (Fp.ofInt 268435467 + Fp.ofInt 0 * Fp.fin (1 / 2)) = _
    rw [show Fp.ofInt 268435467 + Fp.ofInt 0 * Fp.fin (1 / 2) = Fp.fin 268435467 by
      simp [Fp.ofInt]]
    exact toFloat_large
  have hy : (rectCenter ⟨0, 268435456, 2, 0⟩).y = Fp.fin 268435456 := by
    show Fp.toFloat (Fp.ofInt 268435456 + Fp.ofInt 0 * Fp.fin (1 / 2)) = _
    rw [show Fp.ofInt 268435456 + Fp.ofInt 0 * Fp.fin (1 / 2)
      = Fp.fin (((8388608 : ℤ) : ℚ) * 2 ^ (5 : ℤ)) by simp [Fp.ofInt]; norm_num,
      Fp.toFloat_dyadic 8388608 5 (by norm_num) (by norm_num) (by norm_num)]
    norm_num
  have hx : (rectCenter ⟨0, 268435456, 2, 0⟩).x = Fp.fin 1 := by
    rw [rectCenter_x _ (by norm_num)]
    norm_num
  have hrx : (rectCenter ⟨-1, 268435467, 2, 0⟩).x = Fp.fin 0 := by
    rw [rectCenter_x _ (by norm_num)]
    norm_num
  have h2 : Fp.toFloat (Fp.fin 2) = Fp.fin 2 := by
    have h := Fp.toFloat_intCast 2 (by norm_num)
    simpa using h
  have h1 : Fp.toFloat (Fp.fin 1) = Fp.fin 1 := by
    have h := Fp.toFloat_intCast 1 (by norm_num)
    simpa using h
  have hm : boxesMismatch ⟨0, 268435456, 2, 0⟩ ⟨-1, 268435467, 2, 0⟩ = false := by
    unfold boxesMismatch
    simp only [hy, hry, Fp.fin_sub_fin, sub_self, Fp.toFloat_zero, Fp.ofInt_eq, Int.cast_ofNat,
      h2, Fp.fin_mul_fin, Fp.fin_div_fin, Fp.gt_fin_fin, Fp.lt_fin_fin]
    norm_num
  have hc : centerEstimate sampleDisparity sampleCamera ⟨0, 268435456, 2, 0⟩
      ⟨-1, 268435467, 2, 0⟩ = ⟨Fp.fin 0, Fp.fin 268435456, Fp.fin 1⟩ := by
    unfold centerEstimate
    rw [hm]
    simp only [Bool.false_eq_true, if_false, hx, hrx, Fp.fin_sub_fin, sub_zero, h1]
    simp [projectTo3d, sampleDisparity, sampleCamera, Fp.fin_div_fin]
  refine ⟨by norm_num, hry, hy, hm, ?_, ?_⟩
  · have hl : loopRange 268435456 0 = [] := by decide
    unfold get3dCloud
    simp only [hl, cloudRows, hc]
  · rw [hc]
    intro h
    have hz := congrArg Point3f.z h
    simp at hz

/-- The gate passes when the centres and the right width are exactly
representable, the vertical offset is at most 10 px and the width ratio lies
in `[0.5, 1.5]`. -/
theorem boxesMismatch_eq_false (rect right_rect : Rect)
    (hy : |2 * rect.y + rect.height| < 2 ^ 23)
    (hry : |2 * right_rect.y + right_rect.height| < 2 ^ 23)
    (hw : |right_rect.width| < 2 ^ 24)
    (hoff : |((right_rect.y : ℚ) + right_rect.height / 2)
      - ((rect.y : ℚ) + rect.height / 2)| ≤ 10)
    (hlo : 1 / 2 ≤ (rect.width : ℚ) / right_rect.width)
    (hhi : (rect.width : ℚ) / right_rect.width ≤ 3 / 2) :
    boxesMismatch rect right_rect = false := by
  have hrw : (right_rect.width : ℚ) ≠ 0 := by
    intro h0
    rw [h0, div_zero] at hlo
    norm_num at hlo
  obtain ⟨h1, h2⟩ := abs_le.mp hoff
  rw [boxesMismatch_of_small rect right_rect hy hry hw]
  simp only [widthRatio, Fp.ofInt_eq, Fp.fin_mul_fin, Fp.gt_fin_fin, Fp.lt_fin_fin,
    Fp.fin_div_fin_of_ne _ hrw, Bool.or_eq_false_iff, decide_eq_false_iff_not, not_lt, one_mul]
  refine ⟨⟨⟨?_, ?_⟩, hhi⟩, hlo⟩ <;> linarith

/-- The estimate when the gate passes: the value of the `else` branch, with
the `float` difference of the stored centres as disparity. -/
theorem centerEstimate_of_pass (disparity_image : DisparityImage) (camera_info : CameraInfo)
    (rect right_rect : Rect) (h : boxesMismatch rect right_rect = false) :
    centerEstimate disparity_image camera_info rect right_rect
      = projectTo3d (Fp.fin rect.x) (Fp.fin rect.y)
          (Fp.toFloat ((rectCenter rect).x - (rectCenter right_rect).x))
          disparity_image camera_info true := by
  unfold centerEstimate
  rw [h]
  rfl

/-- The `float` difference of the stored centre x of boxes with
`|2x + width| < 2^23` is the exact difference. -/
theorem disparity_of_small (rect right_rect : Rect)
    (hx : |2 * rect.x + rect.width| < 2 ^ 23)
    (hrx : |2 * right_rect.x + right_rect.width| < 2 ^ 23) :
    Fp.toFloat ((rectCenter rect).x - (rectCenter right_rect).x)
      = Fp.fin (((rect.x : ℚ) + rect.width / 2)
          - ((right_rect.x : ℚ) + right_rect.width / 2)) := by
  rw [rectCenter_x rect (by omega), rectCenter_x right_rect (by omega),
    toFloat_center_sub _ _ _ _ hx hrx]

/-- The estimate when the gate passes on boxes with `|2x + width| < 2^23`:
the disparity is the exact difference of the centres. -/
theorem centerEstimate_of_small (disparity_image : DisparityImage) (camera_info : CameraInfo)
    (rect right_rect : Rect) (hx : |2 * rect.x + rect.width| < 2 ^ 23)
    (hrx : |2 * right_rect.x + right_rect.width| < 2 ^ 23)
    (h : boxesMismatch rect right_rect = false) :
    centerEstimate disparity_image camera_info rect right_rect
      = projectTo3d (Fp.fin rect.x) (Fp.fin rect.y)
          (Fp.fin (((rect.x : ℚ) + rect.width / 2)
            - ((right_rect.x : ℚ) + right_rect.width / 2)))
          disparity_image camera_info true := by
  rw [centerEstimate_of_pass _ _ _ _ h, disparity_of_small rect right_rect hx hrx]

/-- The boxes `(0, 0, 2, 2)` and `(-1, 0, 2, 2)` pass the gate. -/
theorem boxesMismatch_sample : boxesMismatch ⟨0, 0, 2, 2⟩ ⟨-1, 0, 2, 2⟩ = false :=
  boxesMismatch_eq_false _ _ (by norm_num) (by norm_num) (by norm_num) (by norm_num)
    (by norm_num) (by norm_num)

/-- C2 as the code has it: for boxes whose centres and right width are stored
exactly in `float` (`|2x + width| < 2^23` and `|2y + height| < 2^23` for both
boxes, `|right width| < 2^24`, which covers every box of an image), whose
centre vertical offset is at most 10 px in absolute value and whose width
ratio (left width / right width) lies in `[0.5, 1.5]`, the gate passes and the
single-point estimate is the pinhole triangulation of the left box's top-left
pixel with disparity left-centre-x minus right-centre-x. -/
theorem get3dCloud_gate_passes (disparity_image : DisparityImage)
    (camera_info : CameraInfo) (rect right_rect : Rect) (pcl_cloud : List Point3f)
    (hx : |2 * rect.x + rect.width| < 2 ^ 23)
    (hrx : |2 * right_rect.x + right_rect.width| < 2 ^ 23)
    (hy : |2 * rect.y + rect.height| < 2 ^ 23)
    (hry : |2 * right_rect.y + right_rect.height| < 2 ^ 23)
    (hw : |right_rect.width| < 2 ^ 24)
    (hoff : |((right_rect.y : ℚ) + right_rect.height / 2)
      - ((rect.y : ℚ) + rect.height / 2)| ≤ 10)
    (hlo : 1 / 2 ≤ (rect.width : ℚ) / right_rect.width)
    (hhi : (rect.width : ℚ) / right_rect.width ≤ 3 / 2) :
    boxesMismatch rect right_rect = false
      ∧ centerEstimate disparity_image camera_info rect right_rect
        = projectTo3d (Fp.fin rect.x) (Fp.fin rect.y)
            (Fp.fin (((rect.x : ℚ) + rect.width / 2)
              - ((right_rect.x : ℚ) + right_rect.width / 2)))
            disparity_image camera_info true
      ∧ ∀ out c, get3dCloud disparity_image camera_info rect right_rect pcl_cloud
          = .ok (out, c) →
        c = projectTo3d (Fp.fin rect.x) (Fp.fin rect.y)
            (Fp.fin (((rect.x : ℚ) + rect.width / 2)
              - ((right_rect.x : ℚ) + right_rect.width / 2)))
            disparity_image camera_info true := by
  have hm := boxesMismatch_eq_false rect right_rect hy hry hw hoff hlo hhi
  have hc := centerEstimate_of_small disparity_image camera_info rect right_rect hx hrx hm
  refine ⟨hm, hc, ?_⟩
  intro out c hout
  rw [get3dCloud_center _ _ _ _ _ _ _ hout, hc]

/-- C2 at boxes with a vertical offset of 9 px and equal widths. -/
theorem get3dCloud_gate_passes_witness :
    |(((104 : Int) : ℚ) + ((10 : Int) : ℚ) / 2) - (((95 : Int) : ℚ) + ((10 : Int) : ℚ) / 2)| ≤ 10
      ∧ (1 / 2 : ℚ) ≤ ((10 : Int) : ℚ) / ((10 : Int) : ℚ)
      ∧ ((10 : Int) : ℚ) / ((10 : Int) : ℚ) ≤ 3 / 2
      ∧ boxesMismatch ⟨1, 95, 10, 10⟩ ⟨0, 104, 10, 10⟩ = false
      ∧ centerEstimate sampleDisparity sampleCamera ⟨1, 95, 10, 10⟩ ⟨0, 104, 10, 10⟩
        = projectTo3d (Fp.fin ((1 : Int) : ℚ)) (Fp.fin ((95 : Int) : ℚ))
            (Fp.fin ((((1 : Int) : ℚ) + ((10 : Int) : ℚ) / 2)
              - (((0 : Int) : ℚ) + ((10 : Int) : ℚ) / 2)))
            sampleDisparity sampleCamera true
      ∧ ∀ out c, get3dCloud sampleDisparity sampleCamera ⟨1, 95, 10, 10⟩ ⟨0, 104, 10, 10⟩ []
          = .ok (out, c) →
        c = projectTo3d (Fp.fin ((1 : Int) : ℚ)) (Fp.fin ((95 : Int) : ℚ))
            (Fp.fin ((((1 : Int) : ℚ) + ((10 : Int) : ℚ) / 2)
              - (((0 : Int) : ℚ) + ((10 : Int) : ℚ) / 2)))
            sampleDisparity sampleCamera true :=
  ⟨by norm_num, by norm_num, by norm_num,
    get3dCloud_gate_passes sampleDisparity sampleCamera ⟨1, 95, 10, 10⟩ ⟨0, 104, 10, 10⟩ []
      (by norm_num) (by norm_num) (by norm_num) (by norm_num) (by norm_num) (by norm_num)
      (by norm_num) (by norm_num)⟩

/-- C2 fails as stated: the boxes `(1, 1, 18, 10)` and `(0, 1, 10, 10)` have no
vertical offset and width ratio 1.8, inside `[0.5, 2.0]`, yet the estimate is
the origin and not the triangulation `(1/5, 1/5, 1/5)` of the top-left pixel
with disparity `10 - 5`. -/
theorem get3dCloud_ratio_counterexample :
    |((((1 : Int) : ℚ) + ((10 : Int) : ℚ) / 2) - (((1 : Int) : ℚ) + ((10 : Int) : ℚ) / 2))| ≤ 10
      ∧ (1 / 2 : ℚ) ≤ ((18 : Int) : ℚ) / ((10 : Int) : ℚ)
      ∧ ((18 : Int) : ℚ) / ((10 : Int) : ℚ) ≤ 2
      ∧ centerEstimate sampleDisparity sampleCamera ⟨1, 1, 18, 10⟩ ⟨0, 1, 10, 10⟩
        = ⟨Fp.fin 0, Fp.fin 0, Fp.fin 0⟩
      ∧ projectTo3d (Fp.fin 1) (Fp.fin 1) (Fp.fin (10 - 5)) sampleDisparity sampleCamera true
        = ⟨Fp.fin (1 / 5), Fp.fin (1 / 5), Fp.fin (1 / 5)⟩
      ∧ centerEstimate sampleDisparity sampleCamera ⟨1, 1, 18, 10⟩ ⟨0, 1, 10, 10⟩
        ≠ projectTo3d (Fp.fin 1) (Fp.fin 1) (Fp.fin (10 - 5)) sampleDisparity sampleCamera
            true := by
  have hc : centerEstimate sampleDisparity sampleCamera ⟨1, 1, 18, 10⟩ ⟨0, 1, 10, 10⟩
      = ⟨Fp.fin 0, Fp.fin 0, Fp.fin 0⟩ := by
    have hm : boxesMismatch ⟨1, 1, 18, 10⟩ ⟨0, 1, 10, 10⟩ = true := by
      rw [boxesMismatch_of_small _ _ (by norm_num) (by norm_num) (by norm_num)]
      simp [widthRatio, Fp.fin_div_fin]
      norm_num
    unfold centerEstimate
    rw [if_pos hm]
  have hp : projectTo3d (Fp.fin 1) (Fp.fin 1) (Fp.fin (10 - 5)) sampleDisparity sampleCamera
      true = ⟨Fp.fin (1 / 5), Fp.fin (1 / 5), Fp.fin (1 / 5)⟩ := by
    simp [projectTo3d, sampleDisparity, sampleCamera, Fp.fin_div_fin]
    norm_num
  refine ⟨by norm_num, by norm_num, by norm_num, hc, hp, ?_⟩
  rw [hc, hp]
  intro h
  have h1 := congrArg Point3f.x h
  simp at h1

/-- Function `projectTo3d` computes the pinhole model with `fx = P[0]`,
`fy = P[5]`, `cx = P[2]`, `cy = P[6]`, whatever `shift_correction` is. -/
theorem projectTo3d_eq_pinhole (u v d : Fp) (disparity_image : DisparityImage)
    (camera_info : CameraInfo) (b : Bool) :
    projectTo3d u v d disparity_image camera_info b
      = pinhole u v d disparity_image.f disparity_image.T (camera_info.P 0)
          (camera_info.P 5) (camera_info.P 2) (camera_info.P 6) :=
  rfl

/-- C3: when the consistency gate of `get3dCloud` passes, the single-point
estimate is the pinhole triangulation of the left box's top-left pixel
(`u = rect.x`, `v = rect.y`) with `d` = left-centre-x − right-centre-x, where
`f`, `T` come from the disparity image and `fx = P[0]`, `fy = P[5]`,
`cx = P[2]`, `cy = P[6]` from the camera info; `shift_correction` has no
effect.  The centres are those stored in `cv::Point2f` and their difference is
a `float`; for boxes with `|2x + width| < 2^23` (every box of an image) `d` is
the exact difference `(x + width/2) − (x' + width'/2)`. -/
theorem get3dCloud_estimate_is_pinhole (disparity_image : DisparityImage)
    (camera_info : CameraInfo) (rect right_rect : Rect) (pcl_cloud : List Point3f)
    (h : boxesMismatch rect right_rect = false) :
    centerEstimate disparity_image camera_info rect right_rect
        = pinhole (Fp.fin rect.x) (Fp.fin rect.y)
            (Fp.toFloat ((rectCenter rect).x - (rectCenter right_rect).x))
            disparity_image.f disparity_image.T (camera_info.P 0) (camera_info.P 5)
            (camera_info.P 2) (camera_info.P 6)
      ∧ (∀ out c, get3dCloud disparity_image camera_info rect right_rect pcl_cloud
          = .ok (out, c) →
        c = pinhole (Fp.fin rect.x) (Fp.fin rect.y)
            (Fp.toFloat ((rectCenter rect).x - (rectCenter right_rect).x))
            disparity_image.f disparity_image.T (camera_info.P 0) (camera_info.P 5)
            (camera_info.P 2) (camera_info.P 6))
      ∧ (|2 * rect.x + rect.width| < 2 ^ 23 → |2 * right_rect.x + right_rect.width| < 2 ^ 23 →
        Fp.toFloat ((rectCenter rect).x - (rectCenter right_rect).x)
          = Fp.fin (((rect.x : ℚ) + rect.width / 2)
              - ((right_rect.x : ℚ) + right_rect.width / 2)))
      ∧ ∀ (u v d : Fp) (b : Bool),
        projectTo3d u v d disparity_image camera_info b
          = projectTo3d u v d disparity_image camera_info true := by
  have hc := centerEstimate_of_pass disparity_image camera_info rect right_rect h
  rw [projectTo3d_eq_pinhole] at hc
  refine ⟨hc, ?_, disparity_of_small rect right_rect, fun _ _ _ _ => rfl⟩
  intro out c hout
  rw [get3dCloud_center _ _ _ _ _ _ _ hout, hc]

/-- C3 at boxes that pass the gate: the disparity is `6 - 1 = 5` and the
estimate `(1/5, 19, 1/5)`. -/
theorem get3dCloud_estimate_is_pinhole_witness :
    boxesMismatch ⟨1, 95, 10, 10⟩ ⟨-4, 104, 10, 10⟩ = false
      ∧ Fp.toFloat ((rectCenter ⟨1, 95, 10, 10⟩).x - (rectCenter ⟨-4, 104, 10, 10⟩).x)
        = Fp.fin 5
      ∧ centerEstimate sampleDisparity sampleCamera ⟨1, 95, 10, 10⟩ ⟨-4, 104, 10, 10⟩
        = ⟨Fp.fin (1 / 5), Fp.fin 19, Fp.fin (1 / 5)⟩ := by
  have hm : boxesMismatch ⟨1, 95, 10, 10⟩ ⟨-4, 104, 10, 10⟩ = false :=
    boxesMismatch_eq_false _ _ (by norm_num) (by norm_num) (by norm_num) (by norm_num)
      (by norm_num) (by norm_num)
  have ht := get3dCloud_estimate_is_pinhole sampleDisparity sampleCamera ⟨1, 95, 10, 10⟩
    ⟨-4, 104, 10, 10⟩ [] hm
  have hd : Fp.toFloat ((rectCenter ⟨1, 95, 10, 10⟩).x - (rectCenter ⟨-4, 104, 10, 10⟩).x)
      = Fp.fin 5 := by
    rw [ht.2.2.1 (by norm_num) (by norm_num)]
    norm_num
  refine ⟨hm, hd, ?_⟩
  rw [ht.1, hd]
  simp [pinhole, sampleDisparity, sampleCamera, Fp.fin_div_fin]
  norm_num

/-! ## The dense point set -/

/-- The values of a loop variable lie in `[start, start + len)`. -/
theorem mem_loopRange {start len i : Int} (h : i ∈ loopRange start len) :
    start ≤ i ∧ i < start + len := by
  unfold loopRange at h
  rw [List.mem_map] at h
  obtain ⟨k, hk, rfl⟩ := h
  rw [List.mem_range] at hk
  omega

/-- An `int` in `[0, 2^32)` is unchanged by the conversion to `unsigned int`. -/
theorem toUnsigned_of_lt {i : Int} (h0 : 0 ≤ i) (h1 : i < 2 ^ 32) : toUnsigned i = i.toNat := by
  unfold toUnsigned
  rw [Int.emod_eq_of_lt h0 h1]

/-- Inside a well-formed image the two reads of `get3dCloud` return the pixel
of the grid. -/
theorem readFloat_inside (image : Image) (hwf : image.wellFormed) {i j : Int}
    (hi0 : 0 ≤ i) (hi : i < image.height) (hj0 : 0 ≤ j) (hj : j < image.width) :
    toUnsigned i = i.toNat ∧ toUnsigned j = j.toNat ∧ i.toNat < image.height
      ∧ j.toNat < image.width
      ∧ readFloat image.data (byteIndex image i.toNat j.toNat)
        = .ok (pixelValue image i.toNat j.toNat) := by
  obtain ⟨hstep, hlen, hsize, _⟩ := hwf
  have hin : i.toNat < image.height := by omega
  have hjn : j.toNat < image.width := by omega
  have hrow : (i.toNat + 1) * image.step ≤ image.height * image.step :=
    Nat.mul_le_mul_right _ hin
  have hrow1 : (i.toNat + 1) * image.step = i.toNat * image.step + image.step := by ring
  have hstep1 : 4 ≤ image.step := by omega
  have hh : image.height ≤ image.height * image.step :=
    Nat.le_mul_of_pos_right _ (by omega)
  have hs : image.step ≤ image.height * image.step :=
    Nat.le_mul_of_pos_left _ (by omega)
  have hidx : byteIndex image i.toNat j.toNat = i.toNat * image.step + 4 * j.toNat := by
    unfold byteIndex
    rw [Nat.mod_eq_of_lt (by omega)]
  have hbound : i.toNat * image.step + 4 * j.toNat + 4 ≤ image.data.length := by omega
  refine ⟨toUnsigned_of_lt hi0 (by omega), toUnsigned_of_lt hj0 (by omega), hin, hjn, ?_⟩
  rw [hidx]
  unfold pixelValue
  have hr : readFloat image.data (i.toNat * image.step + 4 * j.toNat)
      = .ok (Fp.ofBits (image.data.getD (i.toNat * image.step + 4 * j.toNat) 0
        + 2 ^ 8 * image.data.getD (i.toNat * image.step + 4 * j.toNat + 1) 0
        + 2 ^ 16 * image.data.getD (i.toNat * image.step + 4 * j.toNat + 2) 0
        + 2 ^ 24 * image.data.getD (i.toNat * image.step + 4 * j.toNat + 3) 0)) := by
    unfold readFloat
    rw [if_pos hbound]
  rw [hr]

/-- The loop body at a pixel of a well-formed image appends the point of the
pixel, if it has one. -/
theorem cloudPixel_inside (disparity_image : DisparityImage) (camera_info : CameraInfo)
    (hwf : disparity_image.image.wellFormed)
    (hmax : Fp.ne disparity_image.max_disparity (Fp.fin 0) = true) {i j : Int}
    (hi0 : 0 ≤ i) (hi : i < disparity_image.image.height) (hj0 : 0 ≤ j)
    (hj : j < disparity_image.image.width) (cloud : List Point3f) :
    cloudPixel disparity_image camera_info i j cloud
      = .ok (cloud ++ (pixelPoint disparity_image camera_info i j).toList) := by
  obtain ⟨hui, huj, hin, hjn, hread⟩ :=
    readFloat_inside disparity_image.image hwf hi0 hi hj0 hj
  have hnot : (decide (i.toNat ≥ disparity_image.image.height)
      && decide (j.toNat ≥ disparity_image.image.width)) = false := by
    simp; omega
  have hyes : (decide (i.toNat < disparity_image.image.height)
      && decide (j.toNat < disparity_image.image.width)) = true := by
    simp; omega
  unfold cloudPixel hasDisparityValue getPoint pixelPoint validDisparity
  rw [hui, huj, hnot, hyes, hread, hmax]
  cases h1 : Fp.isnan (pixelValue disparity_image.image i.toNat j.toNat) <;>
  cases h2 : Fp.isinf (pixelValue disparity_image.image i.toNat j.toNat) <;>
  cases h3 : Fp.lt (pixelValue disparity_image.image i.toNat j.toNat)
    disparity_image.min_disparity <;>
  cases h4 : Fp.gt (pixelValue disparity_image.image i.toNat j.toNat)
    disparity_image.max_disparity <;>
  cases h5 : Fp.eq (pixelValue disparity_image.image i.toNat j.toNat) (Fp.fin 0) <;>
  simp [h1, h2, h3, h4, h5]

/-- The inner loop over columns inside a well-formed image. -/
theorem cloudRow_inside (disparity_image : DisparityImage) (camera_info : CameraInfo)
    (hwf : disparity_image.image.wellFormed)
    (hmax : Fp.ne disparity_image.max_disparity (Fp.fin 0) = true) {i : Int}
    (hi0 : 0 ≤ i) (hi : i < disparity_image.image.height) (js : List Int)
    (hjs : ∀ j ∈ js, 0 ≤ j ∧ j < disparity_image.image.width) (cloud : List Point3f) :
    cloudRow disparity_image camera_info i js cloud
      = .ok (cloud ++ js.filterMap (fun j => pixelPoint disparity_image camera_info i j)) := by
  induction js generalizing cloud with
  | nil => simp [cloudRow]
  | cons j js ih =>
    have hj := hjs j (List.mem_cons_self _ _)
    have hrest : ∀ k ∈ js, 0 ≤ k ∧ k < disparity_image.image.width :=
      fun k hk => hjs k (List.mem_cons_of_mem _ hk)
    unfold cloudRow
    rw [cloudPixel_inside disparity_image camera_info hwf hmax hi0 hi hj.1 hj.2]
    simp only [ih hrest]
    cases hp : pixelPoint disparity_image camera_info i j <;>
      simp [List.filterMap_cons, hp]

/-- The outer loop over rows inside a well-formed image. -/
theorem cloudRows_inside (disparity_image : DisparityImage) (camera_info : CameraInfo)
    (hwf : disparity_image.image.wellFormed)
    (hmax : Fp.ne disparity_image.max_disparity (Fp.fin 0) = true) (js is : List Int)
    (hjs : ∀ j ∈ js, 0 ≤ j ∧ j < disparity_image.image.width)
    (his : ∀ i ∈ is, 0 ≤ i ∧ i < disparity_image.image.height) (cloud : List Point3f) :
    cloudRows disparity_image camera_info js is cloud
      = .ok (cloud ++ is.flatMap (fun i =>
          js.filterMap (fun j => pixelPoint disparity_image camera_info i j))) := by
  induction is generalizing cloud with
  | nil => simp [cloudRows]
  | cons i is ih =>
    have hi := his i (List.mem_cons_self _ _)
    have hrest : ∀ k ∈ is, 0 ≤ k ∧ k < disparity_image.image.height :=
      fun k hk => his k (List.mem_cons_of_mem _ hk)
    unfold cloudRows
    rw [cloudRow_inside disparity_image camera_info hwf hmax hi.1 hi.2 js hjs]
    simp only [ih hrest, List.flatMap_cons, List.append_assoc]

/-- Inside a well-formed image with a non-zero `max_disparity`, `get3dCloud`
returns and appends the points of the pixels of the box, in row-major order. -/
theorem get3dCloud_inside (disparity_image : DisparityImage)
    (camera_info : CameraInfo) (rect right_rect : Rect) (pcl_cloud : List Point3f)
    (hwf : disparity_image.image.wellFormed)
    (hmax : Fp.ne disparity_image.max_disparity (Fp.fin 0) = true)
    (hx : 0 ≤ rect.x) (hy : 0 ≤ rect.y)
    (hw : rect.x + rect.width ≤ disparity_image.image.width)
    (hh : rect.y + rect.height ≤ disparity_image.image.height) :
    get3dCloud disparity_image camera_info rect right_rect pcl_cloud
        = .ok (pcl_cloud ++ densePoints disparity_image camera_info rect,
            centerEstimate disparity_image camera_info rect right_rect)
      ∧ ((∀ i ∈ loopRange rect.y rect.height, ∀ j ∈ loopRange rect.x rect.width,
            validDisparity disparity_image
              (pixelValue disparity_image.image i.toNat j.toNat) = false) →
          get3dCloud disparity_image camera_info rect right_rect []
            = .ok ([], centerEstimate disparity_image camera_info rect right_rect)) := by
  have hjs : ∀ j ∈ loopRange rect.x rect.width,
      0 ≤ j ∧ j < disparity_image.image.width := by
    intro j hj
    have := mem_loopRange hj
    omega
  have his : ∀ i ∈ loopRange rect.y rect.height,
      0 ≤ i ∧ i < disparity_image.image.height := by
    intro i hi
    have := mem_loopRange hi
    omega
  have hloop := cloudRows_inside disparity_image camera_info hwf hmax _ _ hjs his
  constructor
  · unfold get3dCloud
    simp only [hloop pcl_cloud]
    rfl
  · intro hnone
    unfold get3dCloud
    simp only [hloop []]
    have hempty : (loopRange rect.y rect.height).flatMap (fun i =>
        (loopRange rect.x rect.width).filterMap (fun j =>
          pixelPoint disparity_image camera_info i j)) = [] := by
      rw [List.flatMap_eq_nil_iff]
      intro i hi
      rw [List.filterMap_eq_nil_iff]
      intro j hj
      unfold pixelPoint
      rw [hnone i hi j hj]
      rfl
    rw [hempty]
    rfl

/-- C4 as the code has it: for every well-formed disparity image whose
`max_disparity` is not zero and every left box lying inside the image, the
point set appended by `get3dCloud` is exactly, in row-major order, one point
per pixel of the box whose disparity is neither NaN nor infinite, within
`[min_disparity, max_disparity]` and not zero, that point being the pinhole
triangulation of (column, row) with the pixel's own disparity; every other
pixel contributes nothing, and a box with no valid pixel appends nothing. -/
theorem get3dCloud_dense_points (disparity_image : DisparityImage)
    (camera_info : CameraInfo) (rect right_rect : Rect) (pcl_cloud : List Point3f)
    (hwf : disparity_image.image.wellFormed)
    (hmax : Fp.ne disparity_image.max_disparity (Fp.fin 0) = true)
    (hx : 0 ≤ rect.x) (hy : 0 ≤ rect.y)
    (hw : rect.x + rect.width ≤ disparity_image.image.width)
    (hh : rect.y + rect.height ≤ disparity_image.image.height) :
    get3dCloud disparity_image camera_info rect right_rect pcl_cloud
        = .ok (pcl_cloud ++ densePoints disparity_image camera_info rect,
            centerEstimate disparity_image camera_info rect right_rect)
      ∧ ((∀ i ∈ loopRange rect.y rect.height, ∀ j ∈ loopRange rect.x rect.width,
            validDisparity disparity_image
              (pixelValue disparity_image.image i.toNat j.toNat) = false) →
          get3dCloud disparity_image camera_info rect right_rect []
            = .ok ([], centerEstimate disparity_image camera_info rect right_rect)) :=
  get3dCloud_inside disparity_image camera_info rect right_rect pcl_cloud hwf hmax hx hy hw hh

/-- The loop variable over two values from zero. -/
theorem loopRange_zero_two : loopRange 0 2 = [0, 1] := by decide

/-- The loop variable over one value from zero. -/
theorem loopRange_zero_one : loopRange 0 1 = [0] := by decide

/-- Pixel `(0, 0)` of the sample image. -/
theorem sample_pixel_00 : pixelValue sampleDisparity.image 0 0 = Fp.fin 1 := by
  simp [pixelValue, readFloat, sampleDisparity, Fp.ofBits]

/-- Pixel `(0, 1)` of the sample image. -/
theorem sample_pixel_01 : pixelValue sampleDisparity.image 0 1 = Fp.fin 0 := by
  simp [pixelValue, readFloat, sampleDisparity, Fp.ofBits]

/-- Pixel `(1, 0)` of the sample image. -/
theorem sample_pixel_10 : pixelValue sampleDisparity.image 1 0 = Fp.nan := by
  simp [pixelValue, readFloat, sampleDisparity, Fp.ofBits]

/-- Pixel `(1, 1)` of the sample image. -/
theorem sample_pixel_11 : pixelValue sampleDisparity.image 1 1 = Fp.fin 2 := by
  simp [pixelValue, readFloat, sampleDisparity, Fp.ofBits]
  norm_num

/-- The only pixel of the zero-range image. -/
theorem zero_pixel_00 : pixelValue zeroRangeDisparity.image 0 0 = Fp.fin 0 := by
  simp [pixelValue, readFloat, zeroRangeDisparity, Fp.ofBits]

/-- The points of the sample image: pixel `(0,0)` with disparity 1 and pixel
`(1,1)` with disparity 2; the zero and the NaN pixel give nothing. -/
theorem densePoints_sample :
    densePoints sampleDisparity sampleCamera ⟨0, 0, 2, 2⟩
      = [⟨Fp.fin 0, Fp.fin 0, Fp.fin 1⟩, ⟨Fp.fin (1 / 2), Fp.fin (1 / 2), Fp.fin (1 / 2)⟩] := by
  simp only [densePoints, loopRange_zero_two, List.flatMap_cons, List.flatMap_nil,
    List.filterMap_cons, List.filterMap_nil, pixelPoint, Int.toNat_zero, Int.toNat_one,
    sample_pixel_00, sample_pixel_01, sample_pixel_10, sample_pixel_11]
  simp [validDisparity, sampleDisparity, sampleCamera, projectTo3d, Fp.isnan, Fp.isinf,
    Fp.fin_div_fin]
  norm_num

/-- C4 on the sample image and the box covering it. -/
theorem get3dCloud_dense_points_witness :
    sampleDisparity.image.wellFormed
      ∧ Fp.ne sampleDisparity.max_disparity (Fp.fin 0) = true
      ∧ get3dCloud sampleDisparity sampleCamera ⟨0, 0, 2, 2⟩ ⟨0, 0, 2, 2⟩ []
        = .ok ([] ++ densePoints sampleDisparity sampleCamera ⟨0, 0, 2, 2⟩,
            centerEstimate sampleDisparity sampleCamera ⟨0, 0, 2, 2⟩ ⟨0, 0, 2, 2⟩) :=
  ⟨by decide, by simp [sampleDisparity],
    (get3dCloud_dense_points sampleDisparity sampleCamera ⟨0, 0, 2, 2⟩ ⟨0, 0, 2, 2⟩ []
      (by decide) (by simp [sampleDisparity]) (by decide) (by decide) (by decide)
      (by decide)).1⟩

/-- C4 fails as stated: on the well-formed 1x1 image with pixel `0.0` and
disparity range `[0, 0]` the box `(0, 0, 1, 1)` lies inside the image and has
no pixel with a non-zero disparity, so the claim gives the empty point set;
`get3dCloud` stops at `ROS_ASSERT(disparity_image.max_disparity != 0.0)`. -/
theorem get3dCloud_zero_max_disparity_counterexample :
    zeroRangeDisparity.image.wellFormed
      ∧ densePoints zeroRangeDisparity sampleCamera ⟨0, 0, 1, 1⟩ = []
      ∧ get3dCloud zeroRangeDisparity sampleCamera ⟨0, 0, 1, 1⟩ ⟨0, 0, 1, 1⟩ []
        = .error .assertFailed := by
  refine ⟨by decide, ?_, ?_⟩
  · simp only [densePoints, loopRange_zero_one, List.flatMap_cons, List.flatMap_nil,
      List.filterMap_cons, List.filterMap_nil, pixelPoint, Int.toNat_zero, zero_pixel_00]
    simp [validDisparity]
  · simp only [get3dCloud, loopRange_zero_one, cloudRows, cloudRow, cloudPixel]
    simp [hasDisparityValue, getPoint, byteIndex, toUnsigned, readFloat, zeroRangeDisparity,
      Fp.ofBits, Fp.isnan, Fp.isinf]

/-! ## The paths through `trackBlob` -/

/-- Every return of `trackBlob` is one of four: a missing input, a left-track
failure, an invalid tracking window, or a full reconstruction. -/
theorem trackBlob_cases (env : Env) (s : HueBlob) (name : String) (blob : Blob) (s1 : HueBlob)
    (h : trackBlob env s name = .ok (blob, s1)) :
    (blob = Blob.new ∧ s1 = s
        ∧ (s.leftImage_ = none ∨ s.disparity_ = none ∨ s.rightImage_ = none))
      ∨ ∃ leftImage disparity rightImage right_image image,
          s.leftImage_ = some leftImage ∧ s.disparity_ = some disparity
            ∧ s.rightImage_ = some rightImage
            ∧ env.toCvShare rightImage "bgr8" = some right_image
            ∧ env.toCvShare leftImage "bgr8" = some image
            ∧ s1 = trackedState env s name right_image image
            ∧ (((env.track (s.left_objects_.subscript name).1 image).1 = none
                  ∧ blob = headerBlob leftImage name)
              ∨ ∃ rrect right_rrect,
                  (env.track (s.left_objects_.subscript name).1 image).1 = some rrect
                    ∧ (env.track (s.right_objects_.subscript name).1 right_image).1
                      = some right_rrect
                    ∧ ((invalidWindow (env.boundingRect rrect) = true
                          ∧ blob = boxBlob leftImage name (env.boundingRect rrect))
                      ∨ (invalidWindow (env.boundingRect rrect) = false
                          ∧ ∃ leftCamera pcl_cloud center_est,
                              s.leftCamera_ = some leftCamera
                                ∧ get3dCloud disparity leftCamera (env.boundingRect rrect)
                                    (env.boundingRect right_rrect) [] = .ok (pcl_cloud, center_est)
                                ∧ blob = fillBlob env leftImage
                                    (env.track (s.left_objects_.subscript name).1 image).2
                                    (env.boundingRect rrect)
                                    (boxBlob leftImage name (env.boundingRect rrect))
                                    pcl_cloud center_est))) := by
  unfold trackBlob at h
  split at h
  · rename_i leftImage disparity rightImage hL hD hR
    right
    cases hcr : env.toCvShare rightImage "bgr8" with
    | none => simp [hcr] at h
    | some right_image =>
      cases hcl : env.toCvShare leftImage "bgr8" with
      | none => simp [hcr, hcl] at h
      | some image =>
        simp only [hcr, hcl] at h
        refine ⟨leftImage, disparity, rightImage, right_image, image, hL, hD, hR, hcr, hcl, ?_⟩
        cases hl : (env.track (s.left_objects_.subscript name).1 image).1 with
        | none =>
          simp only [hl, Except.ok.injEq, Prod.mk.injEq] at h
          exact ⟨h.2.symm, Or.inl ⟨rfl, h.1.symm⟩⟩
        | some rrect =>
          cases hr : (env.track (s.right_objects_.subscript name).1 right_image).1 with
          | none => simp [hl, hr] at h
          | some right_rrect =>
            simp only [hl, hr] at h
            cases hw : invalidWindow (env.boundingRect rrect) with
            | true =>
              simp only [hw, if_true, Except.ok.injEq, Prod.mk.injEq] at h
              exact ⟨h.2.symm, Or.inr ⟨rrect, right_rrect, rfl, rfl, Or.inl ⟨hw, h.1.symm⟩⟩⟩
            | false =>
              simp only [hw, Bool.false_eq_true, if_false] at h
              cases hc : s.leftCamera_ with
              | none => simp [hc] at h
              | some leftCamera =>
                simp only [hc] at h
                cases hg : get3dCloud disparity leftCamera (env.boundingRect rrect)
                    (env.boundingRect right_rrect) [] with
                | error e => simp [hg] at h
                | ok res =>
                  obtain ⟨pcl_cloud, center_est⟩ := res
                  simp only [hg, Except.ok.injEq, Prod.mk.injEq] at h
                  exact ⟨h.2.symm, Or.inr ⟨rrect, right_rrect, rfl, rfl,
                    Or.inr ⟨hw, leftCamera, pcl_cloud, center_est, rfl, hg, h.1.symm⟩⟩⟩
  · rename_i hmiss
    simp only [Except.ok.injEq, Prod.mk.injEq] at h
    refine Or.inl ⟨h.1.symm, h.2.symm, ?_⟩
    cases hL : s.leftImage_ with
    | none => exact Or.inl rfl
    | some leftImage =>
      cases hD : s.disparity_ with
      | none => exact Or.inr (Or.inl rfl)
      | some disparity =>
        cases hR : s.rightImage_ with
        | none => exact Or.inr (Or.inr rfl)
        | some rightImage => exact absurd hR (hmiss leftImage disparity rightImage hL hD)

/-! ## Depth density -/

/-- A valid tracking window has positive sides. -/
theorem invalidWindow_eq_false {rect : Rect} (h : invalidWindow rect = false) :
    0 ≤ rect.x ∧ 0 ≤ rect.y ∧ 0 < rect.width ∧ 0 < rect.height := by
  simp only [invalidWindow, Bool.or_eq_false_iff, decide_eq_false_iff_not, not_lt, not_le] at h
  exact ⟨h.1.1.1, h.1.1.2, h.1.2, h.2⟩

/-- The density written by `fillBlob` for a window with positive sides. -/
theorem fillBlob_depth_density (env : Env) (leftImage : Image) (object : Object) (rect : Rect)
    (blob : Blob) (pcl_cloud : List Point3f) (center_est : Point3f)
    (hw : 0 < rect.width) (hh : 0 < rect.height) :
    (fillBlob env leftImage object rect blob pcl_cloud center_est).depth_density
      = Fp.fin ((pcl_cloud.length : ℚ) / ((rect.width * rect.height : Int) : ℚ)) := by
  have hne : ((rect.width * rect.height : Int) : ℚ) ≠ 0 := by
    have : 0 < rect.width * rect.height := Int.mul_pos hw hh
    exact_mod_cast this.ne'
  show Fp.fin 1 * Fp.ofInt pcl_cloud.length / Fp.ofInt (rect.width * rect.height) = _
  rw [Fp.ofInt_eq, Fp.ofInt_eq, Fp.fin_mul_fin, Fp.fin_div_fin_of_ne _ hne]
  simp

/-- The call of `get3dCloud` made by `trackBlob` in `sampleState`. -/
theorem get3dCloud_sample :
    get3dCloud sampleDisparity sampleCamera ⟨0, 0, 2, 2⟩ ⟨-1, 0, 2, 2⟩ []
      = .ok ([⟨Fp.fin 0, Fp.fin 0, Fp.fin 1⟩, ⟨Fp.fin (1 / 2), Fp.fin (1 / 2), Fp.fin (1 / 2)⟩],
          ⟨Fp.fin 0, Fp.fin 0, Fp.fin 1⟩) := by
  rw [(get3dCloud_inside sampleDisparity sampleCamera ⟨0, 0, 2, 2⟩ ⟨-1, 0, 2, 2⟩ []
    (by decide) (by simp [sampleDisparity]) (by decide) (by decide) (by decide) (by decide)).1,
    densePoints_sample]
  have hc : centerEstimate sampleDisparity sampleCamera ⟨0, 0, 2, 2⟩ ⟨-1, 0, 2, 2⟩
      = ⟨Fp.fin 0, Fp.fin 0, Fp.fin 1⟩ := by
    rw [centerEstimate_of_small _ _ _ _ (by norm_num) (by norm_num) boxesMismatch_sample]
    simp [projectTo3d, sampleDisparity, sampleCamera, Fp.fin_div_fin]
  rw [hc]
  rfl

/-- The blob of object `"a"` in `sampleState`. -/
theorem trackBlob_sample :
    trackBlob sampleEnv sampleState "a" = .ok (sampleBlob, sampleTrackedState) := by
  have hl : sampleEnv.boundingRect
      ⟨⟨Fp.fin 1, Fp.fin 1⟩, ⟨Fp.fin 2, Fp.fin 2⟩, Fp.fin 0⟩ = ⟨0, 0, 2, 2⟩ := by
    simp [sampleEnv]
  have hr : sampleEnv.boundingRect
      ⟨⟨Fp.fin 0, Fp.fin 1⟩, ⟨Fp.fin 2, Fp.fin 2⟩, Fp.fin 0⟩ = ⟨-1, 0, 2, 2⟩ := by
    simp [sampleEnv]
  simp [trackBlob, sampleState, sampleEnv, Registry.subscript, Registry.find, invalidWindow,
    sampleLeftImage, sampleRightImage, List.lookup, get3dCloud_sample]
  constructor
  · simp [fillBlob, boxBlob, headerBlob, Blob.new, TransformStamped.new, sampleBlob,
      compute3DCentroid, getMinMax3D, Fp.sum, Fp.min, Fp.max, FLT_MAX, sampleObject, Object.new,
      Fp.fin_div_fin]
    norm_num
  · simp [trackedState, sampleTrackedState, sampleTrackedObject, Registry.subscript,
      Registry.assign, Registry.find, sampleState, List.lookup]
    exact ⟨rfl, rfl⟩

/-- What the sample tracker finds in the left sample image, and its box. -/
theorem sample_left_track :
    (sampleEnv.track (sampleState.left_objects_.subscript "a").1
        ⟨2, 2, [1, 0, 0, 0, 0, 0, 0, 0, 0, 0, 0, 0]⟩).1
        = some ⟨⟨Fp.fin 1, Fp.fin 1⟩, ⟨Fp.fin 2, Fp.fin 2⟩, Fp.fin 0⟩
      ∧ sampleEnv.boundingRect ⟨⟨Fp.fin 1, Fp.fin 1⟩, ⟨Fp.fin 2, Fp.fin 2⟩, Fp.fin 0⟩
        = ⟨0, 0, 2, 2⟩ := by
  constructor <;> simp [sampleEnv]

namespace Registry

/-- Lookup in a non-empty map. -/
theorem find_cons (k2 : String) (o2 : Object) (m : Registry) (k : String) :
    find ((k2, o2) :: m) k = if k = k2 then some o2 else find m k := by
  by_cases h : k = k2
  · simp [find, List.lookup, h]
  · have hb : (k == k2) = false := by simpa using h
    simp [find, List.lookup, hb, h]

/-- Lookup in the empty map. -/
theorem find_nil (k : String) : find [] k = none := rfl

/-- Write through a reference, entry by entry. -/
theorem assign_cons (k2 : String) (o2 : Object) (m : Registry) (k : String) (o : Object) :
    assign ((k2, o2) :: m) k o = (if k2 = k then (k2, o) else (k2, o2)) :: assign m k o :=
  rfl

/-- Writing through a reference changes no key. -/
theorem keys_assign (m : Registry) (k : String) (o : Object) : (m.assign k o).keys = m.keys := by
  unfold assign keys
  rw [List.map_map]
  apply List.map_congr_left
  intro p _
  by_cases hp : p.1 = k <;> simp [hp]

/-- Looking up a key of the map finds an object. -/
theorem find_isSome_of_mem (m : Registry) (k : String) (h : k ∈ m.keys) :
    ∃ o, m.find k = some o := by
  induction m with
  | nil => simp [keys] at h
  | cons p m ih =>
    obtain ⟨k1, o1⟩ := p
    rw [find_cons]
    by_cases hk : k = k1
    · exact ⟨o1, by rw [if_pos hk]⟩
    · have hm : k ∈ keys m := by
        simp only [keys, List.map_cons, List.mem_cons] at h
        rcases h with h | h
        · exact absurd h hk
        · exact h
      rw [if_neg hk]
      exact ih hm

/-- The expression `m[k]` leaves the map alone when `k` is a key. -/
theorem subscript_of_mem (m : Registry) (k : String) (h : k ∈ m.keys) :
    (m.subscript k).2 = m := by
  obtain ⟨o, ho⟩ := find_isSome_of_mem m k h
  simp [subscript, ho]

/-- Writing through a reference to `k` leaves the other entries alone. -/
theorem find_assign_of_ne (m : Registry) (k k1 : String) (o : Object) (h : k1 ≠ k) :
    (m.assign k o).find k1 = m.find k1 := by
  induction m with
  | nil => rfl
  | cons p m ih =>
    obtain ⟨k2, o2⟩ := p
    rw [assign_cons, find_cons]
    by_cases h2 : k2 = k
    · have h3 : k1 ≠ k2 := by rw [h2]; exact h
      rw [if_pos h2, find_cons, if_neg h3, if_neg h3, ih]
    · rw [if_neg h2, find_cons, ih]

/-- Inserting `k` leaves the other entries alone. -/
theorem find_insertNew_of_ne (m : Registry) (k k1 : String) (o : Object) (h : k1 ≠ k) :
    (insertNew k o m).find k1 = m.find k1 := by
  induction m with
  | nil =>
    show find [(k, o)] k1 = find [] k1
    rw [find_cons, if_neg h]
  | cons p m ih =>
    obtain ⟨k2, o2⟩ := p
    unfold insertNew
    split
    · rw [find_cons, if_neg h]
    · split
      · rfl
      · rw [find_cons, find_cons, ih]

/-- The expression `m[k]` leaves the other entries alone. -/
theorem find_subscript_of_ne (m : Registry) (k k1 : String) (h : k1 ≠ k) :
    (m.subscript k).2.find k1 = m.find k1 := by
  unfold subscript
  split
  · rfl
  · exact find_insertNew_of_ne m k k1 _ h

/-- After an insertion `k` is a key. -/
theorem find_insertNew_self (m : Registry) (k : String) (o : Object) (h : m.find k = none) :
    (insertNew k o m).find k = some o := by
  induction m with
  | nil =>
    show find [(k, o)] k = some o
    rw [find_cons, if_pos rfl]
  | cons p m ih =>
    obtain ⟨k2, o2⟩ := p
    rw [find_cons] at h
    have hne : k ≠ k2 := by
      intro hk
      rw [if_pos hk] at h
      cases h
    rw [if_neg hne] at h
    unfold insertNew
    split
    · rw [find_cons, if_pos rfl]
    · rw [find_cons, if_neg hne]
      exact ih h

/-- Writing through a reference to a key stores the object under it. -/
theorem find_assign_self (m : Registry) (k : String) (o o1 : Object) (h : m.find k = some o1) :
    (m.assign k o).find k = some o := by
  induction m with
  | nil => cases h
  | cons p m ih =>
    obtain ⟨k2, o2⟩ := p
    rw [assign_cons]
    by_cases hk : k2 = k
    · rw [if_pos hk, find_cons, if_pos hk.symm]
    · have hk1 : k ≠ k2 := Ne.symm hk
      rw [find_cons, if_neg hk1] at h
      rw [if_neg hk, find_cons, if_neg hk1]
      exact ih h

/-- After `Object& r = m[k]; r = o`, the map stores `o` under `k`. -/
theorem find_assign_subscript (m : Registry) (k : String) (o : Object) :
    ((m.subscript k).2.assign k o).find k = some o := by
  unfold subscript
  split
  · rename_i o1 h1
    exact find_assign_self m k o o1 h1
  · rename_i h1
    exact find_assign_self _ k o _ (find_insertNew_self m k Object.new h1)

end Registry

/-! ## The 3D fields of the blob -/

/-- The 3D fields written by `fillBlob` for a non-empty cloud. -/
theorem fillBlob_of_ne_nil (env : Env) (leftImage : Image) (object : Object) (rect : Rect)
    (name : String) (pcl_cloud : List Point3f) (center_est : Point3f) (hne : pcl_cloud ≠ []) :
    (fillBlob env leftImage object rect (boxBlob leftImage name rect) pcl_cloud
        center_est).cloud_centroid.transform.translation
        = ⟨(compute3DCentroid (env.sorFilter pcl_cloud) ⟨Fp.fin 0, Fp.fin 0, Fp.fin 0⟩).x
              + object.anchor_x_,
            (compute3DCentroid (env.sorFilter pcl_cloud) ⟨Fp.fin 0, Fp.fin 0, Fp.fin 0⟩).y
              + object.anchor_y_,
            (compute3DCentroid (env.sorFilter pcl_cloud) ⟨Fp.fin 0, Fp.fin 0, Fp.fin 0⟩).z
              + object.anchor_z_⟩
      ∧ (fillBlob env leftImage object rect (boxBlob leftImage name rect) pcl_cloud
          center_est).boundingbox_3d
        = [(getMinMax3D (env.sorFilter pcl_cloud)).1.x,
            (getMinMax3D (env.sorFilter pcl_cloud)).1.y,
            (getMinMax3D (env.sorFilter pcl_cloud)).1.z,
            (getMinMax3D (env.sorFilter pcl_cloud)).2.x,
            (getMinMax3D (env.sorFilter pcl_cloud)).2.y,
            (getMinMax3D (env.sorFilter pcl_cloud)).2.z] := by
  have hpos : pcl_cloud.length > 0 := List.length_pos.mpr hne
  constructor
  · simp only [fillBlob, hpos, if_true]
  · simp only [fillBlob, hpos, if_true, boxBlob, headerBlob, Blob.new, List.replicate,
      List.set_cons_zero, List.set_cons_succ]

/-- C7: when the reconstructed point set is non-empty (the blob has a non-zero
`depth_density`), the `cloud_centroid` translation of the blob returned by
`trackBlob` is the centroid (arithmetic mean) of the outlier-filtered points
plus the anchor of the left object, component by component, and
`boundingbox_3d` is `(minX, minY, minZ, maxX, maxY, maxZ)` of the filtered
points, in that order. -/
theorem trackBlob_centroid_and_box (env : Env) (s : HueBlob) (name : String)
    (blob : Blob) (s1 : HueBlob) (h : trackBlob env s name = .ok (blob, s1))
    (hd : blob.depth_density ≠ Fp.fin 0) :
    ∃ disparity leftCamera rect right_rect pcl_cloud center_est object,
      s.disparity_ = some disparity ∧ s.leftCamera_ = some leftCamera
        ∧ get3dCloud disparity leftCamera rect right_rect [] = .ok (pcl_cloud, center_est)
        ∧ pcl_cloud ≠ []
        ∧ s1.left_objects_.find name = some object
        ∧ blob.cloud_centroid.transform.translation
          = ⟨(compute3DCentroid (env.sorFilter pcl_cloud) ⟨Fp.fin 0, Fp.fin 0, Fp.fin 0⟩).x
                + object.anchor_x_,
              (compute3DCentroid (env.sorFilter pcl_cloud) ⟨Fp.fin 0, Fp.fin 0, Fp.fin 0⟩).y
                + object.anchor_y_,
              (compute3DCentroid (env.sorFilter pcl_cloud) ⟨Fp.fin 0, Fp.fin 0, Fp.fin 0⟩).z
                + object.anchor_z_⟩
        ∧ (env.sorFilter pcl_cloud ≠ [] →
            compute3DCentroid (env.sorFilter pcl_cloud) ⟨Fp.fin 0, Fp.fin 0, Fp.fin 0⟩
              = ⟨Fp.sum ((env.sorFilter pcl_cloud).map Point3f.x)
                    / Fp.fin ((env.sorFilter pcl_cloud).length : ℚ),
                  Fp.sum ((env.sorFilter pcl_cloud).map Point3f.y)
                    / Fp.fin ((env.sorFilter pcl_cloud).length : ℚ),
                  Fp.sum ((env.sorFilter pcl_cloud).map Point3f.z)
                    / Fp.fin ((env.sorFilter pcl_cloud).length : ℚ)⟩)
        ∧ blob.boundingbox_3d
          = [(getMinMax3D (env.sorFilter pcl_cloud)).1.x,
              (getMinMax3D (env.sorFilter pcl_cloud)).1.y,
              (getMinMax3D (env.sorFilter pcl_cloud)).1.z,
              (getMinMax3D (env.sorFilter pcl_cloud)).2.x,
              (getMinMax3D (env.sorFilter pcl_cloud)).2.y,
              (getMinMax3D (env.sorFilter pcl_cloud)).2.z] := by
  rcases trackBlob_cases env s name blob s1 h with ⟨hb, _, _⟩ |
    ⟨leftImage, disparity, rightImage, right_image, image, hL, hD, hR, hcr, hcl, hs, hrest⟩
  · exact absurd (by rw [hb]; rfl) hd
  · rcases hrest with ⟨_, hb⟩ | ⟨rrect, right_rrect, hl, hr, hcase⟩
    · exact absurd (by rw [hb]; rfl) hd
    · rcases hcase with ⟨_, hb⟩ | ⟨hw, leftCamera, pcl_cloud, center_est, hc, hg, hb⟩
      · exact absurd (by rw [hb]; rfl) hd
      · obtain ⟨_, _, hwpos, hhpos⟩ := invalidWindow_eq_false hw
        have hne : pcl_cloud ≠ [] := by
          intro hnil
          apply hd
          rw [hb, fillBlob_depth_density _ _ _ _ _ _ _ hwpos hhpos, hnil]
          simp
        have hf := fillBlob_of_ne_nil env leftImage
          (env.track (s.left_objects_.subscript name).1 image).2 (env.boundingRect rrect) name
          pcl_cloud center_est hne
        rw [← hb] at hf
        refine ⟨disparity, leftCamera, env.boundingRect rrect, env.boundingRect right_rrect,
          pcl_cloud, center_est, (env.track (s.left_objects_.subscript name).1 image).2,
          hD, hc, hg, hne, ?_, hf.1, ?_, hf.2⟩
        · rw [hs]
          exact Registry.find_assign_subscript _ _ _
        · intro hfne
          simp only [compute3DCentroid, hfne, if_false, Fp.ofInt_eq, Int.cast_natCast]

/-- C7 on `sampleState`: the points `(0, 0, 1)` and `(1/2, 1/2, 1/2)` have the
mean `(1/4, 1/4, 3/4)`; with the anchor `(1, 2, 3)` the centroid of the blob
is `(5/4, 9/4, 15/4)` and its 3D box `(0, 0, 1/2, 1/2, 1/2, 1)`. -/
theorem trackBlob_centroid_and_box_witness :
    trackBlob sampleEnv sampleState "a" = .ok (sampleBlob, sampleTrackedState)
      ∧ sampleBlob.depth_density ≠ Fp.fin 0
      ∧ sampleBlob.cloud_centroid.transform.translation
        = ⟨Fp.fin (5 / 4), Fp.fin (9 / 4), Fp.fin (15 / 4)⟩
      ∧ sampleBlob.boundingbox_3d
        = [Fp.fin 0, Fp.fin 0, Fp.fin (1 / 2), Fp.fin (1 / 2), Fp.fin (1 / 2), Fp.fin 1]
      ∧ ∃ disparity leftCamera rect right_rect pcl_cloud center_est object,
          sampleState.disparity_ = some disparity ∧ sampleState.leftCamera_ = some leftCamera
            ∧ get3dCloud disparity leftCamera rect right_rect [] = .ok (pcl_cloud, center_est)
            ∧ pcl_cloud ≠ []
            ∧ sampleTrackedState.left_objects_.find "a" = some object
            ∧ sampleBlob.cloud_centroid.transform.translation
              = ⟨(compute3DCentroid (sampleEnv.sorFilter pcl_cloud)
                    ⟨Fp.fin 0, Fp.fin 0, Fp.fin 0⟩).x + object.anchor_x_,
                  (compute3DCentroid (sampleEnv.sorFilter pcl_cloud)
                    ⟨Fp.fin 0, Fp.fin 0, Fp.fin 0⟩).y + object.anchor_y_,
                  (compute3DCentroid (sampleEnv.sorFilter pcl_cloud)
                    ⟨Fp.fin 0, Fp.fin 0, Fp.fin 0⟩).z + object.anchor_z_⟩ := by
  have hd : sampleBlob.depth_density ≠ Fp.fin 0 := by
    simp [sampleBlob]
  obtain ⟨disparity, leftCamera, rect, right_rect, pcl_cloud, center_est, object, h1, h2, h3,
    h4, h5, h6, _, _⟩ :=
    trackBlob_centroid_and_box sampleEnv sampleState "a" sampleBlob sampleTrackedState
      trackBlob_sample hd
  exact ⟨trackBlob_sample, hd, rfl, rfl, disparity, leftCamera, rect, right_rect, pcl_cloud,
    center_est, object, h1, h2, h3, h4, h5, h6⟩

/-- When the left tracker returns a rectangle and the right tracker nothing,
`trackBlob` reaches `right_rrect->boundingRect()` with an empty optional. -/
theorem trackBlob_error_of_right_none (env : Env) (s : HueBlob) (name : String)
    (leftImage rightImage : Image) (disparity : DisparityImage) (right_image image : Mat)
    (rrect : RotatedRect)
    (hL : s.leftImage_ = some leftImage) (hD : s.disparity_ = some disparity)
    (hR : s.rightImage_ = some rightImage)
    (hcr : env.toCvShare rightImage "bgr8" = some right_image)
    (hcl : env.toCvShare leftImage "bgr8" = some image)
    (hl : (env.track (s.left_objects_.subscript name).1 image).1 = some rrect)
    (hr : (env.track (s.right_objects_.subscript name).1 right_image).1 = none) :
    trackBlob env s name = .error .emptyOptional := by
  unfold trackBlob
  simp only [hL, hD, hR, hcr, hcl, hl, hr]

/-- C9, the code at the failing input: in `rightLostState` the left tracker
returns a rectangle and the right tracker nothing; `trackBlob` does not exit
early with a degenerate blob but dereferences the empty optional, while the
mirrored left failure of `leftLostState` returns the degenerate blob. -/
theorem trackBlob_right_failure_dereferences :
    trackBlob sampleEnv rightLostState "a" = .error .emptyOptional
      ∧ ∃ s1, trackBlob sampleEnv leftLostState "a"
          = .ok (headerBlob sampleBlankImage "a", s1) := by
  constructor
  · exact trackBlob_error_of_right_none sampleEnv rightLostState "a" sampleLeftImage
      sampleBlankImage sampleDisparity ⟨0, 0, []⟩ ⟨2, 2, [1, 0, 0, 0, 0, 0, 0, 0, 0, 0, 0, 0]⟩
      ⟨⟨Fp.fin 1, Fp.fin 1⟩, ⟨Fp.fin 2, Fp.fin 2⟩, Fp.fin 0⟩ rfl rfl rfl rfl rfl
      sample_left_track.1 rfl
  · refine ⟨trackedState sampleEnv leftLostState "a"
      ⟨2, 2, [0, 0, 0, 0, 0, 0, 0, 0, 0, 0, 0, 0]⟩ ⟨0, 0, []⟩, ?_⟩
    simp [trackBlob, leftLostState, sampleState, sampleEnv, sampleBlankImage, sampleRightImage]

/-- C10: when the left-image tracker returns no value for a registered object
(the inputs being present and converted), `trackBlob` returns a degenerate
blob: it carries the object's name and the left image header, its
`boundingbox_2d` is `(0, 0, 0, 0)`, `boundingbox_3d`, `cloud_centroid` and the
`position` transform are as default-constructed and `depth_density` is 0; the
key sets of both registries and the entries of the other objects are
unchanged. -/
theorem trackBlob_left_failure (env : Env) (s : HueBlob) (name : String)
    (leftImage rightImage : Image) (disparity : DisparityImage) (right_image image : Mat)
    (hL : s.leftImage_ = some leftImage) (hD : s.disparity_ = some disparity)
    (hR : s.rightImage_ = some rightImage)
    (hcr : env.toCvShare rightImage "bgr8" = some right_image)
    (hcl : env.toCvShare leftImage "bgr8" = some image)
    (hl : (env.track (s.left_objects_.subscript name).1 image).1 = none)
    (hkl : name ∈ s.left_objects_.keys) (hkr : name ∈ s.right_objects_.keys) :
    ∃ blob s1, trackBlob env s name = .ok (blob, s1)
      ∧ blob.name = name ∧ blob.header = leftImage.header
      ∧ blob.boundingbox_2d = [Fp.fin 0, Fp.fin 0, Fp.fin 0, Fp.fin 0]
      ∧ blob.boundingbox_3d = List.replicate 6 (Fp.fin 0)
      ∧ blob.cloud_centroid = TransformStamped.new
      ∧ blob.position.transform = TransformStamped.new.transform
      ∧ blob.depth_density = Fp.fin 0
      ∧ s1.left_objects_.keys = s.left_objects_.keys
      ∧ s1.right_objects_.keys = s.right_objects_.keys
      ∧ ∀ other, other ≠ name →
          s1.left_objects_.find other = s.left_objects_.find other
            ∧ s1.right_objects_.find other = s.right_objects_.find other := by
  refine ⟨headerBlob leftImage name, trackedState env s name right_image image, ?_, rfl, rfl,
    rfl, rfl, rfl, rfl, rfl, ?_, ?_, ?_⟩
  · unfold trackBlob
    simp only [hL, hD, hR, hcr, hcl, hl]
  · show ((s.left_objects_.subscript name).2.assign name _).keys = _
    rw [Registry.keys_assign, Registry.subscript_of_mem _ _ hkl]
  · show ((s.right_objects_.subscript name).2.assign name _).keys = _
    rw [Registry.keys_assign, Registry.subscript_of_mem _ _ hkr]
  · intro other hne
    constructor
    · show ((s.left_objects_.subscript name).2.assign name _).find other = _
      rw [Registry.find_assign_of_ne _ _ _ _ hne, Registry.find_subscript_of_ne _ _ _ hne]
    · show ((s.right_objects_.subscript name).2.assign name _).find other = _
      rw [Registry.find_assign_of_ne _ _ _ _ hne, Registry.find_subscript_of_ne _ _ _ hne]

/-- C10 on `leftLostState`, whose left image has no pixel. -/
theorem trackBlob_left_failure_witness :
    (sampleEnv.track (leftLostState.left_objects_.subscript "a").1 ⟨0, 0, []⟩).1 = none
      ∧ "a" ∈ leftLostState.left_objects_.keys ∧ "a" ∈ leftLostState.right_objects_.keys
      ∧ ∃ blob s1, trackBlob sampleEnv leftLostState "a" = .ok (blob, s1)
          ∧ blob.name = "a" ∧ blob.header = sampleBlankImage.header
          ∧ blob.boundingbox_2d = [Fp.fin 0, Fp.fin 0, Fp.fin 0, Fp.fin 0]
          ∧ blob.boundingbox_3d = List.replicate 6 (Fp.fin 0)
          ∧ blob.cloud_centroid = TransformStamped.new
          ∧ blob.position.transform = TransformStamped.new.transform
          ∧ blob.depth_density = Fp.fin 0
          ∧ s1.left_objects_.keys = leftLostState.left_objects_.keys
          ∧ s1.right_objects_.keys = leftLostState.right_objects_.keys
          ∧ ∀ other, other ≠ "a" →
              s1.left_objects_.find other = leftLostState.left_objects_.find other
                ∧ s1.right_objects_.find other = leftLostState.right_objects_.find other :=
  ⟨rfl, by decide, by decide,
    trackBlob_left_failure sampleEnv leftLostState "a" sampleBlankImage sampleRightImage
      sampleDisparity ⟨2, 2, [0, 0, 0, 0, 0, 0, 0, 0, 0, 0, 0, 0]⟩ ⟨0, 0, []⟩ rfl rfl rfl rfl rfl
      rfl (by decide) (by decide)⟩

/-! ## The right box and the point set -/

/-- C12: the dense point set produced by `get3dCloud` depends on the left box
alone: for every disparity image, camera info, left box and initial cloud, any
two right boxes give the same outcome of the loop (the same point set, or the
same fault), whether or not they pass the consistency gate; the right box
enters the single-point estimate only. -/
theorem get3dCloud_points_independent_of_right_box (disparity_image : DisparityImage)
    (camera_info : CameraInfo) (rect right_rect right_rect1 : Rect)
    (pcl_cloud : List Point3f) :
    (get3dCloud disparity_image camera_info rect right_rect pcl_cloud).map Prod.fst
        = (get3dCloud disparity_image camera_info rect right_rect1 pcl_cloud).map Prod.fst
      ∧ (get3dCloud disparity_image camera_info rect right_rect pcl_cloud).map Prod.snd
        = (get3dCloud disparity_image camera_info rect right_rect pcl_cloud).map
            (fun _ => centerEstimate disparity_image camera_info rect right_rect) := by
  unfold get3dCloud
  cases cloudRows disparity_image camera_info (loopRange rect.x rect.width)
    (loopRange rect.y rect.height) pcl_cloud <;> exact ⟨rfl, rfl⟩

/-- C12 on the sample image: the right boxes `(-1, 0, 2, 2)` (gate passes,
estimate `(0, 0, 1)`) and `(0, 11, 2, 2)` (gate fails, estimate the origin)
give the same two points. -/
theorem get3dCloud_points_independent_of_right_box_witness :
    (get3dCloud sampleDisparity sampleCamera ⟨0, 0, 2, 2⟩ ⟨-1, 0, 2, 2⟩ []).map Prod.fst
        = (get3dCloud sampleDisparity sampleCamera ⟨0, 0, 2, 2⟩ ⟨0, 11, 2, 2⟩ []).map Prod.fst
      ∧ (get3dCloud sampleDisparity sampleCamera ⟨0, 0, 2, 2⟩ ⟨-1, 0, 2, 2⟩ []).map Prod.fst
        = .ok [⟨Fp.fin 0, Fp.fin 0, Fp.fin 1⟩, ⟨Fp.fin (1 / 2), Fp.fin (1 / 2), Fp.fin (1 / 2)⟩]
      ∧ centerEstimate sampleDisparity sampleCamera ⟨0, 0, 2, 2⟩ ⟨-1, 0, 2, 2⟩
        ≠ centerEstimate sampleDisparity sampleCamera ⟨0, 0, 2, 2⟩ ⟨0, 11, 2, 2⟩ := by
  refine ⟨(get3dCloud_points_independent_of_right_box sampleDisparity sampleCamera
    ⟨0, 0, 2, 2⟩ ⟨-1, 0, 2, 2⟩ ⟨0, 11, 2, 2⟩ []).1, ?_, ?_⟩
  · rw [get3dCloud_sample]
    rfl
  · have h1 := get3dCloud_center _ _ _ _ _ _ _ get3dCloud_sample
    have h2 : centerEstimate sampleDisparity sampleCamera ⟨0, 0, 2, 2⟩ ⟨0, 11, 2, 2⟩
        = ⟨Fp.fin 0, Fp.fin 0, Fp.fin 0⟩ := by
      unfold centerEstimate
      rw [if_pos (boxesMismatch_of_offset _ _ (by norm_num) (by norm_num) (by norm_num))]
    rw [← h1, h2]
    intro h
    have hz := congrArg Point3f.z h
    simp at hz

/-! ## Division by a zero disparity -/

/-- Whenever the loop body appends a point, the disparity it has passed to
`projectTo3d` is not zero. -/
theorem cloudPixel_disparity_ne_zero (disparity_image : DisparityImage)
    (camera_info : CameraInfo) (i j : Int) (cloud out : List Point3f)
    (h : cloudPixel disparity_image camera_info i j cloud = .ok out) :
    out = cloud
      ∨ ∃ d, Fp.eq d (Fp.fin 0) = false
          ∧ out = cloud ++ [projectTo3d (Fp.ofInt j) (Fp.ofInt i) d disparity_image
              camera_info true] := by
  unfold cloudPixel at h
  split at h
  · cases h
  · cases h
    exact Or.inl rfl
  · split at h
    · cases h
    · rename_i d _
      split at h
      · split at h
        · cases h
          exact Or.inl rfl
        · rename_i hd
          cases h
          exact Or.inr ⟨d, by simpa using hd, rfl⟩
      · cases h

/-- C19, the code at the failing input: the left and right boxes `(0, 0, 2, 2)`
pass the consistency gate and have the same centre x, so `get3dCloud` calls
`projectTo3d` with the disparity `1 - 1 = 0` and divides `f·T` by zero: the
estimate is `(NaN, NaN, +inf)`. -/
theorem get3dCloud_estimate_divides_by_zero :
    boxesMismatch ⟨0, 0, 2, 2⟩ ⟨0, 0, 2, 2⟩ = false
      ∧ (rectCenter ⟨0, 0, 2, 2⟩).x - (rectCenter ⟨0, 0, 2, 2⟩).x = Fp.fin 0
      ∧ centerEstimate sampleDisparity sampleCamera ⟨0, 0, 2, 2⟩ ⟨0, 0, 2, 2⟩
        = projectTo3d (Fp.fin 0) (Fp.fin 0) (Fp.fin 0) sampleDisparity sampleCamera true
      ∧ sampleDisparity.f * sampleDisparity.T / Fp.fin 0 = Fp.pinf
      ∧ centerEstimate sampleDisparity sampleCamera ⟨0, 0, 2, 2⟩ ⟨0, 0, 2, 2⟩
        = ⟨Fp.nan, Fp.nan, Fp.pinf⟩ := by
  have hm : boxesMismatch ⟨0, 0, 2, 2⟩ ⟨0, 0, 2, 2⟩ = false :=
    boxesMismatch_eq_false _ _ (by norm_num) (by norm_num) (by norm_num) (by norm_num)
      (by norm_num) (by norm_num)
  have hd : (rectCenter ⟨0, 0, 2, 2⟩).x - (rectCenter ⟨0, 0, 2, 2⟩).x = Fp.fin 0 := by
    rw [rectCenter_x _ (by norm_num)]
    simp
  have hz : sampleDisparity.f * sampleDisparity.T / Fp.fin 0 = Fp.pinf := by
    simp [sampleDisparity, Fp.fin_div_fin]
  have hc : centerEstimate sampleDisparity sampleCamera ⟨0, 0, 2, 2⟩ ⟨0, 0, 2, 2⟩
      = projectTo3d (Fp.fin 0) (Fp.fin 0) (Fp.fin 0) sampleDisparity sampleCamera true := by
    rw [centerEstimate_of_pass _ _ _ _ hm, hd, Fp.toFloat_zero]
    simp
  refine ⟨hm, hd, hc, hz, ?_⟩
  rw [hc]
  simp only [projectTo3d, hz]
  simp [sampleCamera, Fp.fin_div_fin]
  rfl

/-! ## The width-ratio test -/

/-- C20 as the code has it: with `r` = left width / right width, for boxes
whose centre y and right width are stored exactly in `float`
(`|2y + height| < 2^23` for both boxes, `|right width| < 2^24`, which covers
every box of an image) and whose centres are within 10 px vertically,
`get3dCloud` declares a mismatch exactly when `r > 1.5` or `r < 0.5`; for a
non-zero right width the test passes exactly when `0.5 ≤ r ≤ 1.5`, and a zero
right width against a non-zero left width is a mismatch. -/
theorem boxesMismatch_ratio_test (rect right_rect : Rect)
    (hy : |2 * rect.y + rect.height| < 2 ^ 23)
    (hry : |2 * right_rect.y + right_rect.height| < 2 ^ 23)
    (hw : |right_rect.width| < 2 ^ 24)
    (hoff : |((right_rect.y : ℚ) + right_rect.height / 2)
      - ((rect.y : ℚ) + rect.height / 2)| ≤ 10) :
    boxesMismatch rect right_rect
        = (Fp.gt (widthRatio rect right_rect) (Fp.fin (3 / 2))
          || Fp.lt (widthRatio rect right_rect) (Fp.fin (1 / 2)))
      ∧ (right_rect.width ≠ 0 →
          (widthRatio rect right_rect = Fp.fin ((rect.width : ℚ) / right_rect.width)
            ∧ (boxesMismatch rect right_rect = true
              ↔ (rect.width : ℚ) / right_rect.width > 3 / 2
                ∨ (rect.width : ℚ) / right_rect.width < 1 / 2)
            ∧ (boxesMismatch rect right_rect = false
              ↔ 1 / 2 ≤ (rect.width : ℚ) / right_rect.width
                ∧ (rect.width : ℚ) / right_rect.width ≤ 3 / 2)))
      ∧ (right_rect.width = 0 → rect.width ≠ 0 → boxesMismatch rect right_rect = true) := by
  obtain ⟨h1, h2⟩ := abs_le.mp hoff
  have hlit : boxesMismatch rect right_rect
      = (Fp.gt (widthRatio rect right_rect) (Fp.fin (3 / 2))
        || Fp.lt (widthRatio rect right_rect) (Fp.fin (1 / 2))) := by
    have hg : ¬ ((10 : ℚ) < (right_rect.y : ℚ) + right_rect.height / 2
        - ((rect.y : ℚ) + rect.height / 2)) := by
      rw [not_lt]; linarith
    have hl : ¬ ((right_rect.y : ℚ) + right_rect.height / 2
        - ((rect.y : ℚ) + rect.height / 2) < -10) := by
      rw [not_lt]; linarith
    rw [boxesMismatch_of_small rect right_rect hy hry hw]
    simp only [hg, hl, decide_False, Bool.false_or, Bool.or_false]
  refine ⟨hlit, ?_, ?_⟩
  · intro hrw
    have hq : (right_rect.width : ℚ) ≠ 0 := by exact_mod_cast hrw
    have hr : widthRatio rect right_rect = Fp.fin ((rect.width : ℚ) / right_rect.width) := by
      simp only [widthRatio, Fp.ofInt_eq, Fp.fin_mul_fin, one_mul,
        Fp.fin_div_fin_of_ne _ hq]
    refine ⟨hr, ?_, ?_⟩
    · rw [hlit, hr]
      simp only [Fp.gt_fin_fin, Fp.lt_fin_fin, Bool.or_eq_true, decide_eq_true_eq, gt_iff_lt]
    · rw [hlit, hr]
      simp only [Fp.gt_fin_fin, Fp.lt_fin_fin, Bool.or_eq_false_iff, decide_eq_false_iff_not,
        not_lt]
      exact ⟨fun h => ⟨h.2, h.1⟩, fun h => ⟨h.2, h.1⟩⟩
  · intro hrw hw
    have hq : (rect.width : ℚ) ≠ 0 := by exact_mod_cast hw
    rw [hlit]
    simp only [widthRatio, Fp.ofInt_eq, Fp.fin_mul_fin, one_mul, hrw, Int.cast_zero,
      Fp.fin_div_fin, if_true, hq, if_false]
    by_cases hpos : (0 : ℚ) < rect.width
    · rw [if_pos hpos]
      rfl
    · rw [if_neg hpos]
      rfl

/-- C20 on the spec's ratios, with no vertical offset: the widths 18 and 10
(`r = 1.8`) are a mismatch, the widths 5 and 10 (`r = 0.5`) and 15 and 10
(`r = 1.5`) are not. -/
theorem boxesMismatch_ratio_test_witness :
    boxesMismatch ⟨0, 0, 18, 10⟩ ⟨0, 0, 10, 10⟩ = true
      ∧ boxesMismatch ⟨0, 0, 5, 10⟩ ⟨0, 0, 10, 10⟩ = false
      ∧ boxesMismatch ⟨0, 0, 15, 10⟩ ⟨0, 0, 10, 10⟩ = false := by
  refine ⟨?_, ?_, ?_⟩
  · exact ((boxesMismatch_ratio_test ⟨0, 0, 18, 10⟩ ⟨0, 0, 10, 10⟩ (by norm_num) (by norm_num)
      (by norm_num) (by norm_num)).2.1 (by decide)).2.1.mpr (Or.inl (by norm_num))
  · exact ((boxesMismatch_ratio_test ⟨0, 0, 5, 10⟩ ⟨0, 0, 10, 10⟩ (by norm_num) (by norm_num)
      (by norm_num) (by norm_num)).2.1 (by decide)).2.2.mpr ⟨by norm_num, by norm_num⟩
  · exact ((boxesMismatch_ratio_test ⟨0, 0, 15, 10⟩ ⟨0, 0, 10, 10⟩ (by norm_num) (by norm_num)
      (by norm_num) (by norm_num)).2.1 (by decide)).2.2.mpr ⟨by norm_num, by norm_num⟩

/-- The value `2^24 + 1` converted by `float(...)` is `2^24`: it lies midway
between two neighbours and goes to the one with the even significand. -/
theorem toFloat_tie : Fp.toFloat (Fp.fin 16777217) = Fp.fin 16777216 := by
  have h := Fp.toFloat_of_binade 16777217 24 8388608 (by norm_num) (by norm_num) (by norm_num)
    (Fp.roundHalfEven_of_tie _ 8388608 (by norm_num) (by decide)) (by norm_num)
  rw [h]
  norm_num

/-- C20 fails as stated: the boxes `(0, 0, 25165825, 10)` and
`(0, 0, 16777217, 10)` have no vertical offset and the ratio
`r = 25165825/16777217`, inside `[0.5, 1.5]`; `float(16777217)` is 16777216,
the quotient formed by the code exceeds 1.5, and the boxes are a mismatch: the
estimate is the origin. -/
theorem boxesMismatch_ratio_counterexample :
    |(((0 : Int) : ℚ) + ((10 : Int) : ℚ) / 2) - (((0 : Int) : ℚ) + ((10 : Int) : ℚ) / 2)| ≤ 10
      ∧ (1 / 2 : ℚ) ≤ ((25165825 : Int) : ℚ) / ((16777217 : Int) : ℚ)
      ∧ ((25165825 : Int) : ℚ) / ((16777217 : Int) : ℚ) ≤ 3 / 2
      ∧ widthRatio ⟨0, 0, 25165825, 10⟩ ⟨0, 0, 16777217, 10⟩
        = Fp.fin (((25165825 : Int) : ℚ) / ((16777217 : Int) : ℚ))
      ∧ Fp.toFloat (Fp.ofInt 16777217) = Fp.fin 16777216
      ∧ boxesMismatch ⟨0, 0, 25165825, 10⟩ ⟨0, 0, 16777217, 10⟩ = true
      ∧ centerEstimate sampleDisparity sampleCamera ⟨0, 0, 25165825, 10⟩
          ⟨0, 0, 16777217, 10⟩ = ⟨Fp.fin 0, Fp.fin 0, Fp.fin 0⟩ := by
  have hf : Fp.toFloat (Fp.ofInt 16777217) = Fp.fin 16777216 := by
    rw [Fp.ofInt_eq]
    exact_mod_cast toFloat_tie
  have hm : boxesMismatch ⟨0, 0, 25165825, 10⟩ ⟨0, 0, 16777217, 10⟩ = true := by
    unfold boxesMismatch
    simp only []
    rw [diffy_of_small _ _ (by norm_num) (by norm_num), hf]
    simp [Fp.fin_div_fin]
    norm_num
  refine ⟨by norm_num, by norm_num, by norm_num, ?_, hf, hm, ?_⟩
  · simp [widthRatio, Fp.fin_div_fin]
  · unfold centerEstimate
    rw [if_pos hm]

/-! ## Key sets of the registries -/

namespace Registry

/-- A key is absent exactly when no object is found under it. -/
theorem find_eq_none_iff (m : Registry) (k : String) : m.find k = none ↔ k ∉ m.keys := by
  induction m with
  | nil => simp [find_nil, keys]
  | cons p m ih =>
    obtain ⟨k1, o1⟩ := p
    rw [find_cons]
    by_cases hk : k = k1
    · simp [hk, keys]
    · rw [if_neg hk, ih]
      simp [keys, hk]

/-- The keys after an insertion depend on the keys alone. -/
theorem keys_insertNew_congr (k : String) (o o1 : Object) (m m1 : Registry)
    (h : m.keys = m1.keys) : (insertNew k o m).keys = (insertNew k o1 m1).keys := by
  induction m generalizing m1 with
  | nil =>
    cases m1 with
    | nil => rfl
    | cons p m1 => simp [keys] at h
  | cons p m ih =>
    cases m1 with
    | nil => simp [keys] at h
    | cons p1 m1 =>
      obtain ⟨k2, o2⟩ := p
      obtain ⟨k3, o3⟩ := p1
      simp only [keys, List.map_cons, List.cons.injEq] at h
      obtain ⟨hk, hrest⟩ := h
      subst hk
      unfold insertNew
      by_cases hlt : k < k2
      · simp only [hlt, if_true, keys, List.map_cons, hrest]
      · by_cases heq : k = k2
        · subst heq
          simp only [hlt, if_false, if_true, keys, List.map_cons, hrest]
        · simp only [hlt, if_false, heq, keys, List.map_cons, List.cons.injEq, true_and]
          exact ih m1 hrest

/-- The keys after `m[k]` depend on the keys alone. -/
theorem keys_subscript_congr (k : String) (m m1 : Registry) (h : m.keys = m1.keys) :
    (m.subscript k).2.keys = (m1.subscript k).2.keys := by
  unfold subscript
  cases hf : m.find k with
  | none =>
    have hf1 : m1.find k = none := by
      rw [find_eq_none_iff] at hf ⊢
      rw [← h]
      exact hf
    simp only [hf1]
    exact keys_insertNew_congr k _ _ m m1 h
  | some o =>
    cases hf1 : m1.find k with
    | none =>
      rw [find_eq_none_iff, ← h, ← find_eq_none_iff, hf] at hf1
      cases hf1
    | some o1 => exact h

/-- The keys after `m.erase(k)`. -/
theorem keys_erase (m : Registry) (k : String) :
    (m.erase k).keys = m.keys.filter (fun k1 => k1 ≠ k) := by
  unfold erase keys
  rw [List.filter_map]
  rfl

/-- After an insertion the keys are the new key and the old ones. -/
theorem keys_insertNew_perm (m : Registry) (k : String) (o : Object) (h : m.find k = none) :
    (insertNew k o m).keys.Perm (k :: m.keys) := by
  induction m with
  | nil => exact List.Perm.refl _
  | cons p m ih =>
    obtain ⟨k2, o2⟩ := p
    rw [find_cons] at h
    have hne : k ≠ k2 := by
      intro hk
      rw [if_pos hk] at h
      cases h
    rw [if_neg hne] at h
    unfold insertNew
    by_cases hlt : k < k2
    · simp only [hlt, if_true]
      exact List.Perm.refl _
    · simp only [hlt, if_false, hne]
      exact ((ih h).cons k2).trans (List.Perm.swap k k2 _)

/-- The expression `m[k]` keeps the keys distinct. -/
theorem nodup_keys_subscript (m : Registry) (k : String) (h : m.keys.Nodup) :
    (m.subscript k).2.keys.Nodup := by
  unfold subscript
  cases hf : m.find k with
  | some o => exact h
  | none =>
    simp only
    rw [(keys_insertNew_perm m k Object.new hf).nodup_iff, List.nodup_cons]
    exact ⟨(find_eq_none_iff m k).mp hf, h⟩

/-- A key under which an object is found is a key. -/
theorem mem_keys_of_find (m : Registry) (k : String) (o : Object) (h : m.find k = some o) :
    k ∈ m.keys := by
  by_contra hk
  rw [← find_eq_none_iff, h] at hk
  cases hk

/-- What `m[k]` returns once an object is stored under `k`. -/
theorem subscript_of_find (m : Registry) (k : String) (o : Object) (h : m.find k = some o) :
    m.subscript k = (o, m) := by
  simp [subscript, h]

end Registry

/-! ## Registry symmetry -/

/-- Taking `m[k]` by reference in both registries and writing through the
references keeps the key lists equal. -/
theorem keys_assign_subscript_congr (m m1 : Registry) (k : String) (o o1 : Object)
    (h : m.keys = m1.keys) :
    ((m.subscript k).2.assign k o).keys = ((m1.subscript k).2.assign k o1).keys := by
  rw [Registry.keys_assign, Registry.keys_assign]
  exact Registry.keys_subscript_congr k m m1 h

/-- Member function `AddObjectCallback` keeps the key lists equal. -/
theorem AddObjectCallback_keys (env : Env) (vision : Vision) (s : HueBlob)
    (request : AddObjectRequest) (h : s.left_objects_.keys = s.right_objects_.keys) :
    (AddObjectCallback env vision s request).state.left_objects_.keys
      = (AddObjectCallback env vision s request).state.right_objects_.keys := by
  unfold AddObjectCallback
  cases env.toCvShare request.image "bgr8" with
  | none => exact h
  | some model => exact keys_assign_subscript_congr _ _ _ _ _ h

/-- Member function `RmObjectCallback` keeps the key lists equal. -/
theorem RmObjectCallback_keys (s : HueBlob) (name : String)
    (h : s.left_objects_.keys = s.right_objects_.keys) :
    (RmObjectCallback s name).state.left_objects_.keys
      = (RmObjectCallback s name).state.right_objects_.keys := by
  show (s.left_objects_.erase name).keys = (s.right_objects_.erase name).keys
  rw [Registry.keys_erase, Registry.keys_erase, h]

/-- A preload entry keeps the key lists equal. -/
theorem preloadModel_keys (vision : Vision) (s : HueBlob) (yaml_model : YamlModel)
    (h : s.left_objects_.keys = s.right_objects_.keys) :
    (preloadModel vision s yaml_model).state.left_objects_.keys
      = (preloadModel vision s yaml_model).state.right_objects_.keys :=
  keys_assign_subscript_congr _ _ _ _ _ h

/-- Member function `trackBlob` keeps the key lists equal. -/
theorem trackBlob_keys (env : Env) (s : HueBlob) (name : String) (blob : Blob) (s1 : HueBlob)
    (ht : trackBlob env s name = .ok (blob, s1))
    (h : s.left_objects_.keys = s.right_objects_.keys) :
    s1.left_objects_.keys = s1.right_objects_.keys := by
  rcases trackBlob_cases env s name blob s1 ht with ⟨_, hs, _⟩ |
    ⟨leftImage, disparity, rightImage, right_image, image, _, _, _, _, _, hs, _⟩
  · rw [hs]
    exact h
  · rw [hs]
    exact keys_assign_subscript_congr _ _ _ _ _ h

/-- The loop of `imageCallback` keeps the key lists equal. -/
theorem trackAll_keys (env : Env) (names : List String) (s : HueBlob) (blobs : List Blob)
    (published : List (String × Blob)) (count : Nat) (blobs1 : List Blob)
    (published1 : List (String × Blob)) (count1 : Nat) (s1 : HueBlob)
    (ht : trackAll env names s blobs published count = .ok (blobs1, published1, count1, s1))
    (h : s.left_objects_.keys = s.right_objects_.keys) :
    s1.left_objects_.keys = s1.right_objects_.keys := by
  induction names generalizing s blobs published count with
  | nil =>
    unfold trackAll at ht
    cases ht
    exact h
  | cons name names ih =>
    unfold trackAll at ht
    split at ht
    · cases ht
    · rename_i blob s2 hb
      exact ih _ _ _ _ ht (trackBlob_keys env s name blob s2 hb h)

/-- Every return of `imageCallback`: the loop over the registered names has
returned, and so has `publish_tracked_images`. -/
theorem imageCallback_cases (env : Env) (s : HueBlob) (left : Option Image)
    (left_camera : Option CameraInfo) (right : Option Image)
    (right_camera : Option CameraInfo) (disparity : Option DisparityImage)
    (out : FrameOutput) (s1 : HueBlob)
    (h : imageCallback env s left left_camera right right_camera disparity = .ok (out, s1)) :
    ∃ blobs published count tracked,
      trackAll env s.left_objects_.keys
          { s with
            leftImage_ := left, rightImage_ := right, leftCamera_ := left_camera,
            disparity_ := disparity } [] [] 0 = .ok (blobs, published, count, s1)
        ∧ publish_tracked_images env s1 blobs = .ok tracked
        ∧ out = ⟨blobs, published, toInt8 count⟩ := by
  unfold imageCallback at h
  simp only at h
  split at h
  · cases h
  · rename_i blobs published count s2 ht
    split at h
    · cases h
    · rename_i tracked hp
      simp only [Except.ok.injEq, Prod.mk.injEq] at h
      obtain ⟨hout, hs⟩ := h
      subst hs
      exact ⟨blobs, published, count, tracked, ht, hp, hout.symm⟩

/-- Every event keeps the key lists equal. -/
theorem handle_keys (env : Env) (vision : Vision) (s s1 : HueBlob) (e : Event)
    (he : handle env vision s e = .ok s1)
    (h : s.left_objects_.keys = s.right_objects_.keys) :
    s1.left_objects_.keys = s1.right_objects_.keys := by
  cases e with
  | addObject request =>
    simp only [handle, Except.ok.injEq] at he
    rw [← he]
    exact AddObjectCallback_keys env vision s request h
  | rmObject name =>
    simp only [handle, Except.ok.injEq] at he
    rw [← he]
    exact RmObjectCallback_keys s name h
  | preload yaml_model =>
    simp only [handle, Except.ok.injEq] at he
    rw [← he]
    exact preloadModel_keys vision s yaml_model h
  | frame left left_camera right right_camera disparity =>
    simp only [handle] at he
    split at he
    · cases he
    · rename_i out s2 hi
      simp only [Except.ok.injEq] at he
      rw [← he]
      obtain ⟨blobs, published, count, tracked, ht, _, _⟩ :=
        imageCallback_cases env s left left_camera right right_camera disparity out s2 hi
      exact trackAll_keys env _ _ _ _ _ _ _ _ _ ht h
  | track name =>
    simp only [handle] at he
    split at he
    · cases he
    · rename_i blob s2 ht
      simp only [Except.ok.injEq] at he
      rw [← he]
      exact trackBlob_keys env s name blob s2 ht h
  | checkSynced =>
    simp only [handle, Except.ok.injEq] at he
    rw [← he]
    exact h
  | message sub =>
    simp only [handle, Except.ok.injEq] at he
    rw [← he]
    cases sub <;> exact h
  | synced =>
    simp only [handle, Except.ok.injEq] at he
    rw [← he]
    exact h

/-- C13: registry symmetry is an invariant: starting from two empty
registries, after any sequence of registrations (successful or failing on
the image conversion), removals, preload entries, frame tuples, calls of
`trackBlob` and watchdog ticks whose callbacks return (and any counting of
substream messages and tuples in between), `left_objects_` and
`right_objects_` hold the same names in the same order. -/
theorem registries_symmetric (env : Env) (vision : Vision) (frame : String)
    (events : List Event) (s : HueBlob)
    (h : handleAll env vision (HueBlob.init frame) events = .ok s) :
    s.left_objects_.keys = s.right_objects_.keys := by
  have hgen : ∀ (es : List Event) (s0 s1 : HueBlob),
      s0.left_objects_.keys = s0.right_objects_.keys →
      handleAll env vision s0 es = .ok s1 →
      s1.left_objects_.keys = s1.right_objects_.keys := by
    intro es
    induction es with
    | nil =>
      intro s0 s1 h0 h1
      unfold handleAll at h1
      cases h1
      exact h0
    | cons e es ih =>
      intro s0 s1 h0 h1
      unfold handleAll at h1
      split at h1
      · cases h1
      · rename_i s2 he
        exact ih s2 s1 (handle_keys env vision s0 s2 e he h0) h1
  exact hgen events _ s rfl h

/-- The run `sampleEvents` returns and leaves `"c"` in both registries. -/
theorem handleAll_sample :
    ∃ s, handleAll sampleEnv sampleVision (HueBlob.init "cam") sampleEvents = .ok s
      ∧ s.left_objects_.keys = ["c"] ∧ s.right_objects_.keys = ["c"] := by
  simp [handleAll, handle, sampleEvents, HueBlob.init, AddObjectCallback, preloadModel,
    RmObjectCallback, checkInputsSynchronized, imageCallback, trackAll, trackBlob,
    publish_tracked_images, sampleEnv, sampleRequest, Registry.subscript, Registry.find, Registry.insertNew,
    Registry.assign, Registry.erase, Registry.keys, List.lookup,
    show ¬ (['c'] < ['b']) by decide]

/-- C13 on the run `sampleEvents`. -/
theorem registries_symmetric_witness :
    ∃ s, handleAll sampleEnv sampleVision (HueBlob.init "cam") sampleEvents = .ok s
      ∧ s.left_objects_.keys = ["c"]
      ∧ s.left_objects_.keys = s.right_objects_.keys := by
  obtain ⟨s, hs, hl, _⟩ := handleAll_sample
  exact ⟨s, hs, hl, registries_symmetric sampleEnv sampleVision "cam" sampleEvents s hs⟩

/-! ## Registration -/

/-- The state after a registration whose image converts. -/
theorem AddObjectCallback_state (env : Env) (vision : Vision) (s : HueBlob)
    (request : AddObjectRequest) (model : Mat)
    (hconv : env.toCvShare request.image "bgr8" = some model) :
    (AddObjectCallback env vision s request).ok = true
      ∧ (AddObjectCallback env vision s request).warned
        = (Fp.toBool (s.left_objects_.subscript request.name).1.anchor_x_
          || Fp.toBool (s.left_objects_.subscript request.name).1.anchor_y_
          || Fp.toBool (s.left_objects_.subscript request.name).1.anchor_z_)
      ∧ (AddObjectCallback env vision s request).state.left_objects_
        = (s.left_objects_.subscript request.name).2.assign request.name
            (addView vision
              { (s.left_objects_.subscript request.name).1 with
                anchor_x_ := request.anchor.x, anchor_y_ := request.anchor.y,
                anchor_z_ := request.anchor.z } model)
      ∧ (AddObjectCallback env vision s request).state.right_objects_
        = (s.right_objects_.subscript request.name).2.assign request.name
            (addView vision
              { (s.right_objects_.subscript request.name).1 with
                anchor_x_ := request.anchor.x, anchor_y_ := request.anchor.y,
                anchor_z_ := request.anchor.z } model) := by
  unfold AddObjectCallback
  rw [hconv]
  exact ⟨rfl, rfl, rfl, rfl⟩

/-- Two writes through `m[k]`: the second finds the object of the first, the
key is held once, and the other entries are those of `m`. -/
theorem Registry.assign_subscript_twice (m : Registry) (k : String) (o : Object)
    (f : Object → Object) (h : m.keys.Nodup) :
    ((m.subscript k).2.assign k o).subscript k = (o, (m.subscript k).2.assign k o)
      ∧ ((((m.subscript k).2.assign k o).subscript k).2.assign k (f o)).find k = some (f o)
      ∧ ((((m.subscript k).2.assign k o).subscript k).2.assign k (f o)).keys.count k = 1
      ∧ ∀ other, other ≠ k →
          ((((m.subscript k).2.assign k o).subscript k).2.assign k (f o)).find other
            = m.find other := by
  have h1 := Registry.find_assign_subscript m k o
  have hs := Registry.subscript_of_find _ k o h1
  have hk : ((m.subscript k).2.assign k o).keys.Nodup := by
    rw [Registry.keys_assign]
    exact Registry.nodup_keys_subscript m k h
  refine ⟨hs, ?_, ?_, ?_⟩
  · rw [hs]
    exact Registry.find_assign_self _ k (f o) o h1
  · rw [hs, Registry.keys_assign]
    exact List.count_eq_one_of_mem hk (Registry.mem_keys_of_find _ k o h1)
  · intro other hne
    rw [hs, Registry.find_assign_of_ne _ _ _ _ hne, Registry.find_assign_of_ne _ _ _ _ hne,
      Registry.find_subscript_of_ne _ _ _ hne]

/-- C14: for every registry state (two maps with distinct keys) and every
request whose image converts, calling `AddObjectCallback` twice with the same
request leaves exactly one object under the name in each registry; each call
appends exactly one histogram, the histogram of the view, to the models of
that object, so that after the two calls the object has the same histogram
twice more than before; every other registered object is unchanged. -/
theorem AddObjectCallback_twice (env : Env) (vision : Vision) (s : HueBlob)
    (request : AddObjectRequest) (model : Mat)
    (hconv : env.toCvShare request.image "bgr8" = some model)
    (hl : s.left_objects_.keys.Nodup) (hr : s.right_objects_.keys.Nodup) :
    ∃ l1 l2 r1 r2,
      (AddObjectCallback env vision s request).state.left_objects_.find request.name = some l1
        ∧ l1.modelHistogram
          = (s.left_objects_.subscript request.name).1.modelHistogram
            ++ [viewHistogram vision model]
        ∧ (AddObjectCallback env vision (AddObjectCallback env vision s request).state
            request).state.left_objects_.find request.name = some l2
        ∧ l2.modelHistogram = l1.modelHistogram ++ [viewHistogram vision model]
        ∧ (AddObjectCallback env vision s request).state.right_objects_.find request.name
          = some r1
        ∧ r1.modelHistogram
          = (s.right_objects_.subscript request.name).1.modelHistogram
            ++ [viewHistogram vision model]
        ∧ (AddObjectCallback env vision (AddObjectCallback env vision s request).state
            request).state.right_objects_.find request.name = some r2
        ∧ r2.modelHistogram = r1.modelHistogram ++ [viewHistogram vision model]
        ∧ (AddObjectCallback env vision (AddObjectCallback env vision s request).state
            request).state.left_objects_.keys.count request.name = 1
        ∧ (AddObjectCallback env vision (AddObjectCallback env vision s request).state
            request).state.right_objects_.keys.count request.name = 1
        ∧ ∀ other, other ≠ request.name →
            (AddObjectCallback env vision (AddObjectCallback env vision s request).state
                request).state.left_objects_.find other = s.left_objects_.find other
              ∧ (AddObjectCallback env vision (AddObjectCallback env vision s request).state
                request).state.right_objects_.find other = s.right_objects_.find other := by
  obtain ⟨_, _, hl1, hr1⟩ := AddObjectCallback_state env vision s request model hconv
  obtain ⟨_, _, hl2, hr2⟩ := AddObjectCallback_state env vision
    (AddObjectCallback env vision s request).state request model hconv
  have hL := Registry.assign_subscript_twice s.left_objects_ request.name
    (addView vision
      { (s.left_objects_.subscript request.name).1 with
        anchor_x_ := request.anchor.x, anchor_y_ := request.anchor.y,
        anchor_z_ := request.anchor.z } model)
    (fun o => addView vision
      { o with
        anchor_x_ := request.anchor.x, anchor_y_ := request.anchor.y,
        anchor_z_ := request.anchor.z } model) hl
  have hR := Registry.assign_subscript_twice s.right_objects_ request.name
    (addView vision
      { (s.right_objects_.subscript request.name).1 with
        anchor_x_ := request.anchor.x, anchor_y_ := request.anchor.y,
        anchor_z_ := request.anchor.z } model)
    (fun o => addView vision
      { o with
        anchor_x_ := request.anchor.x, anchor_y_ := request.anchor.y,
        anchor_z_ := request.anchor.z } model) hr
  rw [← hl1] at hL
  rw [← hr1] at hR
  have hl3 : (AddObjectCallback env vision (AddObjectCallback env vision s request).state
      request).state.left_objects_
      = (((AddObjectCallback env vision s request).state.left_objects_.subscript
          request.name).2.assign request.name
          ((fun o => addView vision
            { o with
              anchor_x_ := request.anchor.x, anchor_y_ := request.anchor.y,
              anchor_z_ := request.anchor.z } model)
            (addView vision
              { (s.left_objects_.subscript request.name).1 with
                anchor_x_ := request.anchor.x, anchor_y_ := request.anchor.y,
                anchor_z_ := request.anchor.z } model))) := by
    rw [hl2, hL.1]
  have hr3 : (AddObjectCallback env vision (AddObjectCallback env vision s request).state
      request).state.right_objects_
      = (((AddObjectCallback env vision s request).state.right_objects_.subscript
          request.name).2.assign request.name
          ((fun o => addView vision
            { o with
              anchor_x_ := request.anchor.x, anchor_y_ := request.anchor.y,
              anchor_z_ := request.anchor.z } model)
            (addView vision
              { (s.right_objects_.subscript request.name).1 with
                anchor_x_ := request.anchor.x, anchor_y_ := request.anchor.y,
                anchor_z_ := request.anchor.z } model))) := by
    rw [hr2, hR.1]
  rw [hl3, hr3]
  refine ⟨_, _, _, _, ?_, rfl, hL.2.1, rfl, ?_, rfl, hR.2.1, rfl, hL.2.2.1, hR.2.2.1, ?_⟩
  · rw [hl1]
    exact Registry.find_assign_subscript _ _ _
  · rw [hr1]
    exact Registry.find_assign_subscript _ _ _
  · intro other hne
    exact ⟨hL.2.2.2 other hne, hR.2.2.2 other hne⟩

/-- C14 on `sampleState`: registering `"b"` twice leaves one `"b"` in each
registry, with two histograms, and `"a"` as it was. -/
theorem AddObjectCallback_twice_witness :
    sampleEnv.toCvShare sampleRequest.image "bgr8"
        = some ⟨2, 2, [1, 0, 0, 0, 0, 0, 0, 0, 0, 0, 0, 0]⟩
      ∧ sampleState.left_objects_.keys.Nodup ∧ sampleState.right_objects_.keys.Nodup
      ∧ ∃ l2 r2,
          (AddObjectCallback sampleEnv sampleVision
              (AddObjectCallback sampleEnv sampleVision sampleState sampleRequest).state
              sampleRequest).state.left_objects_.find "b" = some l2
            ∧ l2.modelHistogram.length = 2
            ∧ (AddObjectCallback sampleEnv sampleVision
              (AddObjectCallback sampleEnv sampleVision sampleState sampleRequest).state
              sampleRequest).state.right_objects_.find "b" = some r2
            ∧ r2.modelHistogram.length = 2
            ∧ (AddObjectCallback sampleEnv sampleVision
              (AddObjectCallback sampleEnv sampleVision sampleState sampleRequest).state
              sampleRequest).state.left_objects_.keys.count "b" = 1
            ∧ (AddObjectCallback sampleEnv sampleVision
              (AddObjectCallback sampleEnv sampleVision sampleState sampleRequest).state
              sampleRequest).state.left_objects_.find "a" = some sampleObject := by
  have hl : sampleState.left_objects_.keys.Nodup := by decide
  have hr : sampleState.right_objects_.keys.Nodup := by decide
  obtain ⟨l1, l2, r1, r2, _, h2, h3, h4, _, h6, h7, h8, h9, _, h11⟩ :=
    AddObjectCallback_twice sampleEnv sampleVision sampleState sampleRequest
      ⟨2, 2, [1, 0, 0, 0, 0, 0, 0, 0, 0, 0, 0, 0]⟩ rfl hl hr
  refine ⟨rfl, hl, hr, l2, r2, h3, ?_, h7, ?_, h9, ?_⟩
  · rw [h4, h2]
    simp [sampleState, sampleRequest, Registry.subscript, Registry.find, List.lookup,
      Object.new]
  · rw [h8, h6]
    simp [sampleState, sampleRequest, Registry.subscript, Registry.find, List.lookup,
      Object.new]
  · rw [(h11 "a" (by decide)).1]
    rfl

/-- C15: `AddObjectCallback` (on a request whose image converts) replaces the
anchor of both the left and the right object by the anchor of the request,
and emits the overwrite warning exactly when the anchor stored before under
that name in `left_objects_` has a non-zero component; a new name never
warns, and a warning does not prevent the overwrite. -/
theorem AddObjectCallback_anchor (env : Env) (vision : Vision) (s : HueBlob)
    (request : AddObjectRequest) (model : Mat)
    (hconv : env.toCvShare request.image "bgr8" = some model) :
    (AddObjectCallback env vision s request).ok = true
      ∧ (∃ l r,
          (AddObjectCallback env vision s request).state.left_objects_.find request.name
              = some l
            ∧ (AddObjectCallback env vision s request).state.right_objects_.find request.name
              = some r
            ∧ l.anchor_x_ = request.anchor.x ∧ l.anchor_y_ = request.anchor.y
            ∧ l.anchor_z_ = request.anchor.z
            ∧ r.anchor_x_ = request.anchor.x ∧ r.anchor_y_ = request.anchor.y
            ∧ r.anchor_z_ = request.anchor.z)
      ∧ ((AddObjectCallback env vision s request).warned = true
          ↔ ∃ o, s.left_objects_.find request.name = some o
              ∧ (Fp.ne o.anchor_x_ (Fp.fin 0) = true ∨ Fp.ne o.anchor_y_ (Fp.fin 0) = true
                ∨ Fp.ne o.anchor_z_ (Fp.fin 0) = true))
      ∧ (s.left_objects_.find request.name = none →
          (AddObjectCallback env vision s request).warned = false) := by
  obtain ⟨hok, hwarn, hl1, hr1⟩ := AddObjectCallback_state env vision s request model hconv
  have hnew : s.left_objects_.find request.name = none →
      (AddObjectCallback env vision s request).warned = false := by
    intro hnone
    rw [hwarn]
    simp [Registry.subscript, hnone, Object.new, Fp.toBool]
  refine ⟨hok,
    ⟨addView vision
        { (s.left_objects_.subscript request.name).1 with
          anchor_x_ := request.anchor.x, anchor_y_ := request.anchor.y,
          anchor_z_ := request.anchor.z } model,
      addView vision
        { (s.right_objects_.subscript request.name).1 with
          anchor_x_ := request.anchor.x, anchor_y_ := request.anchor.y,
          anchor_z_ := request.anchor.z } model,
      ?_, ?_, rfl, rfl, rfl, rfl, rfl, rfl⟩, ?_, hnew⟩
  · rw [hl1]
    exact Registry.find_assign_subscript _ _ _
  · rw [hr1]
    exact Registry.find_assign_subscript _ _ _
  · cases hf : s.left_objects_.find request.name with
    | none =>
      rw [hnew hf]
      simp
    | some o =>
      rw [hwarn]
      simp only [Registry.subscript, hf, Fp.toBool, Bool.or_eq_true, Option.some.injEq,
        exists_eq_left', or_assoc]

/-- C15 on `sampleState`: registering `"a"`, stored with the anchor
`(1, 2, 3)`, warns and stores the anchor `(4, 5, 6)`; registering the new
name `"b"` does not warn. -/
theorem AddObjectCallback_anchor_witness :
    (AddObjectCallback sampleEnv sampleVision sampleState sampleOverwrite).warned = true
      ∧ (AddObjectCallback sampleEnv sampleVision sampleState sampleRequest).warned = false
      ∧ ∃ l,
          (AddObjectCallback sampleEnv sampleVision sampleState
              sampleOverwrite).state.left_objects_.find "a" = some l
            ∧ l.anchor_x_ = Fp.fin 4 ∧ l.anchor_y_ = Fp.fin 5 ∧ l.anchor_z_ = Fp.fin 6 := by
  obtain ⟨_, ⟨l, r, h1, _, h3, h4, h5, _⟩, hw, _⟩ :=
    AddObjectCallback_anchor sampleEnv sampleVision sampleState sampleOverwrite
      ⟨2, 2, [1, 0, 0, 0, 0, 0, 0, 0, 0, 0, 0, 0]⟩ rfl
  refine ⟨hw.mpr ⟨sampleObject, rfl, Or.inl (by simp [sampleObject])⟩, ?_, l, h1, h3, h4, h5⟩
  exact (AddObjectCallback_anchor sampleEnv sampleVision sampleState sampleRequest
    ⟨2, 2, [1, 0, 0, 0, 0, 0, 0, 0, 0, 0, 0, 0]⟩ rfl).2.2.2 rfl

/-! ## Normalisation of the histogram of a view -/

/-- Every bin is at most the maximum. -/
theorem le_histMax (raw : RawHist) (i : Fin h_bins) (j : Fin s_bins) : raw i j ≤ histMax raw :=
  Finset.le_sup (f := fun p : Fin h_bins × Fin s_bins => raw p.1 p.2) (Finset.mem_univ (i, j))

/-- Some bin holds the maximum. -/
theorem exists_eq_histMax (raw : RawHist) : ∃ i j, raw i j = histMax raw := by
  have hne : (Finset.univ : Finset (Fin h_bins × Fin s_bins)).Nonempty :=
    ⟨(⟨0, by decide⟩, ⟨0, by decide⟩), Finset.mem_univ _⟩
  obtain ⟨p, _, hp⟩ := Finset.exists_mem_eq_sup Finset.univ hne
    (fun p : Fin h_bins × Fin s_bins => raw p.1 p.2)
  exact ⟨p.1, p.2, hp.symm⟩

/-- The factor for a non-zero maximum is `255/max`. -/
theorem histScale_of_ne_zero (raw : RawHist) (h : histMax raw ≠ 0) :
    histScale raw = Fp.fin (255 / (histMax raw : ℚ)) := by
  have hq : ((histMax raw : Int) : ℚ) ≠ 0 := by exact_mod_cast h
  unfold histScale
  rw [Fp.ofInt_eq]
  have hb : Fp.toBool (Fp.fin ((histMax raw : Int) : ℚ)) = true := by
    simp only [Fp.toBool, Fp.ne_fin_fin, Bool.not_eq_true', decide_eq_false_iff_not]
    exact hq
  rw [if_pos hb, Fp.fin_div_fin_of_ne _ hq]
  simp

/-- The factor for a zero maximum is 0: nothing is divided. -/
theorem histScale_of_eq_zero (raw : RawHist) (h : histMax raw = 0) :
    histScale raw = Fp.fin 0 := by
  unfold histScale
  rw [h]
  simp [Fp.toBool]

/-- A scaled bin. -/
theorem cvConvertScale_fin (raw : RawHist) (q : ℚ) (i : Fin h_bins) (j : Fin s_bins) :
    cvConvertScale raw (Fp.fin q) i j = Fp.fin ((raw i j : ℚ) * q) := by
  simp [cvConvertScale]

namespace Node

/-- Lookup in a non-empty map. -/
theorem objects_find_cons (k2 : String) (o2 : Object) (m : List (String × Object)) (k : String) :
    find ((k2, o2) :: m) k = if k = k2 then some o2 else find m k := by
  by_cases h : k = k2
  · simp [find, List.lookup, h]
  · have hb : (k == k2) = false := by simpa using h
    simp [find, List.lookup, hb, h]

/-- Write through a reference, entry by entry. -/
theorem objects_assign_cons (k2 : String) (o2 : Object) (m : List (String × Object)) (k : String)
    (o : Object) :
    assign ((k2, o2) :: m) k o = (if k2 = k then (k2, o) else (k2, o2)) :: assign m k o :=
  rfl

/-- After an insertion `k` is a key. -/
theorem objects_find_insertNew_self (m : List (String × Object)) (k : String) (o : Object)
    (h : find m k = none) : find (insertNew k o m) k = some o := by
  induction m with
  | nil =>
    show find [(k, o)] k = some o
    rw [objects_find_cons, if_pos rfl]
  | cons p m ih =>
    obtain ⟨k2, o2⟩ := p
    rw [objects_find_cons] at h
    have hne : k ≠ k2 := by
      intro hk
      rw [if_pos hk] at h
      cases h
    rw [if_neg hne] at h
    unfold insertNew
    by_cases hlt : k < k2
    · rw [if_pos hlt, objects_find_cons, if_pos rfl]
    · rw [if_neg hlt, if_neg hne, objects_find_cons, if_neg hne]
      exact ih h

/-- Writing through a reference to a key stores the object under it. -/
theorem objects_find_assign_self (m : List (String × Object)) (k : String) (o o1 : Object)
    (h : find m k = some o1) : find (assign m k o) k = some o := by
  induction m with
  | nil => cases h
  | cons p m ih =>
    obtain ⟨k2, o2⟩ := p
    rw [objects_assign_cons]
    by_cases hk : k2 = k
    · rw [if_pos hk, objects_find_cons, if_pos hk.symm]
    · have hk1 : k ≠ k2 := Ne.symm hk
      rw [objects_find_cons, if_neg hk1] at h
      rw [if_neg hk, objects_find_cons, if_neg hk1]
      exact ih h

/-- After `Object& r = m[k]; r = o`, the map stores `o` under `k`. -/
theorem objects_find_assign_subscript (m : List (String × Object)) (k : String) (o : Object) :
    find (assign (subscript m k).2 k o) k = some o := by
  unfold subscript
  split
  · rename_i o1 h1
    exact objects_find_assign_self m k o o1 h1
  · rename_i h1
    exact objects_find_assign_self _ k o _ (objects_find_insertNew_self m k Object.new h1)

end Node

/-- C18: in `AddObjectCallback` of `src/hueblob.cpp` (on a request whose image
converts) the histogram appended for the view is the raw 25×25 histogram with
every bin multiplied by `255/max` whenever the raw maximum is not zero, so
that its maximum bin is 255; for a uniformly zero raw histogram the factor is
0, nothing is divided and every bin stays 0; the callback returns true and
the number of views of the object grows by exactly one. -/
theorem Node.AddObjectCallback_histogram (imgMsgToCv : Image → String → Option Mat)
    (vision : Vision) (s : Node.HueBlob) (request : AddObjectRequest) (model : Mat)
    (hconv : imgMsgToCv request.image "rgb8" = some model) :
    (Node.AddObjectCallback imgMsgToCv vision s request).ok = true
      ∧ ∃ object h,
          Node.find (Node.AddObjectCallback imgMsgToCv vision s request).state.objects_
              request.name = some object
            ∧ object.modelHistogram
              = (Node.subscript s.objects_ request.name).1.modelHistogram ++ [h]
            ∧ object.nViews = (Node.subscript s.objects_ request.name).1.nViews + 1
            ∧ (histMax (vision.calcHist model) ≠ 0 →
                (∀ i j, h i j = Fp.fin ((vision.calcHist model i j : ℚ)
                    * (255 / (histMax (vision.calcHist model) : ℚ))))
                  ∧ (∃ i j, h i j = Fp.fin 255)
                  ∧ ∀ i j, ∃ q : ℚ, h i j = Fp.fin q ∧ 0 ≤ q ∧ q ≤ 255)
            ∧ ((∀ i j, vision.calcHist model i j = 0) →
                histScale (vision.calcHist model) = Fp.fin 0 ∧ ∀ i j, h i j = Fp.fin 0) := by
  have hstate : Node.AddObjectCallback imgMsgToCv vision s request
      = ⟨true,
          Fp.toBool (Node.subscript s.objects_ request.name).1.anchor_x
            || Fp.toBool (Node.subscript s.objects_ request.name).1.anchor_y
            || Fp.toBool (Node.subscript s.objects_ request.name).1.anchor_z,
          { s with
            objects_ := Node.assign (Node.subscript s.objects_ request.name).2 request.name
              (Node.learnView vision (Node.subscript s.objects_ request.name).1 request.anchor
                model) }⟩ := by
    unfold Node.AddObjectCallback
    rw [hconv]
  rw [hstate]
  refine ⟨rfl, Node.learnView vision (Node.subscript s.objects_ request.name).1 request.anchor
    model, cvConvertScale (vision.calcHist model) (histScale (vision.calcHist model)),
    Node.objects_find_assign_subscript _ _ _, rfl, rfl, ?_, ?_⟩
  · intro hmax
    have hpos : (0 : ℚ) < (histMax (vision.calcHist model) : ℚ) := by
      exact_mod_cast Nat.pos_of_ne_zero hmax
    rw [histScale_of_ne_zero _ hmax]
    refine ⟨fun i j => cvConvertScale_fin _ _ i j, ?_, ?_⟩
    · obtain ⟨i, j, hij⟩ := exists_eq_histMax (vision.calcHist model)
      refine ⟨i, j, ?_⟩
      rw [cvConvertScale_fin, hij]
      congr 1
      field_simp
    · intro i j
      refine ⟨_, cvConvertScale_fin _ _ i j, ?_, ?_⟩
      · positivity
      · have hle : (vision.calcHist model i j : ℚ) ≤ (histMax (vision.calcHist model) : ℚ) := by
          exact_mod_cast le_histMax (vision.calcHist model) i j
        rw [mul_div_assoc', div_le_iff₀ hpos]
        nlinarith
  · intro hzero
    have hmax : histMax (vision.calcHist model) = 0 := by
      obtain ⟨i, j, hij⟩ := exists_eq_histMax (vision.calcHist model)
      rw [← hij]
      exact hzero i j
    rw [histScale_of_eq_zero _ hmax]
    refine ⟨rfl, fun i j => ?_⟩
    rw [cvConvertScale_fin, hzero i j]
    simp

/-- C18 on the sample histogram (4 in bin `(0, 0)`, 2 in bin `(1, 2)`): the
first view of `"b"` has a bin 255; the histogram of an image without pixels
is uniformly zero and stays so. -/
theorem Node.AddObjectCallback_histogram_witness :
    histMax (sampleVision.calcHist ⟨2, 2, [1, 0, 0, 0, 0, 0, 0, 0, 0, 0, 0, 0]⟩) ≠ 0
      ∧ (∃ object h,
          Node.find (Node.AddObjectCallback sampleEnv.toCvShare sampleVision ⟨[]⟩
              sampleRequest).state.objects_ "b" = some object
            ∧ object.modelHistogram = [h] ∧ object.nViews = 1
            ∧ ∃ i j, h i j = Fp.fin 255)
      ∧ ∃ object h,
          Node.find (Node.AddObjectCallback sampleEnv.toCvShare sampleVision ⟨[]⟩
              sampleBlankRequest).state.objects_ "b" = some object
            ∧ object.modelHistogram = [h] ∧ object.nViews = 1
            ∧ ∀ i j, h i j = Fp.fin 0 := by
  have hmax : histMax (sampleVision.calcHist ⟨2, 2, [1, 0, 0, 0, 0, 0, 0, 0, 0, 0, 0, 0]⟩)
      ≠ 0 := by
    have h4 := le_histMax (sampleVision.calcHist ⟨2, 2, [1, 0, 0, 0, 0, 0, 0, 0, 0, 0, 0, 0]⟩)
      ⟨0, by decide⟩ ⟨0, by decide⟩
    have hv : sampleVision.calcHist ⟨2, 2, [1, 0, 0, 0, 0, 0, 0, 0, 0, 0, 0, 0]⟩
        ⟨0, by decide⟩ ⟨0, by decide⟩ = 4 := by
      simp [sampleVision]
    omega
  have hzero : ∀ i j, sampleVision.calcHist ⟨0, 0, []⟩ i j = 0 := by
    intro i j
    simp [sampleVision]
  refine ⟨hmax, ?_, ?_⟩
  · obtain ⟨_, object, h, h1, h2, h3, h4, _⟩ :=
      Node.AddObjectCallback_histogram sampleEnv.toCvShare sampleVision ⟨[]⟩ sampleRequest
        ⟨2, 2, [1, 0, 0, 0, 0, 0, 0, 0, 0, 0, 0, 0]⟩ rfl
    exact ⟨object, h, h1, h2, h3, (h4 hmax).2.1⟩
  · obtain ⟨_, object, h, h1, h2, h3, _, h5⟩ :=
      Node.AddObjectCallback_histogram sampleEnv.toCvShare sampleVision ⟨[]⟩
        sampleBlankRequest ⟨0, 0, []⟩ rfl
    exact ⟨object, h, h1, h2, h3, (h5 hzero).2⟩

/-! ## Frame tuples -/

/-- Without the left image, the disparity image or the right image `trackBlob`
returns the default-constructed blob and leaves the state alone. -/
theorem trackBlob_of_missing (env : Env) (s : HueBlob) (name : String)
    (h : s.leftImage_ = none ∨ s.disparity_ = none ∨ s.rightImage_ = none) :
    trackBlob env s name = .ok (Blob.new, s) := by
  unfold trackBlob
  split
  · rename_i leftImage disparity rightImage hL hD hR
    rcases h with h | h | h
    · rw [hL] at h; cases h
    · rw [hD] at h; cases h
    · rw [hR] at h; cases h
  · rfl

/-- The count of the loop of `imageCallback` after `n` more objects. -/
theorem count_step (count n : Nat) :
    ((count + 1) % 2 ^ 32 + n) % 2 ^ 32 = (count + (n + 1)) % 2 ^ 32 := by
  omega

/-- Without one of the three tested inputs the loop of `imageCallback` pushes
and publishes one default blob per name, under the empty name, and leaves
the state alone. -/
theorem trackAll_of_missing (env : Env) (names : List String) (s : HueBlob)
    (blobs : List Blob) (published : List (String × Blob)) (count : Nat)
    (h : s.leftImage_ = none ∨ s.disparity_ = none ∨ s.rightImage_ = none) :
    trackAll env names s blobs published count
      = .ok (blobs ++ List.replicate names.length Blob.new,
          published ++ List.replicate names.length ("", Blob.new),
          if names = [] then count else (count + names.length) % 2 ^ 32, s) := by
  induction names generalizing blobs published count with
  | nil => simp [trackAll]
  | cons name names ih =>
    unfold trackAll
    rw [trackBlob_of_missing env s name h]
    simp only [ih, List.length_cons, List.replicate_succ, List.append_assoc,
      List.singleton_append, reduceCtorEq, if_false]
    by_cases hn : names = []
    · subst hn
      simp [Blob.new]
    · simp only [hn, if_false, count_step]
      rfl

/-- Without the left or the right image `publish_tracked_images` publishes
nothing: without a subscriber it returns at once, otherwise its loop breaks
at the first blob. -/
theorem publish_tracked_images_of_missing (env : Env) (s : HueBlob) (blobs : List Blob)
    (h : s.leftImage_ = none ∨ s.rightImage_ = none) :
    publish_tracked_images env s blobs = .ok none := by
  unfold publish_tracked_images
  split
  · rfl
  · split
    · rename_i leftImage rightImage hL hR
      rcases h with h | h
      · rw [hL] at h; cases h
      · rw [hR] at h; cases h
    · rfl

/-- With both images, a subscriber and a first blob whose `boundingbox_2d` is
empty, `publish_tracked_images` indexes the empty vector. -/
theorem publish_tracked_images_of_default (env : Env) (s : HueBlob) (leftImage rightImage : Image)
    (img : Mat) (blob : Blob) (blobs : List Blob)
    (hn : env.numSubscribers ≠ 0) (hL : s.leftImage_ = some leftImage)
    (hR : s.rightImage_ = some rightImage) (hc : env.toCvCopy leftImage "bgr8" = some img)
    (hb : blob.boundingbox_2d = []) :
    publish_tracked_images env s (blob :: blobs) = .error .outOfRange := by
  unfold publish_tracked_images
  rw [if_neg hn, hL, hR]
  simp only [drawAll, drawTracked, hc, hb, List.getElem?_nil]

/-- Without the left or the right image `imageCallback` returns, tracks
nothing and still sends one default blob per registered object and their
count. -/
theorem imageCallback_of_missing (env : Env) (s : HueBlob) (left : Option Image)
    (left_camera : Option CameraInfo) (right : Option Image)
    (right_camera : Option CameraInfo) (disparity : Option DisparityImage)
    (h : left = none ∨ right = none) :
    imageCallback env s left left_camera right right_camera disparity
      = .ok (⟨List.replicate s.left_objects_.keys.length Blob.new,
            List.replicate s.left_objects_.keys.length ("", Blob.new),
            toInt8 (s.left_objects_.keys.length % 2 ^ 32)⟩,
          { s with
            leftImage_ := left, rightImage_ := right, leftCamera_ := left_camera,
            disparity_ := disparity }) := by
  have h3 : left = none ∨ disparity = none ∨ right = none := by
    rcases h with h | h
    · exact Or.inl h
    · exact Or.inr (Or.inr h)
  unfold imageCallback
  simp only
  rw [trackAll_of_missing env _ _ _ _ _ h3]
  simp only [List.nil_append, Nat.zero_add]
  rw [publish_tracked_images_of_missing env _ _ h]
  by_cases hn : s.left_objects_.keys = []
  · simp [hn]
  · simp [hn]

/-- Without the disparity image alone, with a subscriber of the tracked-image
topic and a registered object, `imageCallback` ends in
`publish_tracked_images`, which indexes the empty `boundingbox_2d` of the
first default blob. -/
theorem imageCallback_of_no_disparity (env : Env) (s : HueBlob) (left right : Image)
    (left_camera right_camera : Option CameraInfo) (img : Mat)
    (hn : env.numSubscribers ≠ 0) (hc : env.toCvCopy left "bgr8" = some img)
    (ho : s.left_objects_.keys ≠ []) :
    imageCallback env s (some left) left_camera (some right) right_camera none
      = .error .outOfRange := by
  unfold imageCallback
  simp only
  rw [trackAll_of_missing env _ _ _ _ _ (Or.inr (Or.inl rfl))]
  obtain ⟨k, ks, hk⟩ := List.exists_cons_of_ne_nil ho
  simp only [hk, List.nil_append, List.length_cons, List.replicate_succ]
  rw [publish_tracked_images_of_default env _ left right img Blob.new _ hn rfl rfl hc rfl]

/-- The blob of object `"a"` in `noCameraState`: the null `leftCamera_` is
dereferenced. -/
theorem trackBlob_no_camera : trackBlob sampleEnv noCameraState "a" = .error .nullPointer := by
  simp [trackBlob, noCameraState, sampleState, sampleEnv, Registry.subscript, Registry.find,
    invalidWindow, sampleLeftImage, sampleRightImage, List.lookup]

/-- C11, the code at the failing inputs, on `sampleState` (one registered
object, one subscriber of the tracked-image topic).  For a tuple whose only
missing input is the left camera info the object is tracked and the null
`leftCamera_` dereferenced for `get3dCloud`; for a tuple whose only missing
input is the disparity image `publish_tracked_images` indexes the empty
`boundingbox_2d` of the default blob; for a tuple without left image the
callback returns, but a default blob (under the empty name) and the count 1
were published.  The guard of `trackBlob` does what the claim says for the
three inputs it tests: the default blob is returned and nothing tracked. -/
theorem imageCallback_missing_input :
    imageCallback sampleEnv sampleState (some sampleLeftImage) none
        (some sampleRightImage) (some sampleCamera) (some sampleDisparity)
        = .error .nullPointer
      ∧ imageCallback sampleEnv sampleState (some sampleLeftImage) (some sampleCamera)
          (some sampleRightImage) (some sampleCamera) none
        = .error .outOfRange
      ∧ imageCallback sampleEnv sampleState none (some sampleCamera) (some sampleRightImage)
          (some sampleCamera) (some sampleDisparity)
        = .ok (⟨[Blob.new], [("", Blob.new)], 1⟩, { sampleState with leftImage_ := none })
      ∧ ∀ name, trackBlob sampleEnv { sampleState with disparity_ := none } name
          = .ok (Blob.new, { sampleState with disparity_ := none }) := by
  refine ⟨?_, ?_, ?_, fun name => trackBlob_of_missing _ _ name (Or.inr (Or.inl rfl))⟩
  · have h := trackBlob_no_camera
    unfold noCameraState at h
    simp only [imageCallback, sampleState, Registry.keys, List.map_cons, List.map_nil,
      trackAll] at h ⊢
    rw [h]
  · exact imageCallback_of_no_disparity sampleEnv sampleState sampleLeftImage sampleRightImage
      (some sampleCamera) (some sampleCamera) ⟨2, 2, sampleLeftImage.data⟩ (by decide) rfl
      (by decide)
  · exact imageCallback_of_missing sampleEnv sampleState none (some sampleCamera)
      (some sampleRightImage) (some sampleCamera) (some sampleDisparity) (Or.inl rfl)

/-! ## The count of a frame tuple -/

/-- A blob returned with the three tested inputs present carries the name it
was tracked for; `trackBlob` leaves the pointers to the frame tuple alone. -/
theorem trackBlob_name (env : Env) (s : HueBlob) (name : String) (blob : Blob) (s1 : HueBlob)
    (h : trackBlob env s name = .ok (blob, s1)) :
    (s.leftImage_.isSome → s.disparity_.isSome → s.rightImage_.isSome → blob.name = name)
      ∧ s1.leftImage_ = s.leftImage_ ∧ s1.disparity_ = s.disparity_
      ∧ s1.rightImage_ = s.rightImage_ := by
  rcases trackBlob_cases env s name blob s1 h with ⟨_, hs, hmiss⟩ |
    ⟨leftImage, disparity, rightImage, right_image, image, _, _, _, _, _, hs, hrest⟩
  · rw [hs]
    refine ⟨?_, rfl, rfl, rfl⟩
    intro h1 h2 h3
    rcases hmiss with hm | hm | hm
    · rw [hm] at h1; cases h1
    · rw [hm] at h2; cases h2
    · rw [hm] at h3; cases h3
  · rw [hs]
    refine ⟨fun _ _ _ => ?_, rfl, rfl, rfl⟩
    rcases hrest with ⟨_, hb⟩ | ⟨rrect, right_rrect, _, _, ⟨_, hb⟩ | ⟨_, _, _, _, _, _, hb⟩⟩ <;>
      rw [hb] <;> rfl

/-- Whenever the loop of `imageCallback` returns, it has pushed and published
one blob per name and counted the names. -/
theorem trackAll_spec (env : Env) (names : List String) (s : HueBlob) (blobs : List Blob)
    (published : List (String × Blob)) (count : Nat) (blobs1 : List Blob)
    (published1 : List (String × Blob)) (count1 : Nat) (s1 : HueBlob)
    (h : trackAll env names s blobs published count = .ok (blobs1, published1, count1, s1))
    (hc : count < 2 ^ 32) :
    blobs1.length = blobs.length + names.length
      ∧ published1.length = published.length + names.length
      ∧ count1 = (count + names.length) % 2 ^ 32
      ∧ (published.map Prod.snd = blobs → published1.map Prod.snd = blobs1)
      ∧ (s.leftImage_.isSome → s.disparity_.isSome → s.rightImage_.isSome →
          published1.map Prod.fst = published.map Prod.fst ++ names) := by
  induction names generalizing s blobs published count with
  | nil =>
    unfold trackAll at h
    simp only [Except.ok.injEq, Prod.mk.injEq] at h
    obtain ⟨h1, h2, h3, _⟩ := h
    subst h1 h2 h3
    refine ⟨rfl, rfl, ?_, fun hp => hp, fun _ _ _ => ?_⟩
    · simp only [List.length_nil, Nat.add_zero]
      exact (Nat.mod_eq_of_lt hc).symm
    · simp
  | cons name names ih =>
    unfold trackAll at h
    split at h
    · cases h
    · rename_i blob s2 hb
      obtain ⟨hname, hL, hD, hR⟩ := trackBlob_name env s name blob s2 hb
      obtain ⟨h1, h2, h3, h4, h5⟩ := ih _ _ _ _ h (Nat.mod_lt _ (by decide))
      refine ⟨?_, ?_, ?_, ?_, ?_⟩
      · rw [h1]
        simp only [List.length_append, List.length_cons, List.length_nil]
        omega
      · rw [h2]
        simp only [List.length_append, List.length_cons, List.length_nil]
        omega
      · rw [h3, count_step, List.length_cons]
      · intro hp
        apply h4
        rw [List.map_append, hp]
        rfl
      · intro hl hd hr
        rw [hL, hD, hR] at h5
        rw [h5 hl hd hr, List.map_append, hname hl hd hr]
        simp

/-- The conversion to `int8` keeps a count below 128. -/
theorem toInt8_of_lt (n : Nat) (h : n < 128) : toInt8 (n % 2 ^ 32) = n := by
  unfold toInt8
  omega

/-- C17 as the code has it: whenever `imageCallback` returns, it has pushed
and published one blob per registered object (under the names of the
objects, in order, when the three tested inputs are present), and the count
it publishes is the number of registered objects converted to the `int8` of
`std_msgs::Int8`: it is that number whenever fewer than 128 objects are
registered. -/
theorem imageCallback_count (env : Env) (s : HueBlob) (left : Option Image)
    (left_camera : Option CameraInfo) (right : Option Image)
    (right_camera : Option CameraInfo) (disparity : Option DisparityImage)
    (out : FrameOutput) (s1 : HueBlob)
    (h : imageCallback env s left left_camera right right_camera disparity = .ok (out, s1)) :
    out.blobs.length = s.left_objects_.keys.length
      ∧ out.published.length = s.left_objects_.keys.length
      ∧ out.published.map Prod.snd = out.blobs
      ∧ out.count = toInt8 (s.left_objects_.keys.length % 2 ^ 32)
      ∧ (s.left_objects_.keys.length < 128 → out.count = s.left_objects_.keys.length)
      ∧ (left.isSome → disparity.isSome → right.isSome →
          out.published.map Prod.fst = s.left_objects_.keys) := by
  obtain ⟨blobs, published, count, tracked, ht, _, hout⟩ :=
    imageCallback_cases env s left left_camera right right_camera disparity out s1 h
  subst hout
  obtain ⟨h1, h2, h3, h4, h5⟩ := trackAll_spec env _ _ _ _ _ _ _ _ _ ht (by decide)
  simp only [List.length_nil, Nat.zero_add, List.map_nil, List.nil_append] at h1 h2 h3 h4 h5
  refine ⟨h1, h2, h4 trivial, by rw [h3], ?_, h5⟩
  intro hlt
  show toInt8 count = _
  rw [h3]
  exact toInt8_of_lt _ hlt

/-- The frame tuple of `sampleState`: the blob of `"a"` is pushed, published
under `"a"` and counted. -/
theorem imageCallback_sample :
    imageCallback sampleEnv sampleState (some sampleLeftImage) (some sampleCamera)
        (some sampleRightImage) (some sampleCamera) (some sampleDisparity)
      = .ok (⟨[sampleBlob], [("a", sampleBlob)], 1⟩, sampleTrackedState) := by
  have h := trackBlob_sample
  unfold sampleState at h
  simp only [imageCallback, sampleState, Registry.keys, List.map_cons, List.map_nil,
    trackAll] at h ⊢
  rw [h]
  rfl

/-- C17 on `sampleState`: one registered object, one blob, the count 1. -/
theorem imageCallback_count_witness :
    imageCallback sampleEnv sampleState (some sampleLeftImage) (some sampleCamera)
        (some sampleRightImage) (some sampleCamera) (some sampleDisparity)
        = .ok (⟨[sampleBlob], [("a", sampleBlob)], 1⟩, sampleTrackedState)
      ∧ ([sampleBlob].length = sampleState.left_objects_.keys.length
        ∧ [("a", sampleBlob)].length = sampleState.left_objects_.keys.length
        ∧ (1 : Int) = toInt8 (sampleState.left_objects_.keys.length % 2 ^ 32)
        ∧ [("a", sampleBlob)].map Prod.fst = sampleState.left_objects_.keys) := by
  obtain ⟨h1, h2, _, h4, _, h6⟩ :=
    imageCallback_count sampleEnv sampleState (some sampleLeftImage) (some sampleCamera)
      (some sampleRightImage) (some sampleCamera) (some sampleDisparity)
      ⟨[sampleBlob], [("a", sampleBlob)], 1⟩ sampleTrackedState imageCallback_sample
  exact ⟨imageCallback_sample, h1, h2, h4, h6 rfl rfl rfl⟩

/-- C17 fails as stated: with 128 registered objects (and a tuple without
inputs, so that every blob is the default one) `imageCallback` pushes 128
blobs and publishes the count -128. -/
theorem imageCallback_count_counterexample :
    manyState.left_objects_.keys.length = 128
      ∧ ∃ out s1,
          imageCallback sampleEnv manyState none none none none none = .ok (out, s1)
            ∧ out.blobs.length = 128 ∧ out.count = -128 := by
  have hlen : manyState.left_objects_.keys.length = 128 := by
    simp [manyState, manyObjects, Registry.keys]
  refine ⟨hlen, _, _, imageCallback_of_missing sampleEnv manyState none none none none none
    (Or.inl rfl), ?_, ?_⟩
  · rw [List.length_replicate, hlen]
  · show toInt8 (manyState.left_objects_.keys.length % 2 ^ 32) = -128
    rw [hlen]
    decide

/-! ## The watchdog -/

/-- An `int` expression whose value is in the range of `int` has that value. -/
theorem toInt32_of_range (i : Int) (h1 : -2 ^ 31 ≤ i) (h2 : i < 2 ^ 31) : toInt32 i = i := by
  unfold toInt32
  omega

/-- A counter below `2^31 - 1` is incremented by one. -/
theorem increment_of_range (v : Int) (h1 : 0 ≤ v) (h2 : v + 1 < 2 ^ 31) :
    increment v = v + 1 := by
  unfold increment
  exact toInt32_of_range _ (by omega) h2

/-- The test of `checkInputsSynchronized` when `3 * all_received_` is in the
range of `int`. -/
theorem checkInputsSynchronized_of_range (s : HueBlob) (h1 : -2 ^ 31 ≤ 3 * s.all_received_)
    (h2 : 3 * s.all_received_ < 2 ^ 31) :
    ((checkInputsSynchronized s).1 = true
        ↔ (s.left_received_ > 3 * s.all_received_ ∨ s.right_received_ > 3 * s.all_received_
          ∨ s.disp_received_ > 3 * s.all_received_))
      ∧ (checkInputsSynchronized s).2 = s := by
  refine ⟨?_, rfl⟩
  simp only [checkInputsSynchronized, toInt32_of_range _ h1 h2, Bool.or_eq_true,
    decide_eq_true_eq, or_assoc]

/-- Member function `trackBlob` leaves the counters alone. -/
theorem trackBlob_counters (env : Env) (s : HueBlob) (name : String) (blob : Blob)
    (s1 : HueBlob) (h : trackBlob env s name = .ok (blob, s1)) :
    s1.left_received_ = s.left_received_ ∧ s1.right_received_ = s.right_received_
      ∧ s1.disp_received_ = s.disp_received_ ∧ s1.all_received_ = s.all_received_ := by
  rcases trackBlob_cases env s name blob s1 h with ⟨_, hs, _⟩ |
    ⟨leftImage, disparity, rightImage, right_image, image, _, _, _, _, _, hs, _⟩
  · rw [hs]
    exact ⟨rfl, rfl, rfl, rfl⟩
  · rw [hs]
    exact ⟨rfl, rfl, rfl, rfl⟩

/-- The loop of `imageCallback` leaves the counters alone. -/
theorem trackAll_counters (env : Env) (names : List String) (s : HueBlob) (blobs : List Blob)
    (published : List (String × Blob)) (count : Nat) (blobs1 : List Blob)
    (published1 : List (String × Blob)) (count1 : Nat) (s1 : HueBlob)
    (h : trackAll env names s blobs published count = .ok (blobs1, published1, count1, s1)) :
    s1.left_received_ = s.left_received_ ∧ s1.right_received_ = s.right_received_
      ∧ s1.disp_received_ = s.disp_received_ ∧ s1.all_received_ = s.all_received_ := by
  induction names generalizing s blobs published count with
  | nil =>
    unfold trackAll at h
    cases h
    exact ⟨rfl, rfl, rfl, rfl⟩
  | cons name names ih =>
    unfold trackAll at h
    split at h
    · cases h
    · rename_i blob s2 hb
      obtain ⟨h1, h2, h3, h4⟩ := ih _ _ _ _ h
      obtain ⟨g1, g2, g3, g4⟩ := trackBlob_counters env s name blob s2 hb
      exact ⟨h1.trans g1, h2.trans g2, h3.trans g3, h4.trans g4⟩

/-- What an event does to the four counters: a message on the left image,
right image or disparity substream increments the counter of the substream,
a counted tuple increments `all_received_`, and nothing else changes them. -/
theorem handle_counters (env : Env) (vision : Vision) (s s1 : HueBlob) (e : Event)
    (he : handle env vision s e = .ok s1) :
    s1.left_received_
        = (if messagesOn .left [e] = 0 then s.left_received_ else increment s.left_received_)
      ∧ s1.right_received_
        = (if messagesOn .right [e] = 0 then s.right_received_
          else increment s.right_received_)
      ∧ s1.disp_received_
        = (if messagesOn .disparity [e] = 0 then s.disp_received_
          else increment s.disp_received_)
      ∧ s1.all_received_
        = (if tuplesEmitted [e] = 0 then s.all_received_ else increment s.all_received_) := by
  cases e with
  | addObject request =>
    simp only [handle, Except.ok.injEq] at he
    rw [← he]
    unfold AddObjectCallback
    split <;> exact ⟨rfl, rfl, rfl, rfl⟩
  | rmObject name =>
    simp only [handle, Except.ok.injEq] at he
    rw [← he]
    exact ⟨rfl, rfl, rfl, rfl⟩
  | preload yaml_model =>
    simp only [handle, Except.ok.injEq] at he
    rw [← he]
    exact ⟨rfl, rfl, rfl, rfl⟩
  | frame left left_camera right right_camera disparity =>
    simp only [handle] at he
    split at he
    · cases he
    · rename_i out s2 hi
      simp only [Except.ok.injEq] at he
      rw [← he]
      obtain ⟨blobs, published, count, tracked, ht, _, _⟩ :=
        imageCallback_cases env s left left_camera right right_camera disparity out s2 hi
      obtain ⟨h1, h2, h3, h4⟩ := trackAll_counters env _ _ _ _ _ _ _ _ _ ht
      exact ⟨h1, h2, h3, h4⟩
  | track name =>
    simp only [handle] at he
    split at he
    · cases he
    · rename_i blob s2 ht
      simp only [Except.ok.injEq] at he
      rw [← he]
      exact trackBlob_counters env s name blob s2 ht
  | checkSynced =>
    simp only [handle, Except.ok.injEq] at he
    rw [← he]
    exact ⟨rfl, rfl, rfl, rfl⟩
  | message sub =>
    simp only [handle, Except.ok.injEq] at he
    rw [← he]
    cases sub <;> exact ⟨rfl, rfl, rfl, rfl⟩
  | synced =>
    simp only [handle, Except.ok.injEq] at he
    rw [← he]
    exact ⟨rfl, rfl, rfl, rfl⟩

/-- The messages counted in a run are those of its first event and of the
rest. -/
theorem messagesOn_cons (sub : Substream) (e : Event) (events : List Event) :
    messagesOn sub (e :: events) = messagesOn sub [e] + messagesOn sub events := by
  cases e <;> simp [messagesOn]

/-- The tuples counted in a run are those of its first event and of the rest. -/
theorem tuplesEmitted_cons (e : Event) (events : List Event) :
    tuplesEmitted (e :: events) = tuplesEmitted [e] + tuplesEmitted events := by
  cases e <;> simp [tuplesEmitted]

/-- One event is at most one message. -/
theorem messagesOn_singleton_le (sub : Substream) (e : Event) : messagesOn sub [e] ≤ 1 := by
  cases e <;> simp [messagesOn]
  split <;> simp

/-- One event is at most one tuple. -/
theorem tuplesEmitted_singleton_le (e : Event) : tuplesEmitted [e] ≤ 1 := by
  cases e <;> simp [tuplesEmitted]

/-- A counter after one event, in a run that stays in the range of `int`. -/
theorem counter_step (v v1 : Int) (n m : Nat) (hn : n ≤ 1)
    (h1 : v1 = if n = 0 then v else increment v) (h0 : 0 ≤ v)
    (hb : v + ((n + m : Nat) : Int) < 2 ^ 31) :
    v1 = v + n ∧ 0 ≤ v1 ∧ v1 + (m : Int) < 2 ^ 31 := by
  by_cases hz : n = 0
  · subst hz
    rw [if_pos rfl] at h1
    subst h1
    refine ⟨by simp, h0, ?_⟩
    simpa using hb
  · have hn1 : n = 1 := by omega
    subst hn1
    rw [if_neg hz, increment_of_range v h0 (by push_cast at hb; omega)] at h1
    subst h1
    push_cast at hb ⊢
    refine ⟨rfl, by omega, by omega⟩

/-- The counters after a run whose counts stay in the range of `int`: each is
the number of messages of its substream, and `all_received_` the number of
counted tuples, added to what it was. -/
theorem handleAll_counters (env : Env) (vision : Vision) (events : List Event)
    (s s1 : HueBlob) (h : handleAll env vision s events = .ok s1)
    (h0 : 0 ≤ s.left_received_ ∧ 0 ≤ s.right_received_ ∧ 0 ≤ s.disp_received_
      ∧ 0 ≤ s.all_received_)
    (hl : s.left_received_ + (messagesOn .left events : Int) < 2 ^ 31)
    (hr : s.right_received_ + (messagesOn .right events : Int) < 2 ^ 31)
    (hd : s.disp_received_ + (messagesOn .disparity events : Int) < 2 ^ 31)
    (ha : s.all_received_ + (tuplesEmitted events : Int) < 2 ^ 31) :
    s1.left_received_ = s.left_received_ + messagesOn .left events
      ∧ s1.right_received_ = s.right_received_ + messagesOn .right events
      ∧ s1.disp_received_ = s.disp_received_ + messagesOn .disparity events
      ∧ s1.all_received_ = s.all_received_ + tuplesEmitted events := by
  induction events generalizing s with
  | nil =>
    unfold handleAll at h
    cases h
    simp [messagesOn, tuplesEmitted]
  | cons e events ih =>
    unfold handleAll at h
    split at h
    · cases h
    · rename_i s2 he
      obtain ⟨c1, c2, c3, c4⟩ := handle_counters env vision s s2 e he
      rw [messagesOn_cons] at hl hr hd
      rw [tuplesEmitted_cons] at ha
      obtain ⟨e1, p1, b1⟩ := counter_step _ _ _ _ (messagesOn_singleton_le .left e) c1 h0.1 hl
      obtain ⟨e2, p2, b2⟩ := counter_step _ _ _ _ (messagesOn_singleton_le .right e) c2
        h0.2.1 hr
      obtain ⟨e3, p3, b3⟩ := counter_step _ _ _ _ (messagesOn_singleton_le .disparity e) c3
        h0.2.2.1 hd
      obtain ⟨e4, p4, b4⟩ := counter_step _ _ _ _ (tuplesEmitted_singleton_le e) c4
        h0.2.2.2 ha
      obtain ⟨i1, i2, i3, i4⟩ := ih s2 h ⟨p1, p2, p3, p4⟩ b1 b2 b3 b4
      rw [messagesOn_cons .left, messagesOn_cons .right, messagesOn_cons .disparity,
        tuplesEmitted_cons, i1, i2, i3, i4, e1, e2, e3, e4]
      push_cast
      refine ⟨by ring, by ring, by ring, by ring⟩

/-- C16 as the code has it: in exact-sync mode, after any run of the node from
its construction in which fewer than `2^31` messages arrived on each counted
substream and `3 ×` the number of emitted tuples is below `2^31` (the counters
and the threshold are `int`), `checkInputsSynchronized` raises its diagnostic
if and only if the number of messages received on the left image, the right
image or the disparity substream is strictly greater than 3 times the number
of emitted synchronized tuples; the two camera info substreams are not
counted; when each of the three counts is at most 3 times the number of
tuples nothing is raised; and the check changes no counter and no other
member. -/
theorem checkInputsSynchronized_spec (env : Env) (vision : Vision) (frame : String)
    (events : List Event) (s : HueBlob)
    (h : handleAll env vision (HueBlob.init frame) events = .ok s)
    (hl : messagesOn .left events < 2 ^ 31) (hr : messagesOn .right events < 2 ^ 31)
    (hd : messagesOn .disparity events < 2 ^ 31) (ha : 3 * tuplesEmitted events < 2 ^ 31) :
    (s.left_received_ = messagesOn .left events
        ∧ s.right_received_ = messagesOn .right events
        ∧ s.disp_received_ = messagesOn .disparity events
        ∧ s.all_received_ = tuplesEmitted events)
      ∧ ((checkInputsSynchronized s).1 = true
        ↔ (messagesOn .left events > 3 * tuplesEmitted events
          ∨ messagesOn .right events > 3 * tuplesEmitted events
          ∨ messagesOn .disparity events > 3 * tuplesEmitted events))
      ∧ ((messagesOn .left events ≤ 3 * tuplesEmitted events
          ∧ messagesOn .right events ≤ 3 * tuplesEmitted events
          ∧ messagesOn .disparity events ≤ 3 * tuplesEmitted events) →
        (checkInputsSynchronized s).1 = false)
      ∧ (checkInputsSynchronized s).2 = s := by
  obtain ⟨c1, c2, c3, c4⟩ := handleAll_counters env vision events (HueBlob.init frame) s h
    ⟨le_refl _, le_refl _, le_refl _, le_refl _⟩
    (by show (0 : Int) + _ < _; omega) (by show (0 : Int) + _ < _; omega)
    (by show (0 : Int) + _ < _; omega) (by show (0 : Int) + _ < _; omega)
  have d1 : s.left_received_ = messagesOn .left events := by
    rw [c1]; show (0 : Int) + _ = _; omega
  have d2 : s.right_received_ = messagesOn .right events := by
    rw [c2]; show (0 : Int) + _ = _; omega
  have d3 : s.disp_received_ = messagesOn .disparity events := by
    rw [c3]; show (0 : Int) + _ = _; omega
  have d4 : s.all_received_ = tuplesEmitted events := by
    rw [c4]; show (0 : Int) + _ = _; omega
  obtain ⟨hiff, hst⟩ := checkInputsSynchronized_of_range s (by rw [d4]; omega)
    (by rw [d4]; omega)
  have hw : (checkInputsSynchronized s).1 = true
      ↔ (messagesOn .left events > 3 * tuplesEmitted events
        ∨ messagesOn .right events > 3 * tuplesEmitted events
        ∨ messagesOn .disparity events > 3 * tuplesEmitted events) := by
    rw [hiff, d1, d2, d3, d4]
    constructor
    · rintro (g | g | g)
      · exact Or.inl (by omega)
      · exact Or.inr (Or.inl (by omega))
      · exact Or.inr (Or.inr (by omega))
    · rintro (g | g | g)
      · exact Or.inl (by omega)
      · exact Or.inr (Or.inl (by omega))
      · exact Or.inr (Or.inr (by omega))
  refine ⟨⟨d1, d2, d3, d4⟩, hw, ?_, hst⟩
  intro hle
  cases hc : (checkInputsSynchronized s).1 with
  | false => rfl
  | true =>
    rcases hw.1 hc with g | g | g <;> omega

/-- The run `cameraEvents` returns: one message is counted on each of the
three counted substreams, and one tuple. -/
theorem handleAll_cameraEvents :
    handleAll sampleEnv sampleVision (HueBlob.init "cam") cameraEvents
      = .ok { HueBlob.init "cam" with
          left_received_ := 1, right_received_ := 1, disp_received_ := 1,
          all_received_ := 1 } := by
  simp [handleAll, handle, cameraEvents, onMessage, onSynced, HueBlob.init, increment,
    toInt32]

/-- C16 on the run `cameraEvents` followed by three more left images: four
left images against one tuple raise the diagnostic; `cameraEvents` alone, with
one message on each counted substream, does not. -/
theorem checkInputsSynchronized_spec_witness :
    (∃ s, handleAll sampleEnv sampleVision (HueBlob.init "cam")
          (cameraEvents ++ [.message .left, .message .left, .message .left]) = .ok s
        ∧ s.left_received_ = 4 ∧ s.all_received_ = 1
        ∧ (checkInputsSynchronized s).1 = true)
      ∧ ∃ s, handleAll sampleEnv sampleVision (HueBlob.init "cam") cameraEvents = .ok s
          ∧ (checkInputsSynchronized s).1 = false ∧ (checkInputsSynchronized s).2 = s := by
  constructor
  · have hrun : handleAll sampleEnv sampleVision (HueBlob.init "cam")
        (cameraEvents ++ [.message .left, .message .left, .message .left])
        = .ok { HueBlob.init "cam" with
            left_received_ := 4, right_received_ := 1, disp_received_ := 1,
            all_received_ := 1 } := by
      simp [handleAll, handle, cameraEvents, onMessage, onSynced, HueBlob.init, increment,
        toInt32]
    obtain ⟨_, hw, _, _⟩ := checkInputsSynchronized_spec sampleEnv sampleVision "cam" _ _ hrun
      (by decide) (by decide) (by decide) (by decide)
    exact ⟨_, hrun, rfl, rfl, hw.2 (Or.inl (by decide))⟩
  · obtain ⟨_, _, hn, hst⟩ := checkInputsSynchronized_spec sampleEnv sampleVision "cam" _ _
      handleAll_cameraEvents (by decide) (by decide) (by decide) (by decide)
    exact ⟨_, handleAll_cameraEvents, hn ⟨by decide, by decide, by decide⟩, hst⟩

/-- C16 fails as stated: in the run `cameraEvents` four messages arrive on the
left camera info substream against one emitted tuple, and no diagnostic is
raised: that substream has no counter.  And the threshold is an `int`: with
715827883 counted tuples and no message counted, `3 * all_received_` leaves
the range of `int`, the threshold is negative and the diagnostic is raised. -/
theorem checkInputsSynchronized_counterexample :
    messagesOn .leftCamera cameraEvents = 4 ∧ tuplesEmitted cameraEvents = 1
      ∧ (∃ s, handleAll sampleEnv sampleVision (HueBlob.init "cam") cameraEvents = .ok s
          ∧ (checkInputsSynchronized s).1 = false)
      ∧ (checkInputsSynchronized { HueBlob.init "cam" with all_received_ := 715827883 }).1
        = true := by
  refine ⟨by decide, by decide, ⟨_, handleAll_cameraEvents, by decide⟩, by decide⟩

/-! ## The invalid tracking window -/

/-- The window test of `trackBlob` in the words of the specification. -/
theorem invalidWindow_eq_true_iff (rect : Rect) :
    invalidWindow rect = true
      ↔ rect.x < 0 ∨ rect.y < 0 ∨ rect.width ≤ 0 ∨ rect.height ≤ 0 := by
  simp only [invalidWindow, Bool.or_eq_true, decide_eq_true_eq]
  tauto

/-- With the left window invalid `trackBlob` never reaches the camera info or
the disparity image: with both rectangles at hand it returns the blob as it
stands after the 2D box was written. -/
theorem trackBlob_of_invalidWindow (env : Env) (s : HueBlob) (name : String)
    (leftImage rightImage : Image) (disparity : DisparityImage) (right_image image : Mat)
    (rrect right_rrect : RotatedRect)
    (hL : s.leftImage_ = some leftImage) (hD : s.disparity_ = some disparity)
    (hR : s.rightImage_ = some rightImage)
    (hcr : env.toCvShare rightImage "bgr8" = some right_image)
    (hcl : env.toCvShare leftImage "bgr8" = some image)
    (hl : (env.track (s.left_objects_.subscript name).1 image).1 = some rrect)
    (hr : (env.track (s.right_objects_.subscript name).1 right_image).1 = some right_rrect)
    (hw : invalidWindow (env.boundingRect rrect) = true) :
    trackBlob env s name
      = .ok (boxBlob leftImage name (env.boundingRect rrect),
          trackedState env s name right_image image) := by
  unfold trackBlob
  simp only [hL, hD, hR, hcr, hcl, hl, hr, hw, if_true]

/-- What the sample tracker finds in the images of `invalidState` and
`invalidRightLostState`, and its box. -/
theorem invalid_track :
    (sampleEnv.track (invalidState.left_objects_.subscript "a").1
        ⟨2, 2, [0, 0, 0, 0, 0, 0, 0, 0, 0, 0, 0, 0]⟩).1
        = some ⟨⟨Fp.fin 0, Fp.fin 1⟩, ⟨Fp.fin 2, Fp.fin 2⟩, Fp.fin 0⟩
      ∧ (sampleEnv.track (invalidState.right_objects_.subscript "a").1
        ⟨2, 2, [0, 0, 0, 0, 0, 0, 0, 0, 0, 0, 0, 0]⟩).1
        = some ⟨⟨Fp.fin 0, Fp.fin 1⟩, ⟨Fp.fin 2, Fp.fin 2⟩, Fp.fin 0⟩
      ∧ (sampleEnv.track (invalidRightLostState.right_objects_.subscript "a").1
        ⟨0, 0, []⟩).1 = none
      ∧ sampleEnv.boundingRect ⟨⟨Fp.fin 0, Fp.fin 1⟩, ⟨Fp.fin 2, Fp.fin 2⟩, Fp.fin 0⟩
        = ⟨-1, 0, 2, 2⟩ := by
  refine ⟨?_, ?_, ?_, ?_⟩ <;> simp [sampleEnv]

/-- C21, the code at the failing input: in `invalidRightLostState` the left
tracker returns a rectangle whose bounding rectangle `(-1, 0, 2, 2)` is an
invalid window and the right tracker returns nothing; `trackBlob` does not
reach the window test and returns no blob: it takes
`right_rrect->boundingRect()` on the empty optional first.  With a right
rectangle at hand (`invalidState`) the same window is treated as a tracking
failure: the blob returned has that rectangle as `boundingbox_2d`,
`boundingbox_3d`, `cloud_centroid`, the `position` transform and
`depth_density` as default-constructed (the header and child frame of
`position` were filled by the header block), and it is the same for every
other disparity image and camera info. -/
theorem trackBlob_invalid_window_dereferences :
    sampleEnv.boundingRect ⟨⟨Fp.fin 0, Fp.fin 1⟩, ⟨Fp.fin 2, Fp.fin 2⟩, Fp.fin 0⟩
        = ⟨-1, 0, 2, 2⟩
      ∧ invalidWindow ⟨-1, 0, 2, 2⟩ = true
      ∧ trackBlob sampleEnv invalidRightLostState "a" = .error .emptyOptional
      ∧ ∃ blob s1, trackBlob sampleEnv invalidState "a" = .ok (blob, s1)
          ∧ blob.boundingbox_2d = [Fp.fin (-1), Fp.fin 0, Fp.fin 2, Fp.fin 2]
          ∧ blob.boundingbox_3d = List.replicate 6 (Fp.fin 0)
          ∧ blob.cloud_centroid = TransformStamped.new
          ∧ blob.position.transform = TransformStamped.new.transform
          ∧ blob.position.header = sampleRightImage.header
          ∧ blob.position.child_frame_id = "/hueblob_a"
          ∧ blob.depth_density = Fp.fin 0
          ∧ ∀ disparity1 leftCamera1,
              (trackBlob sampleEnv
                { invalidState with disparity_ := some disparity1, leftCamera_ := leftCamera1 }
                "a").map Prod.fst = .ok blob := by
  have hbr := invalid_track.2.2.2
  have hw : invalidWindow (sampleEnv.boundingRect
      ⟨⟨Fp.fin 0, Fp.fin 1⟩, ⟨Fp.fin 2, Fp.fin 2⟩, Fp.fin 0⟩) = true := by
    rw [hbr]
    decide
  refine ⟨hbr, by decide, ?_, boxBlob sampleRightImage "a" ⟨-1, 0, 2, 2⟩,
    trackedState sampleEnv invalidState "a" ⟨2, 2, [0, 0, 0, 0, 0, 0, 0, 0, 0, 0, 0, 0]⟩
      ⟨2, 2, [0, 0, 0, 0, 0, 0, 0, 0, 0, 0, 0, 0]⟩, ?_, ?_, rfl, rfl, rfl, rfl, rfl, rfl, ?_⟩
  · exact trackBlob_error_of_right_none sampleEnv invalidRightLostState "a" sampleRightImage
      sampleBlankImage sampleDisparity ⟨0, 0, []⟩ ⟨2, 2, [0, 0, 0, 0, 0, 0, 0, 0, 0, 0, 0, 0]⟩
      ⟨⟨Fp.fin 0, Fp.fin 1⟩, ⟨Fp.fin 2, Fp.fin 2⟩, Fp.fin 0⟩ rfl rfl rfl rfl rfl
      invalid_track.1 invalid_track.2.2.1
  · rw [← hbr]
    exact trackBlob_of_invalidWindow sampleEnv invalidState "a" sampleRightImage
      sampleRightImage sampleDisparity ⟨2, 2, [0, 0, 0, 0, 0, 0, 0, 0, 0, 0, 0, 0]⟩
      ⟨2, 2, [0, 0, 0, 0, 0, 0, 0, 0, 0, 0, 0, 0]⟩
      ⟨⟨Fp.fin 0, Fp.fin 1⟩, ⟨Fp.fin 2, Fp.fin 2⟩, Fp.fin 0⟩
      ⟨⟨Fp.fin 0, Fp.fin 1⟩, ⟨Fp.fin 2, Fp.fin 2⟩, Fp.fin 0⟩ rfl rfl rfl rfl rfl
      invalid_track.1 invalid_track.2.1 hw
  · simp [boxBlob, Fp.ofInt]
  · intro disparity1 leftCamera1
    rw [trackBlob_of_invalidWindow sampleEnv
      { invalidState with disparity_ := some disparity1, leftCamera_ := leftCamera1 } "a"
      sampleRightImage sampleRightImage disparity1
      ⟨2, 2, [0, 0, 0, 0, 0, 0, 0, 0, 0, 0, 0, 0]⟩ ⟨2, 2, [0, 0, 0, 0, 0, 0, 0, 0, 0, 0, 0, 0]⟩
      ⟨⟨Fp.fin 0, Fp.fin 1⟩, ⟨Fp.fin 2, Fp.fin 2⟩, Fp.fin 0⟩
      ⟨⟨Fp.fin 0, Fp.fin 1⟩, ⟨Fp.fin 2, Fp.fin 2⟩, Fp.fin 0⟩ rfl rfl rfl rfl rfl
      invalid_track.1 invalid_track.2.1 hw, hbr]
    rfl

/-! ## The bound test of `hasDisparityValue` -/

/-- The bound test of `libhueblob/hueblob.cpp` lets a pair of coordinates
through as soon as one of them is inside the image. -/
theorem hasDisparityValue_of_outside (disparity_image : DisparityImage) (h w : Nat)
    (hh : disparity_image.image.height ≤ h) (hw : disparity_image.image.width ≤ w) :
    hasDisparityValue disparity_image h w = .ok false := by
  unfold hasDisparityValue
  simp [hh, hw]

/-- The copy of `nodes/roi2CloudProjector.cpp` is the copy of
`libhueblob/hueblob.cpp` inside the pixel grid and `false` outside. -/
theorem roi_hasDisparityValue_eq (disparity_image : DisparityImage) (h w : Nat) :
    Roi2CloudProjector.hasDisparityValue disparity_image h w
      = if h < disparity_image.image.height ∧ w < disparity_image.image.width then
          hasDisparityValue disparity_image h w
        else .ok false := by
  unfold Roi2CloudProjector.hasDisparityValue hasDisparityValue
  by_cases hh : h < disparity_image.image.height
  · by_cases hw : w < disparity_image.image.width
    · simp [hh, hw, Nat.not_le.2 hh, Nat.not_le.2 hw]
    · simp [hh, hw, Nat.not_lt.1 hw]
  · simp [hh, Nat.not_lt.1 hh]

/-- The two copies agree inside the pixel grid and when both coordinates are
outside. -/
theorem hasDisparityValue_copies_agree (disparity_image : DisparityImage) (h w : Nat)
    (hin : (h < disparity_image.image.height ∧ w < disparity_image.image.width)
      ∨ (disparity_image.image.height ≤ h ∧ disparity_image.image.width ≤ w)) :
    Roi2CloudProjector.hasDisparityValue disparity_image h w
      = hasDisparityValue disparity_image h w := by
  rw [roi_hasDisparityValue_eq]
  rcases hin with hin | hin
  · rw [if_pos hin]
  · rw [if_neg (fun hc => absurd hc.1 (Nat.not_lt.2 hin.1)),
      hasDisparityValue_of_outside _ _ _ hin.1 hin.2]

/-- The copy of `nodes/roi2CloudProjector.cpp` returns true inside the pixel
grid only. -/
theorem roi_hasDisparityValue_inside (disparity_image : DisparityImage) (h w : Nat)
    (ht : Roi2CloudProjector.hasDisparityValue disparity_image h w = .ok true) :
    h < disparity_image.image.height ∧ w < disparity_image.image.width := by
  rw [roi_hasDisparityValue_eq] at ht
  by_contra hc
  rw [if_neg hc] at ht
  cases ht

/-- The copy of `libhueblob/hueblob.cpp` returns true only if one of the two
coordinates is inside the image. -/
theorem hasDisparityValue_one_inside (disparity_image : DisparityImage) (h w : Nat)
    (ht : hasDisparityValue disparity_image h w = .ok true) :
    h < disparity_image.image.height ∨ w < disparity_image.image.width := by
  by_contra hc
  rw [not_or, Nat.not_lt, Nat.not_lt] at hc
  rw [hasDisparityValue_of_outside _ _ _ hc.1 hc.2] at ht
  cases ht

/-- Row 0, column 3 of the 2x2 sample image: the column is outside, the byte
index is that of pixel `(1, 1)`, whose value 2 lies in the range `[0, 4]`. -/
theorem hasDisparityValue_sample_row_end :
    byteIndex sampleDisparity.image 0 3 = 1 * sampleDisparity.image.step + 4 * 1
      ∧ hasDisparityValue sampleDisparity 0 3 = .ok true := by
  constructor
  · decide
  · simp [hasDisparityValue, byteIndex, readFloat, sampleDisparity, Fp.ofBits, Fp.isnan,
      Fp.isinf]
    norm_num

/-- Row 2, column 0 of the 2x2 sample image: the row is outside, and so is
the byte index 16 in the 16 bytes of the image. -/
theorem hasDisparityValue_sample_below :
    hasDisparityValue sampleDisparity 2 0 = .error .outOfRange := by
  simp [hasDisparityValue, byteIndex, readFloat, sampleDisparity]

/-- The assertion of `getPoint` at row 0, column 3 of the 2x2 sample image. -/
theorem getPoint_sample_row_end :
    getPoint sampleDisparity.image 0 3 = .error .assertFailed := by
  simp [getPoint, sampleDisparity]

/-- The loop of `get3dCloud` over the box `(3, 0, 2, 2)` on the 2x2 sample
image stops at its first pixel, row 0 and column 3. -/
theorem get3dCloud_sample_outside (right_rect : Rect) :
    get3dCloud sampleDisparity sampleCamera ⟨3, 0, 2, 2⟩ right_rect []
      = .error .assertFailed := by
  have h1 : loopRange 0 2 = [0, 1] := by decide
  have h3 : loopRange 3 2 = [3, 4] := by decide
  have hp : cloudPixel sampleDisparity sampleCamera 0 3 [] = .error .assertFailed := by
    unfold cloudPixel
    rw [show toUnsigned 0 = 0 by decide, show toUnsigned 3 = 3 by decide,
      hasDisparityValue_sample_row_end.2, getPoint_sample_row_end]
  have hr : cloudRows sampleDisparity sampleCamera (loopRange 3 2) (loopRange 0 2) []
      = .error .assertFailed := by
    rw [h1, h3]
    simp only [cloudRows, cloudRow, hp]
  show (match cloudRows sampleDisparity sampleCamera (loopRange 3 2) (loopRange 0 2) [] with
    | .error e => .error e
    | .ok cloud => .ok (cloud, centerEstimate sampleDisparity sampleCamera ⟨3, 0, 2, 2⟩
        right_rect)) = Except.error Fault.assertFailed
  rw [hr]

/-- The call of `trackBlob` in `outsideState`: the left window `(3, 0, 2, 2)`
passes the window test and the reconstruction stops at an assertion. -/
theorem trackBlob_outside : trackBlob sampleEnv outsideState "a" = .error .assertFailed := by
  simp [trackBlob, outsideState, sampleState, sampleEnv, Registry.subscript, Registry.find,
    invalidWindow, sampleLeftImage, sampleRightImage, List.lookup, get3dCloud_sample_outside]

/-- C22, the code at the failing input: on the 2x2 sample image
`hasDisparityValue` returns true at row 0, column 3 although the column is
not less than the width (it reads the bytes of pixel `(1, 1)`); the assertion
of the `getPoint` call that follows fails, and so do `get3dCloud` on the box
`(x=3, y=0, width=2, height=2)`, which passes the window test of `trackBlob`,
and `trackBlob` in `outsideState`, where that box is the tracked window; the
copy of `nodes/roi2CloudProjector.cpp` returns false at these coordinates. -/
theorem hasDisparityValue_true_outside_grid :
    hasDisparityValue sampleDisparity 0 3 = .ok true
      ∧ ¬ (3 < sampleDisparity.image.width)
      ∧ byteIndex sampleDisparity.image 0 3 = 1 * sampleDisparity.image.step + 4 * 1
      ∧ getPoint sampleDisparity.image 0 3 = .error .assertFailed
      ∧ invalidWindow ⟨3, 0, 2, 2⟩ = false
      ∧ get3dCloud sampleDisparity sampleCamera ⟨3, 0, 2, 2⟩ ⟨-1, 0, 2, 2⟩ []
        = .error .assertFailed
      ∧ trackBlob sampleEnv outsideState "a" = .error .assertFailed
      ∧ Roi2CloudProjector.hasDisparityValue sampleDisparity 0 3 = .ok false := by
  refine ⟨hasDisparityValue_sample_row_end.2, by decide, hasDisparityValue_sample_row_end.1,
    getPoint_sample_row_end, by decide, get3dCloud_sample_outside _, trackBlob_outside, ?_⟩
  rw [roi_hasDisparityValue_eq, if_neg (by decide)]

/-- C23, the code at the failing inputs: on the 2x2 sample image, at row 0,
column 3 the copy of `libhueblob/hueblob.cpp` returns true and the copy of
`nodes/roi2CloudProjector.cpp` false; at row 2, column 0 the first fails on a
read past the end of the data and the second returns false. -/
theorem hasDisparityValue_copies_differ :
    hasDisparityValue sampleDisparity 0 3 = .ok true
      ∧ Roi2CloudProjector.hasDisparityValue sampleDisparity 0 3 = .ok false
      ∧ hasDisparityValue sampleDisparity 2 0 = .error .outOfRange
      ∧ Roi2CloudProjector.hasDisparityValue sampleDisparity 2 0 = .ok false := by
  refine ⟨hasDisparityValue_sample_row_end.2, ?_, hasDisparityValue_sample_below, ?_⟩
  · rw [roi_hasDisparityValue_eq, if_neg (by decide)]
  · rw [roi_hasDisparityValue_eq, if_neg (by decide)]

end Hueblob
